import Mathlib

/-!
The sstest order submission workflow

A shallow embedding of the Go packages `model/product`, `model/coupon`,
`model/order` and `model/user`.

Conventions of the embedding.

* Go `int` and `int64` are 64 bit two's complement integers.  They are
  embedded as `Int`; every arithmetic operation of the source is followed by
  `wrapInt64`, which reduces the exact result into `[-2^63, 2^63)`.
* `decimal.Decimal` (shopspring) is an arbitrary precision decimal.  Its
  operations `Add`, `Sub`, `Mul` and the comparisons are exact, so a decimal is
  embedded by its value in `ℚ`.  `Div` rounds the quotient to
  `DivisionPrecision = 16` decimal places, halves away from zero.
* `time.Time` is embedded as an integer instant, in seconds; each call of
  `time.Now()` is a parameter of the function that makes it, and a calendar day
  is 86400 seconds.
* The results of the calls of `bcrypt` are parameters of the methods of a user
  that make them.
* Pointers to products and coupons are heap addresses (`Nat`, an index into the
  heap of the `World`).  An address outside the heap stands for `nil`:
  dereferencing it is a run-time panic.
* A Go map is a list of key/value pairs; `range` visits it in list order.
* The mutexes are not embedded (every operation is sequential).
-/

set_option linter.unusedVariables false

namespace Sstest

/-! ## Machine integers -/

/-- Two's complement reduction of an exact integer to the range of `int64`. -/
def wrapInt64 (x : Int) : Int := (x + 2 ^ 63) % 2 ^ 64 - 2 ^ 63

/-- The values of the Go types `int` and `int64`. -/
def IsInt64 (x : Int) : Prop := -(2 ^ 63) ≤ x ∧ x < 2 ^ 63

instance (x : Int) : Decidable (IsInt64 x) := by
  unfold IsInt64; infer_instance

/-- Constant `math.MinInt64`. -/
def MinInt64 : Int := -(2 ^ 63)

/-- Constant `math.MaxInt64`. -/
def MaxInt64 : Int := 2 ^ 63 - 1

/-! ## Decimals and instants -/

/-- A `decimal.Decimal`, embedded by its exact value. -/
abbrev Decimal := ℚ

/-- Constructor `decimal.New(value, exp)`: the decimal `value * 10 ^ exp`. -/
def Decimal.New (value : Int) (exp : Int) : Decimal := (value : ℚ) * (10 : ℚ) ^ exp

/-- Package variable `decimal.DivisionPrecision`. -/
def Decimal.DivisionPrecision : Nat := 16

/-- Rounding of a rational to `places` decimal places, halves away from zero. -/
def Decimal.roundPlaces (x : ℚ) (places : Nat) : ℚ :=
  let s : ℚ := x * (10 : ℚ) ^ places
  if 0 ≤ s then ((⌊s + 1 / 2⌋ : Int) : ℚ) / (10 : ℚ) ^ places
  else (-(⌊-s + 1 / 2⌋ : Int) : ℚ) / (10 : ℚ) ^ places

/-- Method `Decimal.Add`. -/
def Decimal.Add (d d2 : Decimal) : Decimal := d + d2

/-- Method `Decimal.Sub`. -/
def Decimal.Sub (d d2 : Decimal) : Decimal := d - d2

/-- Method `Decimal.Mul`. -/
def Decimal.Mul (d d2 : Decimal) : Decimal := d * d2

/-- Method `Decimal.Div`: the quotient rounded to `DivisionPrecision` places. -/
def Decimal.Div (d d2 : Decimal) : Decimal :=
  Decimal.roundPlaces (d / d2) Decimal.DivisionPrecision

/-- Method `Decimal.GreaterThanOrEqual`. -/
def Decimal.GreaterThanOrEqual (d d2 : Decimal) : Bool := decide (d2 ≤ d)

/-- Method `Decimal.GreaterThan`. -/
def Decimal.GreaterThan (d d2 : Decimal) : Bool := decide (d2 < d)

/-- Method `Decimal.LessThanOrEqual`. -/
def Decimal.LessThanOrEqual (d d2 : Decimal) : Bool := decide (d ≤ d2)

/-- A `time.Time` instant, in seconds. -/
abbrev Time := Int

/-- The length of a calendar day (the location is taken without a change of
offset). -/
def Time.secondsPerDay : Int := 86400

/-- The value of `time.Date(t.Year(), t.Month(), t.Day(), 0, 0, 0, 0,
t.Location())`: the beginning of the day of `t`. -/
def Time.beginningOfDay (t : Time) : Time := t - t % Time.secondsPerDay

/-- Method `Time.AddDate(0, 0, days)`. -/
def Time.AddDays (t : Time) (days : Int) : Time := t + days * Time.secondsPerDay

/-! ## Errors -/

/-- The places of the source that build an error. -/
inductive Site where
  | productQuantity
  | productStatus
  | productStock
  | couponUnknownStatus
  | couponStatus
  | couponEarly
  | couponExpired
  | couponStock
  | itemOverflow
  | itemNotPositive
  | addNotDraft
  | addCannotOrder
  | addCannotOrderMore
  | applyNotDraft
  | applyNoItem
  | applyCannotApply
  | applyAmount
  | amountNotPositive
  | submitNotDraft
  | submitNoItem
  | submitItem
  | submitCoupon
  | editNotDraft
  | editNoProduct
  | editCannotOrder
  | deleteNotDraft
  | deleteNoProduct
  | processNotSubmitted
  | cancelNotSubmitted
  | shippingNotProcessed
  | finishNotProcessed
  | couponUnknownKind
  | couponKindValue
  | couponValueNotPositive
  | couponValuePercentage
  | couponStartDate
  | couponEndDate
  | productNegativePrice
  | productUnknownStatus
  | orderUnknownStatus
  | orderUnknownShippingStatus
  | userCreate
  | userPassword
  | userPasswordHash
  | userUnknownStatus
  | userValidatePassword
  | userNotActive
  deriving DecidableEq, Repr

/-- A non-nil `*errors.Error`: the place that built it and, when its message
quotes another error, that error. -/
inductive Error where
  | leaf (site : Site)
  | wrap (site : Site) (cause : Error)
  deriving DecidableEq, Repr

/-- An error built at `site` whose message formats the possibly nil error
`cause` with `%v`. -/
def Error.quote (site : Site) (cause : Option Error) : Error :=
  match cause with
  | some e => Error.wrap site e
  | none => Error.leaf site

/-! ## Package product -/

/-- Struct `product.Product` (without its mutex). -/
structure Product where
  id : String
  name : String
  status : String
  price : Decimal
  stock : Int
  deriving DecidableEq, Repr

namespace Product

/-- Constant `product.StatusPrototype`. -/
def StatusPrototype : String := "P"

/-- Constant `product.StatusAvailable`. -/
def StatusAvailable : String := "A"

/-- Constant `product.StatusDiscontinued`. -/
def StatusDiscontinued : String := "D"

/-- Function `product.New`. -/
def New (id name : String) : Product :=
  { id := id, name := name, status := StatusPrototype, price := Decimal.New 0 0, stock := 0 }

/-- Variable `product.statusSlice`. -/
def statusSlice : List (String × String) :=
  [(StatusPrototype, "Prototype"), (StatusAvailable, "Available"),
   (StatusDiscontinued, "Discontinued")]

/-- Method `Product.SetID`. -/
def SetID (p : Product) (id : String) : Product := { p with id := id }

/-- Method `Product.SetName`. -/
def SetName (p : Product) (name : String) : Product := { p with name := name }

/-- Method `Product.SetStock`. -/
def SetStock (p : Product) (stock : Int) : Product := { p with stock := stock }

/-- Method `Product.SetPrice`: the product after the call and the error returned
(the returned pointer is nil exactly when the error is not). -/
def SetPrice (p : Product) (price : Decimal) : Product × Option Error :=
  if (Decimal.New 0 0).GreaterThan price = true then
    (p, some (Error.leaf Site.productNegativePrice))
  else ({ p with price := price }, none)

/-- Method `Product.SetStatus`: the product after the call and the error
returned (the returned pointer is nil exactly when the error is not). -/
def SetStatus (p : Product) (status : String) : Product × Option Error :=
  if (statusSlice.lookup status).isNone then (p, some (Error.leaf Site.productUnknownStatus))
  else ({ p with status := status }, none)

/-- Method `Product.CanBeOrdered`: the pair `(bool, error)` it returns. -/
def CanBeOrdered (p : Product) (quantity : Int) : Bool × Option Error :=
  if quantity ≤ 0 then (false, some (Error.leaf Site.productQuantity))
  else if p.status ≠ StatusAvailable then (false, some (Error.leaf Site.productStatus))
  else if wrapInt64 (p.stock - quantity) < 0 then (false, some (Error.leaf Site.productStock))
  else (true, none)

end Product

/-! ## Package coupon -/

/-- Struct `coupon.Coupon` (without its mutex). -/
structure Coupon where
  id : String
  status : String
  stock : Int
  kind : String
  value : Decimal
  startDate : Time
  endDate : Time
  deriving DecidableEq, Repr

namespace Coupon

/-- Constant `coupon.StatusActive`. -/
def StatusActive : String := "A"

/-- Constant `coupon.StatusInactive`. -/
def StatusInactive : String := "I"

/-- Constant `coupon.StatusExpired`. -/
def StatusExpired : String := "E"

/-- Constant `coupon.StatusSuspended`. -/
def StatusSuspended : String := "S"

/-- Variable `coupon.statusMap`. -/
def statusMap : List (String × String) :=
  [(StatusActive, "Active"), (StatusInactive, "Inactive"), (StatusExpired, "Expired"),
   (StatusSuspended, "Suspended")]

/-- Constant `coupon.KindValue`. -/
def KindValue : String := "V"

/-- Constant `coupon.KindPercentage`. -/
def KindPercentage : String := "P"

/-- Variable `coupon.kindMap`. -/
def kindMap : List (String × String) :=
  [(KindValue, "Value"), (KindPercentage, "Percentage")]

/-- Function `coupon.New`; `currentTime` is the value of `time.Now()`. -/
def New (id : String) (currentTime : Time) : Coupon :=
  let couponStartDate := Time.beginningOfDay currentTime
  let couponEndDate := couponStartDate.AddDays 90
  { id := id, status := StatusInactive, stock := 0, kind := KindPercentage,
    value := Decimal.New 10 0, startDate := couponStartDate, endDate := couponEndDate }

/-- Method `Coupon.SetID`. -/
def SetID (c : Coupon) (id : String) : Coupon := { c with id := id }

/-- Method `Coupon.SetStock`. -/
def SetStock (c : Coupon) (stock : Int) : Coupon := { c with stock := stock }

/-- Method `Coupon.SetStatus`: the coupon after the call and the error returned
(the returned pointer is nil exactly when the error is not). -/
def SetStatus (c : Coupon) (status : String) : Coupon × Option Error :=
  if (statusMap.lookup status).isNone then (c, some (Error.leaf Site.couponUnknownStatus))
  else ({ c with status := status }, none)

/-- Method `Coupon.SetKind`: the coupon after the call and the error returned
(the returned pointer is nil exactly when the error is not). -/
def SetKind (c : Coupon) (kind : String) : Coupon × Option Error :=
  if (kindMap.lookup kind).isNone then (c, some (Error.leaf Site.couponUnknownKind))
  else if KindPercentage = kind ∧ c.value.GreaterThanOrEqual (Decimal.New 100 0) = true then
    (c, some (Error.leaf Site.couponKindValue))
  else ({ c with kind := kind }, none)

/-- Method `Coupon.SetValue`: the coupon after the call and the error returned
(the returned pointer is nil exactly when the error is not). -/
def SetValue (c : Coupon) (value : Decimal) : Coupon × Option Error :=
  if value.LessThanOrEqual (Decimal.New 0 0) = true then
    (c, some (Error.leaf Site.couponValueNotPositive))
  else if KindPercentage = c.kind ∧ value.GreaterThanOrEqual (Decimal.New 100 0) = true then
    (c, some (Error.leaf Site.couponValuePercentage))
  else ({ c with value := value }, none)

/-- Method `Coupon.SetStartDate`: the coupon after the call and the error
returned (the returned pointer is nil exactly when the error is not). -/
def SetStartDate (c : Coupon) (startDate : Time) : Coupon × Option Error :=
  if c.endDate < startDate then (c, some (Error.leaf Site.couponStartDate))
  else ({ c with startDate := startDate }, none)

/-- Method `Coupon.SetEndDate`: the coupon after the call and the error
returned (the returned pointer is nil exactly when the error is not). -/
def SetEndDate (c : Coupon) (endDate : Time) : Coupon × Option Error :=
  if endDate < c.startDate then (c, some (Error.leaf Site.couponEndDate))
  else ({ c with endDate := endDate }, none)

/-- Method `Coupon.IsEarly`; `now` is the value of `time.Now()`. -/
def IsEarly (c : Coupon) (now : Time) : Bool × Coupon :=
  if now < c.startDate then (true, (c.SetStatus StatusInactive).1)
  else (false, c)

/-- Method `Coupon.IsExpired`; `now` is the value of `time.Now()`. -/
def IsExpired (c : Coupon) (now : Time) : Bool × Coupon :=
  if c.endDate < now then (true, (c.SetStatus StatusExpired).1)
  else (false, c)

/-- Method `Coupon.CanBeApplied`: the pair `(bool, error)` it returns and the
coupon after the call.  `nowEarly` and `nowExpired` are the values of
`time.Now()` read by `IsEarly` and by `IsExpired`. -/
def CanBeApplied (c : Coupon) (nowEarly nowExpired : Time) : Bool × Option Error × Coupon :=
  if c.status ≠ StatusActive then (false, some (Error.leaf Site.couponStatus), c)
  else
    let early := c.IsEarly nowEarly
    if early.1 then (false, some (Error.leaf Site.couponEarly), early.2)
    else
      let expired := early.2.IsExpired nowExpired
      if expired.1 then (false, some (Error.leaf Site.couponExpired), expired.2)
      else if expired.2.stock ≤ 0 then (false, some (Error.leaf Site.couponStock), expired.2)
      else (true, none, expired.2)

/-- Method `Coupon.GetDiscountAmount`. -/
def GetDiscountAmount (c : Coupon) (amount : Decimal) : Decimal :=
  if KindPercentage = c.kind then (amount.Mul c.value).Div (Decimal.New 100 0)
  else c.value

end Coupon

/-! ## Package order -/

/-- Struct `order.Item` (without its mutex and without the back reference to
the owning order, which no operation reads).  `product` is a pointer. -/
structure Item where
  id : String
  product : Nat
  quantity : Int
  deriving DecidableEq, Repr

/-- Function `order.NewItem`. -/
def NewItem (id : String) (productID : Nat) : Item :=
  { id := id, product := productID, quantity := 0 }

/-- Method `Item.AddQuantity`: the item after the call and the error returned
(the returned pointer is nil exactly when the error is not). -/
def Item.AddQuantity (i : Item) (quantity : Int) : Item × Option Error :=
  if decide (wrapInt64 (i.quantity + quantity) < i.quantity) != decide (quantity < 0) then
    (i, some (Error.leaf Site.itemOverflow))
  else if 0 ≥ wrapInt64 (i.quantity + quantity) then
    (i, some (Error.leaf Site.itemNotPositive))
  else ({ i with quantity := wrapInt64 (i.quantity + quantity) }, none)

/-- Method `Item.SubtractQuantity`: the item after the call and the error
returned (the returned pointer is nil exactly when the error is not). -/
def Item.SubtractQuantity (i : Item) (quantity : Int) : Item × Option Error :=
  let r := i.AddQuantity (wrapInt64 (0 - quantity))
  match r.2 with
  | some err => (r.1, some err)
  | none => (r.1, none)

/-- Struct `order.Order` (without its mutex).  `items` is the map from product
id to item, `coupon` a pointer that may be nil. -/
structure Order where
  id : String
  createdDate : Time
  submittedDate : Time
  processedDate : Time
  status : String
  items : List (String × Item)
  coupon : Option Nat
  amount : Decimal
  shippingName : String
  shippingAddress : String
  shippingStatus : String
  shippingTrackingID : String
  deriving DecidableEq, Repr

/-- The objects an operation on an order can reach: the order itself, and the
heaps of the products and of the coupons. -/
structure World where
  order : Order
  products : List Product
  coupons : List Coupon
  deriving DecidableEq, Repr

/-- How a call of a method returning `(bool, *errors.Error)` ends: it returns
its two results, leaving the world `w`, or it panics. -/
inductive Outcome where
  | ret (ok : Bool) (err : Option Error) (w : World)
  | panic
  deriving DecidableEq, Repr

/-- Assignment `m[key] = val` on a map. -/
def mapSet {α : Type} (m : List (String × α)) (key : String) (val : α) : List (String × α) :=
  match m with
  | [] => [(key, val)]
  | (k, v) :: rest => if k = key then (key, val) :: rest else (k, v) :: mapSet rest key val

/-- Statement `delete(m, key)` on a map. -/
def mapDelete {α : Type} (m : List (String × α)) (key : String) : List (String × α) :=
  m.filter (fun kv => kv.1 ≠ key)

namespace Order

/-- Constant `order.StatusDraft`. -/
def StatusDraft : String := "D"

/-- Constant `order.StatusSubmitted`. -/
def StatusSubmitted : String := "S"

/-- Constant `order.StatusCanceled`. -/
def StatusCanceled : String := "C"

/-- Constant `order.StatusProcessed`. -/
def StatusProcessed : String := "P"

/-- Constant `order.StatusDelivered`. -/
def StatusDelivered : String := "DL"

/-- Constant `order.ShipStatusNone`. -/
def ShipStatusNone : String := "N"

/-- Constant `order.ShipStatusOnProcess`. -/
def ShipStatusOnProcess : String := "O"

/-- Constant `order.ShipStatusDelivered`. -/
def ShipStatusDelivered : String := "D"

/-- Function `order.New`; `now` is the value of `time.Now()`. -/
def New (id : String) (now : Time) : Order :=
  { id := id, createdDate := now, submittedDate := 0, processedDate := 0,
    status := StatusDraft, items := [], coupon := none, amount := Decimal.New 0 0,
    shippingName := "", shippingAddress := "", shippingStatus := ShipStatusNone,
    shippingTrackingID := "" }

/-- Method `Order.SetCoupon`. -/
def SetCoupon (o : Order) (coupon : Option Nat) : Order := { o with coupon := coupon }

/-- Method `Order.HasProduct`; `none` is the panic on a nil product. -/
def HasProduct (w : World) (product : Nat) : Option Bool :=
  match w.products[product]? with
  | none => none
  | some p => some (w.order.items.lookup p.id).isSome

/-- Method `Order.AddProduct`; `uuid` is the value of `uuid.New().String()`. -/
def AddProduct (w : World) (product : Nat) (quantity : Int) (uuid : String) : Outcome :=
  if StatusDraft ≠ w.order.status then
    Outcome.ret false (some (Error.leaf Site.addNotDraft)) w
  else
    match HasProduct w product, w.products[product]? with
    | some false, some p =>
      let r := p.CanBeOrdered quantity
      if r.1 = false then Outcome.ret false (some (Error.quote Site.addCannotOrder r.2)) w
      else
        let newItem := { NewItem uuid product with quantity := quantity }
        Outcome.ret true none
          { w with order := { w.order with items := mapSet w.order.items p.id newItem } }
    | some true, some p =>
      match w.order.items.lookup p.id with
      | none => Outcome.panic
      | some existingItem =>
        let r := p.CanBeOrdered (wrapInt64 (existingItem.quantity + quantity))
        if r.1 = false then
          Outcome.ret false (some (Error.quote Site.addCannotOrderMore r.2)) w
        else
          Outcome.ret true none
            { w with order := { w.order with
                items := mapSet w.order.items p.id (existingItem.AddQuantity quantity).1 } }
    | _, _ => Outcome.panic

/-- Method `Order.EditProduct`. -/
def EditProduct (w : World) (product : Nat) (quantity : Int) : Outcome :=
  if StatusDraft ≠ w.order.status then
    Outcome.ret false (some (Error.leaf Site.editNotDraft)) w
  else
    match HasProduct w product, w.products[product]? with
    | some false, some _ => Outcome.ret false (some (Error.leaf Site.editNoProduct)) w
    | some true, some p =>
      match w.order.items.lookup p.id with
      | none => Outcome.panic
      | some existingItem =>
        let r := p.CanBeOrdered (wrapInt64 (existingItem.quantity + quantity))
        if r.1 = false then
          Outcome.ret false (some (Error.quote Site.editCannotOrder r.2)) w
        else
          Outcome.ret true none
            { w with order := { w.order with
                items := mapSet w.order.items p.id
                  { existingItem with
                    quantity := wrapInt64 (existingItem.quantity + quantity) } } }
    | _, _ => Outcome.panic

/-- Method `Order.DeleteProduct`. -/
def DeleteProduct (w : World) (product : Nat) : Outcome :=
  if StatusDraft ≠ w.order.status then
    Outcome.ret false (some (Error.leaf Site.deleteNotDraft)) w
  else
    match HasProduct w product, w.products[product]? with
    | some false, some _ => Outcome.ret false (some (Error.leaf Site.deleteNoProduct)) w
    | some true, some p =>
      Outcome.ret true none
        { w with order := { w.order with items := mapDelete w.order.items p.id } }
    | _, _ => Outcome.panic

/-- The loop of `calculateAmount`: the sum, added to `amount`, of price times
quantity over the items; `none` is the panic on a nil product. -/
def sumItems (products : List Product) : List (String × Item) → Decimal → Option Decimal
  | [], amount => some amount
  | (_, val) :: rest, amount =>
    match products[val.product]? with
    | none => none
    | some p => sumItems products rest (amount.Add (p.price.Mul (Decimal.New val.quantity 0)))

/-- Method `Order.calculateAmount`; `coupon` is a pointer that may be nil. -/
def calculateAmount (w : World) (coupon : Option Nat) : Outcome :=
  match sumItems w.products w.order.items (Decimal.New 0 0) with
  | none => Outcome.panic
  | some amount =>
    match coupon with
    | none => Outcome.ret true none { w with order := { w.order with amount := amount } }
    | some c =>
      match w.coupons[c]? with
      | none => Outcome.panic
      | some cpn =>
        let discountAmount := cpn.GetDiscountAmount amount
        let amount := amount.Sub discountAmount
        if (Decimal.New 0 0).GreaterThanOrEqual amount then
          -- the message formats `o.coupon.ID()`, the coupon of the order
          match w.order.coupon with
          | none => Outcome.panic
          | some oc =>
            match w.coupons[oc]? with
            | none => Outcome.panic
            | some _ => Outcome.ret false (some (Error.leaf Site.amountNotPositive)) w
        else Outcome.ret true none { w with order := { w.order with amount := amount } }

/-- Method `Order.applyCoupon`; `coupon` is a pointer, `nowEarly` and
`nowExpired` are the clock readings of `Coupon.CanBeApplied`. -/
def applyCoupon (w : World) (coupon : Nat) (nowEarly nowExpired : Time) : Outcome :=
  if StatusDraft ≠ w.order.status then
    Outcome.ret false (some (Error.leaf Site.applyNotDraft)) w
  else if 0 = w.order.items.length then
    Outcome.ret false (some (Error.leaf Site.applyNoItem)) w
  else
    match w.coupons[coupon]? with
    | none => Outcome.panic
    | some cpn =>
      let r := cpn.CanBeApplied nowEarly nowExpired
      let w1 : World := { w with coupons := w.coupons.set coupon r.2.2 }
      match r.2.1 with
      | some err => Outcome.ret false (some (Error.wrap Site.applyCannotApply err)) w1
      | none =>
        match calculateAmount w1 (some coupon) with
        | Outcome.panic => Outcome.panic
        | Outcome.ret _ (some err) w2 =>
          Outcome.ret false (some (Error.wrap Site.applyAmount err)) w2
        | Outcome.ret _ none w2 =>
          Outcome.ret true none { w2 with order := w2.order.SetCoupon (some coupon) }

/-- The first loop of `Submit`: `some none` when every item passes
`CanBeOrdered`, `some (some err)` with the error of `Submit` at the first item
that does not, `none` for the panic on a nil product. -/
def checkItems (products : List Product) : List (String × Item) → Option (Option Error)
  | [] => some none
  | (_, val) :: rest =>
    match products[val.product]? with
    | none => none
    | some p =>
      let r := p.CanBeOrdered val.quantity
      if r.1 = false then some (some (Error.quote Site.submitItem r.2))
      else checkItems products rest

/-- The last loop of `Submit`: every item takes its quantity off the stock of
its product; `none` is the panic on a nil product. -/
def commitStock : List Product → List (String × Item) → Option (List Product)
  | products, [] => some products
  | products, (_, val) :: rest =>
    match products[val.product]? with
    | none => none
    | some p =>
      commitStock (products.set val.product (p.SetStock (wrapInt64 (p.stock - val.quantity)))) rest

/-- The end of `Submit`, from the assignment of the status on; `now` is the
value of `time.Now()`. -/
def commit (w : World) (now : Time) : Outcome :=
  let o : Order := { w.order with status := StatusSubmitted, submittedDate := now,
                                  shippingStatus := ShipStatusNone }
  match commitStock w.products o.items with
  | none => Outcome.panic
  | some products => Outcome.ret true none { w with order := o, products := products }

/-- Method `Order.Submit`; `coupon` is a pointer that may be nil, `nowEarly` and
`nowExpired` are the clock readings of `Coupon.CanBeApplied`, `now` the one of
`Submit` itself. -/
def Submit (w : World) (shippingName shippingAddress : String) (coupon : Option Nat)
    (nowEarly nowExpired now : Time) : Outcome :=
  if StatusDraft ≠ w.order.status then
    Outcome.ret false (some (Error.leaf Site.submitNotDraft)) w
  else if 0 = w.order.items.length then
    Outcome.ret false (some (Error.leaf Site.submitNoItem)) w
  else
    match checkItems w.products w.order.items with
    | none => Outcome.panic
    | some (some err) => Outcome.ret false (some err) w
    | some none =>
      match coupon with
      | some c =>
        match applyCoupon w c nowEarly nowExpired with
        | Outcome.panic => Outcome.panic
        | Outcome.ret _ (some err) w1 =>
          Outcome.ret false (some (Error.wrap Site.submitCoupon err)) w1
        | Outcome.ret _ none w1 =>
          match w1.coupons[c]? with
          | none => Outcome.panic
          | some cpn =>
            commit { w1 with coupons := w1.coupons.set c (cpn.SetStock (wrapInt64 (cpn.stock - 1))) }
              now
      | none =>
        match calculateAmount w none with
        | Outcome.panic => Outcome.panic
        | Outcome.ret _ _ w1 => commit w1 now

/-- Method `Order.Process`; `now` is the value of `time.Now()`. -/
def Process (w : World) (now : Time) : Outcome :=
  if StatusSubmitted ≠ w.order.status then
    Outcome.ret false (some (Error.leaf Site.processNotSubmitted)) w
  else
    Outcome.ret true none
      { w with order := { w.order with status := StatusProcessed, processedDate := now } }

/-- Method `Order.Cancel`. -/
def Cancel (w : World) : Outcome :=
  if StatusSubmitted ≠ w.order.status then
    Outcome.ret false (some (Error.leaf Site.cancelNotSubmitted)) w
  else
    Outcome.ret true none { w with order := { w.order with status := StatusCanceled } }

/-- Method `Order.ProcessShipping`. -/
def ProcessShipping (w : World) (trackingNo : String) : Outcome :=
  if StatusProcessed ≠ w.order.status then
    Outcome.ret false (some (Error.leaf Site.shippingNotProcessed)) w
  else
    Outcome.ret true none
      { w with order := { w.order with shippingTrackingID := trackingNo,
                                       shippingStatus := ShipStatusOnProcess } }

/-- Method `Order.FinishOrder`. -/
def FinishOrder (w : World) : Outcome :=
  if StatusProcessed ≠ w.order.status then
    Outcome.ret false (some (Error.leaf Site.finishNotProcessed)) w
  else
    Outcome.ret true none
      { w with order := { w.order with status := StatusDelivered,
                                       shippingStatus := ShipStatusDelivered } }

end Order

end Sstest

namespace Sstest

/-! ## Specification -/

/-- Spec: the sum over the items of product price times quantity. -/
def Order.subtotalSpec (products : List Product) (items : List (String × Item)) : ℚ :=
  (items.map (fun kv =>
    match products[kv.2.product]? with
    | some p => p.price * (kv.2.quantity : ℚ)
    | none => 0)).sum

/-- Spec: the worlds whose order is reachable from `order.New` by a sequence of
calls of `AddProduct`, `EditProduct` and `DeleteProduct` that return. -/
inductive Order.ItemsReachable : World → Prop where
  | new (id : String) (now : Time) (products : List Product) (coupons : List Coupon) :
      Order.ItemsReachable { order := Order.New id now, products := products, coupons := coupons }
  | add {w w' : World} {ok : Bool} {err : Option Error} (p : Nat) (q : Int) (uuid : String) :
      Order.ItemsReachable w → Order.AddProduct w p q uuid = Outcome.ret ok err w' →
      Order.ItemsReachable w'
  | edit {w w' : World} {ok : Bool} {err : Option Error} (p : Nat) (q : Int) :
      Order.ItemsReachable w → Order.EditProduct w p q = Outcome.ret ok err w' →
      Order.ItemsReachable w'
  | delete {w w' : World} {ok : Bool} {err : Option Error} (p : Nat) :
      Order.ItemsReachable w → Order.DeleteProduct w p = Outcome.ret ok err w' →
      Order.ItemsReachable w'

/-- Spec: every item is stored under the id of its own product, and no key
occurs twice. -/
def Order.KeyedByProduct (w : World) : Prop :=
  (w.order.items.map Prod.fst).Nodup ∧
  ∀ kv ∈ w.order.items, ∃ prod, w.products[kv.2.product]? = some prod ∧ prod.id = kv.1

/-! ## Scenarios

The fixtures of `TestSubmitOrder`, and variations of them. -/

namespace Scenario

/-- Product `availableProd` of `TestSubmitOrder`. -/
def availableProd : Product :=
  { id := "availableProd", name := "Available Product", status := Product.StatusAvailable,
    price := Decimal.New 100 0, stock := 100 }

/-- Product `anotherAvailableProd` of `TestSubmitOrder`. -/
def anotherAvailableProd : Product :=
  { id := "anotherAvailableProd", name := "Another Available Product",
    status := Product.StatusAvailable, price := Decimal.New 150 0, stock := 50 }

/-- Coupon `activeValueCoupon` of `TestSubmitOrder`, valid from instant 0 to
instant 7776000. -/
def activeValueCoupon : Coupon :=
  { id := "activeCoupon", status := Coupon.StatusActive, stock := 100, kind := Coupon.KindValue,
    value := Decimal.New 100 0, startDate := 0, endDate := 7776000 }

/-- Coupon `activePercentageCoupon` of `TestSubmitOrder`. -/
def activePercentageCoupon : Coupon :=
  { id := "activePercentage", status := Coupon.StatusActive, stock := 10,
    kind := Coupon.KindPercentage, value := Decimal.New 20 0, startDate := 0,
    endDate := 7776000 }

/-- Coupon `inactiveCoupon` of `TestSubmitOrder`. -/
def inactiveCoupon : Coupon :=
  { id := "inactiveCoupon", status := Coupon.StatusInactive, stock := 50,
    kind := Coupon.KindPercentage, value := Decimal.New 50 0, startDate := 0,
    endDate := 7776000 }

/-- An active coupon whose start date, instant 5000, is still to come at
instant 1000. -/
def earlyCoupon : Coupon := { activeValueCoupon with id := "earlyCoupon", startDate := 5000 }

/-- A value coupon worth the whole subtotal (1250) of `validOrder`. -/
def fullValueCoupon : Coupon :=
  { activeValueCoupon with id := "fullValueCoupon", value := Decimal.New 1250 0 }

/-- The heap of the scenarios: products at addresses 0 and 1, coupons at
addresses 0 to 4. -/
def heap (o : Order) : World :=
  { order := o,
    products := [availableProd, anotherAvailableProd],
    coupons := [activeValueCoupon, activePercentageCoupon, inactiveCoupon, earlyCoupon,
                fullValueCoupon] }

/-- An order `validOrder1` .. `validOrder4` of `TestSubmitOrder`, created at
instant 1000: 5 of `availableProd` and 5 of `anotherAvailableProd`. -/
def validOrder : Order :=
  { Order.New "validOrder" 1000 with
    items := [("availableProd", { id := "item1", product := 0, quantity := 5 }),
              ("anotherAvailableProd", { id := "item2", product := 1, quantity := 5 })] }

/-- The order `validOrder` after a submission at instant 1000 that has set its
amount and its coupon to the given ones. -/
def submittedOrder (amount : Decimal) (coupon : Option Nat) : Order :=
  { validOrder with status := Order.StatusSubmitted, submittedDate := 1000,
                    shippingStatus := Order.ShipStatusNone, amount := amount, coupon := coupon }

/-- The two products after the submission of `validOrder`: 5 units less of
each. -/
def productsAfter : List Product :=
  [{ availableProd with stock := 95 }, { anotherAvailableProd with stock := 45 }]

/-- Order `noItemOrder` of `TestSubmitOrder`. -/
def noItemOrder : Order := Order.New "noItemOrder" 1000

/-- A product whose stock is the least `int64`. -/
def minStockProd : Product :=
  { id := "minStockProd", name := "Min Stock Product", status := Product.StatusAvailable,
    price := Decimal.New 100 0, stock := MinInt64 }

/-- A draft order of one unit of `minStockProd`, the only product of its heap. -/
def minStockWorld : World :=
  { order := { Order.New "minStockOrder" 1000 with
                 items := [("minStockProd", { id := "item1", product := 0, quantity := 1 })] },
    products := [minStockProd],
    coupons := [] }

/-- The world `minStockWorld` after the submission of its order at instant
1000: the stock of the product is the greatest `int64`. -/
def minStockWorldAfter : World :=
  { order := { minStockWorld.order with
                 status := Order.StatusSubmitted, submittedDate := 1000,
                 shippingStatus := Order.ShipStatusNone, amount := Decimal.New 100 0 },
    products := [{ minStockProd with stock := MaxInt64 }],
    coupons := [] }

/-- The order of `TestAddProduct` after its first call: 10 units of
`availableProd`. -/
def addedOrder : Order :=
  { Order.New "newOrder" 1000 with
    items := [("availableProd", { id := "item1", product := 0, quantity := 10 })] }

/-- The heap of `TestEditProduct`: `anotherAvailableProd` has a stock of 10. -/
def editHeap (o : Order) : World :=
  { order := o,
    products := [availableProd, { anotherAvailableProd with stock := 10 }],
    coupons := [] }

/-- The order of `TestEditProduct` before its edits: 5 units of `availableProd`
and 8 of `anotherAvailableProd`. -/
def editOrder : Order :=
  { Order.New "newOrder" 1000 with
    items := [("availableProd", { id := "item1", product := 0, quantity := 5 }),
              ("anotherAvailableProd", { id := "item2", product := 1, quantity := 8 })] }

/-- A product with the greatest `int64` as stock. -/
def maxStockProd : Product :=
  { id := "maxStockProd", name := "Max Stock Product", status := Product.StatusAvailable,
    price := Decimal.New 1 0, stock := MaxInt64 }

/-- An item of `maxStockProd` whose quantity has been set to -1 with
`SetQuantity`. -/
def negativeItem : Item := { id := "item1", product := 0, quantity := -1 }

/-- A draft order that holds `negativeItem`, with `maxStockProd` as the only
product of the heap. -/
def negativeItemWorld : World :=
  { order := { Order.New "negativeItemOrder" 1000 with
                 items := [("maxStockProd", negativeItem)] },
    products := [maxStockProd],
    coupons := [] }

/-- The order `newOrder` created at instant 1000 with its status set to
`status` by `SetStatus`. -/
def orderWithStatus (status : String) : Order :=
  { Order.New "newOrder" 1000 with status := status }

/-- A new item, as `NewItem` makes it for the product at address 0. -/
def newItem : Item := NewItem "newItem" 0

end Scenario

end Sstest

namespace Sstest

/-! ## Sequences of calls on an order -/

namespace Order

/-- A call of one of the methods that change an order, with its arguments and
the clock values it reads. -/
inductive Call where
  | addProduct (product : Nat) (quantity : Int) (uuid : String)
  | editProduct (product : Nat) (quantity : Int)
  | deleteProduct (product : Nat)
  | submit (shippingName shippingAddress : String) (coupon : Option Nat)
      (nowEarly nowExpired now : Time)
  | process (now : Time)
  | cancel
  | processShipping (trackingNo : String)
  | finishOrder

/-- The call made on the order of `w`. -/
def Call.run (w : World) : Call → Outcome
  | Call.addProduct product quantity uuid => AddProduct w product quantity uuid
  | Call.editProduct product quantity => EditProduct w product quantity
  | Call.deleteProduct product => DeleteProduct w product
  | Call.submit shippingName shippingAddress coupon nowEarly nowExpired now =>
      Submit w shippingName shippingAddress coupon nowEarly nowExpired now
  | Call.process now => Process w now
  | Call.cancel => Cancel w
  | Call.processShipping trackingNo => ProcessShipping w trackingNo
  | Call.finishOrder => FinishOrder w

/-- The calls made one after the other, successful or not; a panic ends the
run without a result. -/
def runCalls : World → List Call → Option World
  | w, [] => some w
  | w, c :: rest =>
    match c.run w with
    | Outcome.ret _ _ w' => runCalls w' rest
    | Outcome.panic => none

/-- The four changes of status of the workflow. -/
def StatusChange (s s' : String) : Prop :=
  (s = StatusDraft ∧ s' = StatusSubmitted) ∨ (s = StatusSubmitted ∧ s' = StatusProcessed) ∨
  (s = StatusSubmitted ∧ s' = StatusCanceled) ∨ (s = StatusProcessed ∧ s' = StatusDelivered)

/-- A status and the statuses that one or more changes lead to from it. -/
def StatusLater (s s' : String) : Prop :=
  (s = StatusDraft ∧ (s' = StatusSubmitted ∨ s' = StatusProcessed ∨ s' = StatusCanceled ∨
    s' = StatusDelivered)) ∨
  (s = StatusSubmitted ∧ (s' = StatusProcessed ∨ s' = StatusCanceled ∨ s' = StatusDelivered)) ∨
  (s = StatusProcessed ∧ s' = StatusDelivered)

end Order

/-! ## Sequences of calls on a coupon -/

namespace Coupon

/-- A call of one of the methods of a coupon that can change it, with its
arguments and the clock values it reads. -/
inductive Op where
  | setID (id : String)
  | setStock (stock : Int)
  | setStatus (status : String)
  | setKind (kind : String)
  | setValue (value : Decimal)
  | setStartDate (startDate : Time)
  | setEndDate (endDate : Time)
  | isEarly (now : Time)
  | isExpired (now : Time)
  | canBeApplied (nowEarly nowExpired : Time)

/-- The coupon after the call, successful or not. -/
def Op.run (c : Coupon) : Op → Coupon
  | Op.setID id => c.SetID id
  | Op.setStock stock => c.SetStock stock
  | Op.setStatus status => (c.SetStatus status).1
  | Op.setKind kind => (c.SetKind kind).1
  | Op.setValue value => (c.SetValue value).1
  | Op.setStartDate startDate => (c.SetStartDate startDate).1
  | Op.setEndDate endDate => (c.SetEndDate endDate).1
  | Op.isEarly now => (c.IsEarly now).2
  | Op.isExpired now => (c.IsExpired now).2
  | Op.canBeApplied nowEarly nowExpired => (c.CanBeApplied nowEarly nowExpired).2.2

/-- The coupon after the calls made one after the other. -/
def runOps (c : Coupon) (ops : List Op) : Coupon := ops.foldl Op.run c

/-- One of the four checks of `CanBeApplied`. -/
inductive Check where
  | status
  | early
  | expired
  | stock
  deriving DecidableEq, Repr

/-- A check as `CanBeApplied` makes it at the instant `now`: whether it rejects
the coupon, and the coupon after it. -/
def Check.run (c : Coupon) (now : Time) : Check → Bool × Coupon
  | Check.status => (decide (c.status ≠ StatusActive), c)
  | Check.early => c.IsEarly now
  | Check.expired => c.IsExpired now
  | Check.stock => (decide (c.stock ≤ 0), c)

/-- The boolean that the checks give when they are made in the order `checks`,
the first rejection ending the call. -/
def canBeAppliedInOrder (c : Coupon) (now : Time) : List Check → Bool
  | [] => true
  | k :: rest =>
    if (k.run c now).1 then false else canBeAppliedInOrder (k.run c now).2 now rest

end Coupon

namespace Scenario

/-- The coupon `newCoupon` of the coupon tests, created at instant 100000. -/
def newCoupon : Coupon := Coupon.New "newCoupon" 100000

/-- The coupon `kindValue` of `TestGetDiscountAmount`. -/
def kindValueCoupon : Coupon :=
  (((Coupon.New "kindValue" 100000).SetKind Coupon.KindValue).1.SetValue (Decimal.New 5000 0)).1

/-- The coupon `kindPercentage` of `TestGetDiscountAmount`. -/
def kindPercentageCoupon : Coupon :=
  (((Coupon.New "kindPercentage" 100000).SetKind Coupon.KindPercentage).1.SetValue
    (Decimal.New 25 0)).1

/-- The coupon `value50` of kind Value of `TestSettingKind`. -/
def value50CouponKindValue : Coupon :=
  (((Coupon.New "value50" 100000).SetKind Coupon.KindValue).1.SetValue (Decimal.New 50 0)).1

/-- The coupon `value50` of kind Percentage of `TestSettingKind`. -/
def value50CouponKindPercentage : Coupon :=
  (((Coupon.New "value50" 100000).SetKind Coupon.KindPercentage).1.SetValue
    (Decimal.New 50 0)).1

/-- The coupon `value2000` of `TestSettingKind`. -/
def value2000CouponKindValue : Coupon :=
  (((Coupon.New "value2000" 100000).SetKind Coupon.KindValue).1.SetValue
    (Decimal.New 2000 0)).1

/-- The calls that take a draft order to delivery. -/
def deliveryCalls : List Order.Call :=
  [Order.Call.addProduct 0 10 "item1",
   Order.Call.submit "John Doe" "Some Street" none 1000 1000 2000,
   Order.Call.process 3000,
   Order.Call.processShipping "TRACK-1",
   Order.Call.finishOrder]

end Scenario

end Sstest

namespace Sstest

/-! ## Sequences of calls on a product -/

namespace Product

/-- A call of one of the methods of a product, with its arguments. -/
inductive Op where
  | setID (id : String)
  | setName (name : String)
  | setStock (stock : Int)
  | setPrice (price : Decimal)
  | setStatus (status : String)
  | canBeOrdered (quantity : Int)

/-- The product after the call, successful or not. -/
def Op.run (p : Product) : Op → Product
  | Op.setID id => p.SetID id
  | Op.setName name => p.SetName name
  | Op.setStock stock => p.SetStock stock
  | Op.setPrice price => (p.SetPrice price).1
  | Op.setStatus status => (p.SetStatus status).1
  | Op.canBeOrdered _ => p

/-- The product after the calls made one after the other. -/
def runOps (p : Product) (ops : List Op) : Product := ops.foldl Op.run p

end Product

/-! ## Package order: the setters, and sequences of calls of any method -/

namespace Order

/-- Variable `order.statusMap`. -/
def statusMap : List (String × String) :=
  [(StatusDraft, "Draft"), (StatusSubmitted, "Submitted"), (StatusCanceled, "Canceled"),
   (StatusProcessed, "Processed"), (StatusDelivered, "Delivered")]

/-- Variable `order.shipstatusMap`. -/
def shipstatusMap : List (String × String) :=
  [(ShipStatusNone, "None"), (ShipStatusOnProcess, "On Process"),
   (ShipStatusDelivered, "Delivered")]

/-- Method `Order.SetID`. -/
def SetID (o : Order) (id : String) : Order := { o with id := id }

/-- Method `Order.SetCreatedDate`. -/
def SetCreatedDate (o : Order) (createdDate : Time) : Order :=
  { o with createdDate := createdDate }

/-- Method `Order.SetSubmittedDate`. -/
def SetSubmittedDate (o : Order) (submittedDate : Time) : Order :=
  { o with submittedDate := submittedDate }

/-- Method `Order.SetProcessedDate`. -/
def SetProcessedDate (o : Order) (processedDate : Time) : Order :=
  { o with processedDate := processedDate }

/-- Method `Order.SetStatus`: the order after the call and the error returned
(the returned pointer is nil exactly when the error is not). -/
def SetStatus (o : Order) (status : String) : Order × Option Error :=
  if (statusMap.lookup status).isNone then (o, some (Error.leaf Site.orderUnknownStatus))
  else ({ o with status := status }, none)

/-- Method `Order.SetAmount`. -/
def SetAmount (o : Order) (amount : Decimal) : Order := { o with amount := amount }

/-- Method `Order.SetShippingName`. -/
def SetShippingName (o : Order) (name : String) : Order := { o with shippingName := name }

/-- Method `Order.SetShippingAddress`. -/
def SetShippingAddress (o : Order) (address : String) : Order :=
  { o with shippingAddress := address }

/-- Method `Order.SetShippingStatus`: the order after the call and the error
returned (the returned pointer is nil exactly when the error is not). -/
def SetShippingStatus (o : Order) (status : String) : Order × Option Error :=
  if (shipstatusMap.lookup status).isNone then
    (o, some (Error.leaf Site.orderUnknownShippingStatus))
  else ({ o with shippingStatus := status }, none)

/-- Method `Order.SetShippingTrackingID`. -/
def SetShippingTrackingID (o : Order) (trackNo : String) : Order :=
  { o with shippingTrackingID := trackNo }

/-- A call of one of the setters of an order, with its argument. -/
inductive Setter where
  | setID (id : String)
  | setCreatedDate (createdDate : Time)
  | setSubmittedDate (submittedDate : Time)
  | setProcessedDate (processedDate : Time)
  | setStatus (status : String)
  | setCoupon (coupon : Option Nat)
  | setAmount (amount : Decimal)
  | setShippingName (name : String)
  | setShippingAddress (address : String)
  | setShippingStatus (status : String)
  | setShippingTrackingID (trackNo : String)

/-- The order after the call of the setter, successful or not. -/
def Setter.run (o : Order) : Setter → Order
  | Setter.setID id => o.SetID id
  | Setter.setCreatedDate createdDate => o.SetCreatedDate createdDate
  | Setter.setSubmittedDate submittedDate => o.SetSubmittedDate submittedDate
  | Setter.setProcessedDate processedDate => o.SetProcessedDate processedDate
  | Setter.setStatus status => (o.SetStatus status).1
  | Setter.setCoupon coupon => o.SetCoupon coupon
  | Setter.setAmount amount => o.SetAmount amount
  | Setter.setShippingName name => o.SetShippingName name
  | Setter.setShippingAddress address => o.SetShippingAddress address
  | Setter.setShippingStatus status => (o.SetShippingStatus status).1
  | Setter.setShippingTrackingID trackNo => o.SetShippingTrackingID trackNo

/-- A call of a method that can change an order: a setter, or one of the
methods of the workflow. -/
inductive Method where
  | setter (s : Setter)
  | call (c : Call)

/-- The calls of any methods made one after the other, successful or not; a
panic ends the run without a result. -/
def runMethods : World → List Method → Option World
  | w, [] => some w
  | w, Method.setter s :: rest => runMethods { w with order := s.run w.order } rest
  | w, Method.call c :: rest =>
    match c.run w with
    | Outcome.ret _ _ w' => runMethods w' rest
    | Outcome.panic => none

end Order

/-! ## Invariants of the items of an order -/

/-- Spec: every item of the order has a quantity of 1 or more. -/
def Order.QuantitiesPositive (w : World) : Prop :=
  ∀ kv ∈ w.order.items, 1 ≤ kv.2.quantity

/-- Spec: every item of the order passes `CanBeOrdered` on its own product. -/
def Order.ItemsCanBeOrdered (w : World) : Prop :=
  ∀ kv ∈ w.order.items, ∃ prod, w.products[kv.2.product]? = some prod ∧
    (prod.CanBeOrdered kv.2.quantity).1 = true

/-! ## Package user -/

/-- Struct `user.User` (without its mutex); `password` is the hash, as bytes. -/
structure User where
  id : String
  password : List Nat
  name : String
  address : String
  status : String
  deriving DecidableEq, Repr

namespace User

/-- Constant `user.StatusActive`. -/
def StatusActive : String := "A"

/-- Constant `user.StatusInactive`. -/
def StatusInactive : String := "I"

/-- Constant `user.StatusSuspended`. -/
def StatusSuspended : String := "S"

/-- Variable `user.statusSlice`. -/
def statusSlice : List (String × String) :=
  [(StatusActive, "Active"), (StatusInactive, "Inactive"), (StatusSuspended, "Suspended")]

/-- Function `user.New`: the user made, `none` for nil, and the error returned.
`hashedPassword` is the hash that `bcrypt.GenerateFromPassword` gives for
"changeme", `none` when it fails. -/
def New (id name address : String) (hashedPassword : Option (List Nat)) :
    Option User × Option Error :=
  match hashedPassword with
  | none => (none, some (Error.leaf Site.userCreate))
  | some hash =>
    (some { id := id, password := hash, name := name, address := address,
            status := StatusInactive }, none)

/-- Method `User.SetID`. -/
def SetID (u : User) (id : String) : User := { u with id := id }

/-- Method `User.SetPassword`; `hashedPassword` is the hash that
`bcrypt.GenerateFromPassword` gives for the password, `none` when it fails. -/
def SetPassword (u : User) (hashedPassword : Option (List Nat)) : User × Option Error :=
  match hashedPassword with
  | none => (u, some (Error.leaf Site.userPassword))
  | some hash => ({ u with password := hash }, none)

/-- Method `User.SetPasswordHash`; `validHash` tells whether `bcrypt.Cost`
accepts the hash. -/
def SetPasswordHash (u : User) (hash : List Nat) (validHash : Bool) : User × Option Error :=
  if validHash = false then (u, some (Error.leaf Site.userPasswordHash))
  else ({ u with password := hash }, none)

/-- Method `User.SetName`. -/
def SetName (u : User) (name : String) : User := { u with name := name }

/-- Method `User.SetAddress`. -/
def SetAddress (u : User) (address : String) : User := { u with address := address }

/-- Method `User.SetStatus`: the user after the call and the error returned
(the returned pointer is nil exactly when the error is not). -/
def SetStatus (u : User) (status : String) : User × Option Error :=
  if (statusSlice.lookup status).isNone then (u, some (Error.leaf Site.userUnknownStatus))
  else ({ u with status := status }, none)

/-- Method `User.Activate`. -/
def Activate (u : User) : User := (u.SetStatus StatusActive).1

/-- Method `User.Deactivate`. -/
def Deactivate (u : User) : User := (u.SetStatus StatusInactive).1

/-- Method `User.Suspend`. -/
def Suspend (u : User) : User := (u.SetStatus StatusSuspended).1

/-- Method `User.ValidatePassword`; `isMatch` tells whether
`bcrypt.CompareHashAndPassword` accepts the password for the hash of the user. -/
def ValidatePassword (u : User) (isMatch : Bool) : Bool × Option Error :=
  if isMatch = false then (false, some (Error.leaf Site.userValidatePassword))
  else (true, none)

/-- Method `User.CanOrder`: the pair `(bool, error)` it returns. -/
def CanOrder (u : User) : Bool × Option Error :=
  if StatusActive ≠ u.status then (false, some (Error.leaf Site.userNotActive))
  else (true, none)

/-- A call of one of the methods of a user, with its arguments and the results
of the calls of `bcrypt` it makes. -/
inductive Op where
  | setID (id : String)
  | setPassword (hashedPassword : Option (List Nat))
  | setPasswordHash (hash : List Nat) (validHash : Bool)
  | setName (name : String)
  | setAddress (address : String)
  | setStatus (status : String)
  | activate
  | deactivate
  | suspend
  | validatePassword (isMatch : Bool)
  | canOrder

/-- The user after the call, successful or not. -/
def Op.run (u : User) : Op → User
  | Op.setID id => u.SetID id
  | Op.setPassword hashedPassword => (u.SetPassword hashedPassword).1
  | Op.setPasswordHash hash validHash => (u.SetPasswordHash hash validHash).1
  | Op.setName name => u.SetName name
  | Op.setAddress address => u.SetAddress address
  | Op.setStatus status => (u.SetStatus status).1
  | Op.activate => u.Activate
  | Op.deactivate => u.Deactivate
  | Op.suspend => u.Suspend
  | Op.validatePassword _ => u
  | Op.canOrder => u

/-- The user after the calls made one after the other. -/
def runOps (u : User) (ops : List Op) : User := ops.foldl Op.run u

end User

namespace Scenario

/-- A hash of "changeme", as `bcrypt.GenerateFromPassword` may give it (the
bytes of "$2a$10$"). -/
def changemeHash : List Nat := [36, 50, 97, 36, 49, 48, 36]

/-- The user `newUser` of the user tests. -/
def newUser : User :=
  { id := "newUser", password := changemeHash, name := "New User",
    address := "New User Address", status := User.StatusInactive }

/-- The user `activeUser` of the user tests. -/
def activeUser : User :=
  ({ newUser with id := "activeUser", name := "Active User",
                  address := "Active User Address" }.SetStatus User.StatusActive).1

/-- The user `inactiveUser` of the user tests. -/
def inactiveUser : User :=
  ({ newUser with id := "inactiveUser", name := "Inactive User",
                  address := "Inactive User Address" }.SetStatus User.StatusInactive).1

/-- The user `suspendedUser` of the user tests. -/
def suspendedUser : User :=
  ({ newUser with id := "suspendedUser", name := "Suspended User",
                  address := "Suspended User Address" }.SetStatus User.StatusSuspended).1

/-- A product of stock 5. -/
def dupProdSmall : Product :=
  { id := "dupProd", name := "Dup Product", status := Product.StatusAvailable,
    price := Decimal.New 100 0, stock := 5 }

/-- Another product object with the id of `dupProdSmall`, of stock 100. -/
def dupProdLarge : Product := { dupProdSmall with stock := 100 }

/-- A new order on a heap that holds `dupProdSmall` and `dupProdLarge`. -/
def dupWorld : World :=
  { order := Order.New "dupOrder" 1000, products := [dupProdSmall, dupProdLarge],
    coupons := [] }

/-- The world `dupWorld` after 5 units of `dupProdSmall` have been added to its
order. -/
def dupWorldFirst : World :=
  { dupWorld with
    order := { dupWorld.order with
      items := [("dupProd", { id := "item1", product := 0, quantity := 5 })] } }

/-- The world `dupWorld` after 5 units of `dupProdSmall` and then 50 units of
`dupProdLarge` have been added to its order: one item, of `dupProdSmall`. -/
def dupWorldAfter : World :=
  { dupWorld with
    order := { dupWorld.order with
      items := [("dupProd", { id := "item1", product := 0, quantity := 55 })] } }

/-- A product whose price is `decimal.New(1, -16)`. -/
def tinyPriceProd : Product :=
  { id := "tinyPriceProd", name := "Tiny Price Product", status := Product.StatusAvailable,
    price := Decimal.New 1 (-16), stock := 100 }

/-- A draft order of one unit of `tinyPriceProd` that already holds the coupon
of 50 percent `value50CouponKindPercentage`, the only coupon of the heap. -/
def tinyWorld : World :=
  { order := { Order.New "tinyOrder" 1000 with
                 items := [("tinyPriceProd", { id := "item1", product := 0, quantity := 1 })],
                 coupon := some 0 },
    products := [tinyPriceProd],
    coupons := [value50CouponKindPercentage] }

end Scenario

end Sstest

namespace Sstest

/-! ## Machine integers: lemmas -/

theorem wrapInt64_eq_self {x : Int} (h : IsInt64 x) : wrapInt64 x = x := by
  unfold IsInt64 at h
  unfold wrapInt64
  have h1 : (x + 2 ^ 63) % 2 ^ 64 = x + 2 ^ 63 := Int.emod_eq_of_lt (by omega) (by omega)
  omega

theorem wrapInt64_isInt64 (x : Int) : IsInt64 (wrapInt64 x) := by
  unfold IsInt64 wrapInt64
  have h1 : 0 ≤ (x + 2 ^ 63) % 2 ^ 64 := Int.emod_nonneg _ (by norm_num)
  have h2 : (x + 2 ^ 63) % 2 ^ 64 < 2 ^ 64 := Int.emod_lt_of_pos _ (by norm_num)
  constructor <;> omega

/-! ## Package product: lemmas -/

theorem Product.CanBeOrdered_eq_true_iff (p : Product) (q : Int) :
    (p.CanBeOrdered q).1 = true ↔
      0 < q ∧ p.status = Product.StatusAvailable ∧ 0 ≤ wrapInt64 (p.stock - q) := by
  unfold Product.CanBeOrdered
  by_cases h1 : q ≤ 0
  · simp [h1]
  · by_cases h2 : p.status = Product.StatusAvailable
    · by_cases h3 : wrapInt64 (p.stock - q) < 0
      · simp [h1, h2, h3]
      · simp [h1, h2, h3]; omega
    · simp [h1, h2]

theorem Product.CanBeOrdered_err (p : Product) (q : Int) :
    ((p.CanBeOrdered q).1 = true ∧ (p.CanBeOrdered q).2 = none) ∨
    ((p.CanBeOrdered q).1 = false ∧ ∃ e, (p.CanBeOrdered q).2 = some e) := by
  unfold Product.CanBeOrdered
  split_ifs <;> simp

/-! ## Package coupon: lemmas -/

theorem Coupon.SetStatus_inactive (c : Coupon) :
    c.SetStatus Coupon.StatusInactive = ({ c with status := Coupon.StatusInactive }, none) := by
  have h : (Coupon.statusMap.lookup Coupon.StatusInactive).isNone = false := by decide
  simp [Coupon.SetStatus, h]

theorem Coupon.SetStatus_expired (c : Coupon) :
    c.SetStatus Coupon.StatusExpired = ({ c with status := Coupon.StatusExpired }, none) := by
  have h : (Coupon.statusMap.lookup Coupon.StatusExpired).isNone = false := by decide
  simp [Coupon.SetStatus, h]

/-- The four checks of `CanBeApplied`, with the status written by `IsEarly` and
by `IsExpired` made explicit. -/
theorem Coupon.CanBeApplied_eq (c : Coupon) (tE tX : Time) :
    c.CanBeApplied tE tX =
      if c.status ≠ Coupon.StatusActive then (false, some (Error.leaf Site.couponStatus), c)
      else if tE < c.startDate then
        (false, some (Error.leaf Site.couponEarly), { c with status := Coupon.StatusInactive })
      else if c.endDate < tX then
        (false, some (Error.leaf Site.couponExpired), { c with status := Coupon.StatusExpired })
      else if c.stock ≤ 0 then (false, some (Error.leaf Site.couponStock), c)
      else (true, none, c) := by
  unfold Coupon.CanBeApplied Coupon.IsEarly Coupon.IsExpired
  simp only [Coupon.SetStatus_inactive, Coupon.SetStatus_expired]
  by_cases h1 : c.status ≠ Coupon.StatusActive
  · simp [h1]
  · by_cases h2 : tE < c.startDate
    · simp [h1, h2]
    · by_cases h3 : c.endDate < tX
      · simp [h1, h2, h3]
      · by_cases h4 : c.stock ≤ 0
        · simp [h1, h2, h3, h4]
        · simp [h1, h2, h3, h4]

theorem Coupon.CanBeApplied_status (c : Coupon) (tE tX : Time) :
    (c.CanBeApplied tE tX).2.2 =
      { c with status :=
          if c.status = Coupon.StatusActive ∧ tE < c.startDate then Coupon.StatusInactive
          else if c.status = Coupon.StatusActive ∧ c.endDate < tX then Coupon.StatusExpired
          else c.status } := by
  rw [Coupon.CanBeApplied_eq]
  by_cases h1 : c.status = Coupon.StatusActive
  · by_cases h2 : tE < c.startDate
    · simp [h1, h2]
    · by_cases h3 : c.endDate < tX
      · simp [h1, h2, h3]
      · by_cases h4 : c.stock ≤ 0
        · simp [h1, h2, h3, h4]
          rw [← h1]
        · simp [h1, h2, h3, h4]
          rw [← h1]
  · simp [h1]

theorem Coupon.CanBeApplied_frame (c : Coupon) (tE tX : Time) :
    (c.CanBeApplied tE tX).2.2 =
      { c with status := (c.CanBeApplied tE tX).2.2.status } := by
  rw [Coupon.CanBeApplied_eq]
  split_ifs <;> rfl

theorem Coupon.CanBeApplied_err (c : Coupon) (tE tX : Time) :
    ((c.CanBeApplied tE tX).1 = true ∧ (c.CanBeApplied tE tX).2.1 = none) ∨
    ((c.CanBeApplied tE tX).1 = false ∧ ∃ e, (c.CanBeApplied tE tX).2.1 = some e) := by
  rw [Coupon.CanBeApplied_eq]
  split_ifs <;> simp

theorem Coupon.CanBeApplied_ok (c : Coupon) (tE tX : Time)
    (h : (c.CanBeApplied tE tX).2.1 = none) :
    (c.CanBeApplied tE tX).2.2 = c ∧ c.status = Coupon.StatusActive ∧ 0 < c.stock := by
  rw [Coupon.CanBeApplied_eq] at h ⊢
  split_ifs at h ⊢
  simp_all

/-! ## Package order: lemmas -/

theorem set_eq_self_of_getElem? {α : Type} (l : List α) (i : Nat) (a : α)
    (h : l[i]? = some a) : l.set i a = l := by
  apply List.ext_getElem?
  intro j
  by_cases hij : i = j
  · subst hij
    rw [List.getElem?_set]
    have hlt : i < l.length := by
      by_contra hge
      rw [List.getElem?_eq_none (by omega)] at h
      exact absurd h (by simp)
    simp [hlt, h]
  · rw [List.getElem?_set_ne hij]

theorem Order.calculateAmount_fail {w : World} {coupon : Option Nat} {ok : Bool} {e : Error}
    {w' : World} (h : Order.calculateAmount w coupon = Outcome.ret ok (some e) w') :
    ok = false ∧ w' = w := by
  unfold Order.calculateAmount at h
  split at h
  · exact absurd h (by simp)
  · split at h
    · simp at h
    · split at h
      · exact absurd h (by simp)
      · simp only at h
        split_ifs at h
        · split at h
          · exact absurd h (by simp)
          · split at h
            · exact absurd h (by simp)
            · cases h
              exact ⟨rfl, rfl⟩
        · exact absurd h (by simp)

theorem Order.calculateAmount_success {w : World} {coupon : Option Nat} {ok : Bool}
    {w' : World} (h : Order.calculateAmount w coupon = Outcome.ret ok none w') :
    ok = true ∧ ∃ total amount,
      Order.sumItems w.products w.order.items (Decimal.New 0 0) = some total ∧
      w' = { w with order := { w.order with amount := amount } } ∧
      ((coupon = none ∧ amount = total) ∨
       (∃ c cpn, coupon = some c ∧ w.coupons[c]? = some cpn ∧
          amount = total.Sub (cpn.GetDiscountAmount total) ∧ 0 < amount)) := by
  unfold Order.calculateAmount at h
  split at h
  · exact absurd h (by simp)
  · rename_i total htotal
    split at h
    · cases h
      exact ⟨rfl, total, total, htotal, rfl, Or.inl ⟨rfl, rfl⟩⟩
    · rename_i c
      split at h
      · exact absurd h (by simp)
      · rename_i cpn hcpn
        simp only at h
        split_ifs at h with hge
        · split at h
          · exact absurd h (by simp)
          · split at h
            · exact absurd h (by simp)
            · exact absurd h (by simp)
        · cases h
          refine ⟨rfl, total, _, htotal, rfl, Or.inr ⟨c, cpn, rfl, hcpn, rfl, ?_⟩⟩
          simp [Decimal.GreaterThanOrEqual, Decimal.New] at hge
          exact hge

theorem Order.applyCoupon_fail {w : World} {c : Nat} {tE tX : Time} {ok : Bool} {e : Error}
    {w' : World} (h : Order.applyCoupon w c tE tX = Outcome.ret ok (some e) w') :
    ok = false ∧ w'.order = w.order ∧ w'.products = w.products ∧
      (w'.coupons = w.coupons ∨
        ∃ cpn, w.coupons[c]? = some cpn ∧
          w'.coupons = w.coupons.set c (cpn.CanBeApplied tE tX).2.2) := by
  unfold Order.applyCoupon at h
  split_ifs at h
  · cases h
    exact ⟨rfl, rfl, rfl, Or.inl rfl⟩
  · cases h
    exact ⟨rfl, rfl, rfl, Or.inl rfl⟩
  · split at h
    · exact absurd h (by simp)
    · rename_i cpn hcpn
      simp only at h
      split at h
      · cases h
        exact ⟨rfl, rfl, rfl, Or.inr ⟨cpn, hcpn, rfl⟩⟩
      · split at h
        · exact absurd h (by simp)
        · rename_i hcalc
          cases h
          have hw := (Order.calculateAmount_fail hcalc).2
          subst hw
          exact ⟨rfl, rfl, rfl, Or.inr ⟨cpn, hcpn, rfl⟩⟩
        · exact absurd h (by simp)

theorem Order.applyCoupon_success {w : World} {c : Nat} {tE tX : Time} {ok : Bool}
    {w' : World} (h : Order.applyCoupon w c tE tX = Outcome.ret ok none w') :
    ok = true ∧ Order.StatusDraft = w.order.status ∧ 0 ≠ w.order.items.length ∧
      ∃ cpn total,
        w.coupons[c]? = some cpn ∧ cpn.CanBeApplied tE tX = (true, none, cpn) ∧
        Order.sumItems w.products w.order.items (Decimal.New 0 0) = some total ∧
        0 < total.Sub (cpn.GetDiscountAmount total) ∧
        w' = { w with order := { w.order with
                 amount := total.Sub (cpn.GetDiscountAmount total), coupon := some c } } := by
  unfold Order.applyCoupon at h
  split_ifs at h with hd hn
  · exact absurd h (by simp)
  · exact absurd h (by simp)
  · split at h
    · exact absurd h (by simp)
    · rename_i cpn hcpn
      simp only at h
      split at h
      · exact absurd h (by simp)
      · rename_i hnone
        have hok := Coupon.CanBeApplied_ok cpn tE tX hnone
        have hset : w.coupons.set c (cpn.CanBeApplied tE tX).2.2 = w.coupons := by
          rw [hok.1]; exact set_eq_self_of_getElem? _ _ _ hcpn
        rw [hset] at h
        split at h
        · exact absurd h (by simp)
        · exact absurd h (by simp)
        · rename_i hcalc
          cases h
          obtain ⟨-, total, amount, htotal, hw2, hcase⟩ := Order.calculateAmount_success hcalc
          rcases hcase with ⟨hc, -⟩ | ⟨c2, cpn2, hc, hcpn2, hamount, hpos⟩
          · exact absurd hc (by simp)
          · cases hc
            simp only at hcpn2
            rw [hcpn] at hcpn2
            cases hcpn2
            have htrue : cpn.CanBeApplied tE tX = (true, none, cpn) := by
              rcases Coupon.CanBeApplied_err cpn tE tX with ⟨h1, h2⟩ | ⟨-, e, h2⟩
              · exact Prod.ext h1 (Prod.ext h2 hok.1)
              · rw [hnone] at h2
                exact absurd h2 (by simp)
            refine ⟨rfl, by simpa using hd, hn, cpn, total, hcpn, htrue, htotal, ?_, ?_⟩
            · rw [← hamount]; exact hpos
            · subst hw2
              subst hamount
              rfl

theorem Order.commit_ret {w : World} {now : Time} {ok : Bool} {err : Option Error} {w' : World}
    (h : Order.commit w now = Outcome.ret ok err w') :
    ok = true ∧ err = none ∧
      w'.order = { w.order with status := Order.StatusSubmitted, submittedDate := now,
                                shippingStatus := Order.ShipStatusNone } ∧
      Order.commitStock w.products w.order.items = some w'.products ∧
      w'.coupons = w.coupons := by
  unfold Order.commit at h
  simp only at h
  split at h
  · exact absurd h (by simp)
  · rename_i ps hps
    cases h
    exact ⟨rfl, rfl, rfl, hps, rfl⟩

theorem Order.Submit_fail {w : World} {sn sa : String} {coupon : Option Nat}
    {tE tX now : Time} {err : Option Error} {w' : World}
    (h : Order.Submit w sn sa coupon tE tX now = Outcome.ret false err w') :
    (∃ e, err = some e) ∧ w'.order = w.order ∧ w'.products = w.products ∧
      (w'.coupons = w.coupons ∨
        ∃ c cpn, coupon = some c ∧ w.coupons[c]? = some cpn ∧
          w'.coupons = w.coupons.set c (cpn.CanBeApplied tE tX).2.2) := by
  unfold Order.Submit at h
  split_ifs at h
  · cases h
    exact ⟨⟨_, rfl⟩, rfl, rfl, Or.inl rfl⟩
  · cases h
    exact ⟨⟨_, rfl⟩, rfl, rfl, Or.inl rfl⟩
  · split at h
    · exact absurd h (by simp)
    · cases h
      exact ⟨⟨_, rfl⟩, rfl, rfl, Or.inl rfl⟩
    · split at h
      · rename_i c
        split at h
        · exact absurd h (by simp)
        · rename_i happly
          cases h
          obtain ⟨-, ho, hp, hc⟩ := Order.applyCoupon_fail happly
          refine ⟨⟨_, rfl⟩, ho, hp, ?_⟩
          rcases hc with hc | ⟨cpn, hcpn, hc⟩
          · exact Or.inl hc
          · exact Or.inr ⟨c, cpn, rfl, hcpn, hc⟩
        · split at h
          · exact absurd h (by simp)
          · exact absurd (Order.commit_ret h).1 (by simp)
      · split at h
        · exact absurd h (by simp)
        · exact absurd (Order.commit_ret h).1 (by simp)

theorem Order.Submit_success_none {w : World} {sn sa : String}
    {tE tX now : Time} {err : Option Error} {w' : World}
    (h : Order.Submit w sn sa none tE tX now = Outcome.ret true err w') :
    err = none ∧ Order.StatusDraft = w.order.status ∧ 0 ≠ w.order.items.length ∧
      Order.checkItems w.products w.order.items = some none ∧
      ∃ total, Order.sumItems w.products w.order.items (Decimal.New 0 0) = some total ∧
        Order.commit { w with order := { w.order with amount := total } } now =
          Outcome.ret true none w' := by
  unfold Order.Submit at h
  split_ifs at h with hd hn
  · exact absurd h (by simp)
  · exact absurd h (by simp)
  · split at h
    · exact absurd h (by simp)
    · exact absurd h (by simp)
    · rename_i hcheck
      simp only at h
      split at h
      · exact absurd h (by simp)
      · rename_i ok1 err1 w1 hcalc
        have herr := (Order.commit_ret h).2.1
        subst herr
        refine ⟨rfl, by simpa using hd, hn, hcheck, ?_⟩
        cases err1 with
        | some e =>
          unfold Order.calculateAmount at hcalc
          split at hcalc
          · exact absurd hcalc (by simp)
          · simp at hcalc
        | none =>
          obtain ⟨-, total, amount, htotal, hw1, hcase⟩ := Order.calculateAmount_success hcalc
          rcases hcase with ⟨-, hamount⟩ | ⟨c, cpn, hc, -⟩
          · subst hamount
            subst hw1
            exact ⟨amount, htotal, h⟩
          · exact absurd hc (by simp)

theorem Order.Submit_success_some {w : World} {sn sa : String} {c : Nat}
    {tE tX now : Time} {err : Option Error} {w' : World}
    (h : Order.Submit w sn sa (some c) tE tX now = Outcome.ret true err w') :
    err = none ∧ Order.StatusDraft = w.order.status ∧ 0 ≠ w.order.items.length ∧
      Order.checkItems w.products w.order.items = some none ∧
      ∃ cpn total,
        w.coupons[c]? = some cpn ∧ cpn.CanBeApplied tE tX = (true, none, cpn) ∧
        Order.sumItems w.products w.order.items (Decimal.New 0 0) = some total ∧
        0 < total.Sub (cpn.GetDiscountAmount total) ∧
        Order.commit
          { order := { w.order with
                         amount := total.Sub (cpn.GetDiscountAmount total), coupon := some c },
            products := w.products,
            coupons := w.coupons.set c (cpn.SetStock (wrapInt64 (cpn.stock - 1))) } now =
          Outcome.ret true none w' := by
  unfold Order.Submit at h
  split_ifs at h with hd hn
  · exact absurd h (by simp)
  · exact absurd h (by simp)
  · split at h
    · exact absurd h (by simp)
    · exact absurd h (by simp)
    · rename_i hcheck
      simp only at h
      split at h
      · exact absurd h (by simp)
      · exact absurd h (by simp)
      · rename_i ok1 w1 happly
        obtain ⟨-, -, -, cpn, total, hcpn, hcan, htotal, hpos, hw1⟩ :=
          Order.applyCoupon_success happly
        subst hw1
        simp only at h
        rw [hcpn] at h
        simp only at h
        have herr := (Order.commit_ret h).2.1
        subst herr
        exact ⟨rfl, by simpa using hd, hn, hcheck, cpn, total, hcpn, hcan, htotal, hpos, h⟩

end Sstest

namespace Sstest

theorem Decimal.New_zero_exp (v : Int) : Decimal.New v 0 = (v : ℚ) := by
  simp [Decimal.New]

theorem Order.sumItems_eq (products : List Product) (items : List (String × Item))
    (a t : Decimal) (h : Order.sumItems products items a = some t) :
    t = a + Order.subtotalSpec products items := by
  induction items generalizing a with
  | nil =>
    simp [Order.sumItems] at h
    simp [Order.subtotalSpec, h]
  | cons kv rest ih =>
    obtain ⟨k, val⟩ := kv
    unfold Order.sumItems at h
    split at h
    · exact absurd h (by simp)
    · rename_i p hp
      have := ih _ h
      rw [this]
      simp only [Order.subtotalSpec, List.map_cons, List.sum_cons, hp, Decimal.Add, Decimal.Mul,
        Decimal.New_zero_exp]
      ring

theorem Order.checkItems_eq_some_none_iff (products : List Product)
    (items : List (String × Item)) :
    Order.checkItems products items = some none ↔
      ∀ kv ∈ items, ∃ p, products[kv.2.product]? = some p ∧
        (p.CanBeOrdered kv.2.quantity).1 = true := by
  induction items with
  | nil => simp [Order.checkItems]
  | cons kv rest ih =>
    obtain ⟨k, val⟩ := kv
    unfold Order.checkItems
    split
    · rename_i hnone
      simp [hnone]
    · rename_i p hp
      simp only
      by_cases hc : (p.CanBeOrdered val.quantity).1 = false
      · simp [hc, hp]
      · have hc2 : (p.CanBeOrdered val.quantity).1 = true := by simpa using hc
        rw [if_neg hc, ih]
        constructor
        · intro h kv hkv
          rcases List.mem_cons.1 hkv with rfl | hmem
          · exact ⟨p, hp, hc2⟩
          · exact h kv hmem
        · intro h kv hkv
          exact h kv (List.mem_cons_of_mem _ hkv)

theorem Order.checkItems_valid (products : List Product) (items : List (String × Item))
    (hv : ∀ kv ∈ items, kv.2.product < products.length) :
    ∃ r, Order.checkItems products items = some r := by
  induction items with
  | nil => exact ⟨none, rfl⟩
  | cons kv rest ih =>
    obtain ⟨k, val⟩ := kv
    unfold Order.checkItems
    have hlt : val.product < products.length := hv (k, val) (by simp)
    rw [List.getElem?_eq_getElem hlt]
    simp only
    split_ifs
    · exact ⟨_, rfl⟩
    · exact ih (fun kv hkv => hv kv (by simp [hkv]))

theorem Order.checkItems_fail_of_mem (products : List Product) (items : List (String × Item))
    (hv : ∀ kv ∈ items, kv.2.product < products.length)
    (h : ∃ kv ∈ items, ∃ p, products[kv.2.product]? = some p ∧
        (p.CanBeOrdered kv.2.quantity).1 = false) :
    ∃ e, Order.checkItems products items = some (some e) := by
  obtain ⟨r, hr⟩ := Order.checkItems_valid products items hv
  cases r with
  | some e => exact ⟨e, hr⟩
  | none =>
    obtain ⟨kv, hmem, p, hp, hfalse⟩ := h
    obtain ⟨p2, hp2, htrue⟩ := (Order.checkItems_eq_some_none_iff products items).1 hr kv hmem
    rw [hp] at hp2
    cases hp2
    rw [hfalse] at htrue
    exact absurd htrue (by simp)

theorem Order.sumItems_valid (products : List Product) (items : List (String × Item))
    (a : Decimal) (hv : ∀ kv ∈ items, kv.2.product < products.length) :
    ∃ t, Order.sumItems products items a = some t := by
  induction items generalizing a with
  | nil => exact ⟨a, rfl⟩
  | cons kv rest ih =>
    obtain ⟨k, val⟩ := kv
    unfold Order.sumItems
    have hlt : val.product < products.length := hv (k, val) (by simp)
    rw [List.getElem?_eq_getElem hlt]
    exact ih _ (fun kv hkv => hv kv (by simp [hkv]))

theorem Order.commitStock_valid (products : List Product) (items : List (String × Item))
    (hv : ∀ kv ∈ items, kv.2.product < products.length) :
    ∃ ps, Order.commitStock products items = some ps ∧ ps.length = products.length := by
  induction items generalizing products with
  | nil => exact ⟨products, rfl, rfl⟩
  | cons kv rest ih =>
    obtain ⟨k, val⟩ := kv
    unfold Order.commitStock
    have hlt : val.product < products.length := hv (k, val) (by simp)
    rw [List.getElem?_eq_getElem hlt]
    simp only
    obtain ⟨ps, hps, hlen⟩ := ih (products.set val.product
      (products[val.product].SetStock (wrapInt64 (products[val.product].stock - val.quantity))))
      (fun kv hkv => by rw [List.length_set]; exact hv kv (by simp [hkv]))
    exact ⟨ps, hps, by rw [hlen, List.length_set]⟩

theorem Order.valid_of_checkItems (products : List Product) (items : List (String × Item))
    (h : Order.checkItems products items = some none) :
    ∀ kv ∈ items, kv.2.product < products.length := by
  intro kv hkv
  obtain ⟨p, hp, -⟩ := (Order.checkItems_eq_some_none_iff products items).1 h kv hkv
  by_contra hge
  rw [List.getElem?_eq_none (by omega)] at hp
  exact absurd hp (by simp)

end Sstest

namespace Sstest

theorem Order.applyCoupon_inapplicable {w : World} {c : Nat} {cpn : Coupon} (tE tX : Time)
    (hd : w.order.status = Order.StatusDraft) (hn : w.order.items ≠ [])
    (hcpn : w.coupons[c]? = some cpn) (hfalse : (cpn.CanBeApplied tE tX).1 = false) :
    ∃ e, Order.applyCoupon w c tE tX =
      Outcome.ret false (some e)
        { w with coupons := w.coupons.set c (cpn.CanBeApplied tE tX).2.2 } := by
  have herr : ∃ e, (cpn.CanBeApplied tE tX).2.1 = some e := by
    rcases Coupon.CanBeApplied_err cpn tE tX with ⟨h1, -⟩ | ⟨-, h2⟩
    · rw [hfalse] at h1
      exact absurd h1 (by simp)
    · exact h2
  obtain ⟨e, he⟩ := herr
  have hlen : ¬ (0 = w.order.items.length) := by
    intro h0
    exact hn (List.length_eq_zero.1 h0.symm)
  refine ⟨Error.wrap Site.applyCannotApply e, ?_⟩
  unfold Order.applyCoupon
  rw [if_neg (by simp [hd]), if_neg hlen, hcpn]
  simp only [he]

theorem Order.Submit_inapplicable {w : World} (sn sa : String) {c : Nat} {cpn : Coupon}
    {tE tX : Time} (now : Time)
    (hd : w.order.status = Order.StatusDraft) (hn : w.order.items ≠ [])
    (hitems : Order.checkItems w.products w.order.items = some none)
    (hcpn : w.coupons[c]? = some cpn) (hfalse : (cpn.CanBeApplied tE tX).1 = false) :
    ∃ e, Order.Submit w sn sa (some c) tE tX now =
      Outcome.ret false (some e)
        { w with coupons := w.coupons.set c (cpn.CanBeApplied tE tX).2.2 } := by
  obtain ⟨e, he⟩ := Order.applyCoupon_inapplicable tE tX hd hn hcpn hfalse
  have hlen : ¬ (0 = w.order.items.length) := by
    intro h0
    exact hn (List.length_eq_zero.1 h0.symm)
  refine ⟨Error.wrap Site.submitCoupon e, ?_⟩
  unfold Order.Submit
  rw [if_neg (by simp [hd]), if_neg hlen, hitems]
  simp only [he]

theorem Order.Submit_amount_not_positive {w : World} {sn sa : String} {c : Nat} {cpn : Coupon}
    {tE tX now : Time} {ok : Bool} {err : Option Error} {w' : World}
    (hcpn : w.coupons[c]? = some cpn) (htrue : (cpn.CanBeApplied tE tX).1 = true)
    (hamount : Order.subtotalSpec w.products w.order.items -
      cpn.GetDiscountAmount (Order.subtotalSpec w.products w.order.items) ≤ 0)
    (h : Order.Submit w sn sa (some c) tE tX now = Outcome.ret ok err w') :
    ok = false ∧ (∃ e, err = some e) ∧ w' = w := by
  cases ok with
  | true =>
    obtain ⟨-, -, -, -, cpn2, total, hcpn2, -, htotal, hpos, -⟩ := Order.Submit_success_some h
    rw [hcpn] at hcpn2
    cases hcpn2
    have ht := Order.sumItems_eq _ _ _ _ htotal
    simp only [Decimal.New_zero_exp, Int.cast_zero, zero_add] at ht
    subst ht
    simp only [Decimal.Sub] at hpos
    exact absurd hpos (not_lt.2 hamount)
  | false =>
    obtain ⟨he, ho, hp, hc⟩ := Order.Submit_fail h
    refine ⟨rfl, he, ?_⟩
    have hcs : w'.coupons = w.coupons := by
      rcases hc with hc | ⟨c2, cpn2, hc2, hcpn2, hc⟩
      · exact hc
      · cases hc2
        rw [hcpn] at hcpn2
        cases hcpn2
        have hsame : (cpn.CanBeApplied tE tX).2.2 = cpn := by
          rcases Coupon.CanBeApplied_err cpn tE tX with ⟨-, h2⟩ | ⟨h1, -⟩
          · exact (Coupon.CanBeApplied_ok cpn tE tX h2).1
          · rw [htrue] at h1
            exact absurd h1 (by simp)
        rw [hc, hsame]
        exact set_eq_self_of_getElem? _ _ _ hcpn
    cases w'
    cases w
    simp only at ho hp hcs
    rw [ho, hp, hcs]

theorem Order.commit_valid (w : World) (now : Time)
    (hv : ∀ kv ∈ w.order.items, kv.2.product < w.products.length) :
    ∃ w', Order.commit w now = Outcome.ret true none w' := by
  obtain ⟨ps, hps, -⟩ := Order.commitStock_valid w.products w.order.items hv
  unfold Order.commit
  simp only [hps]
  exact ⟨_, rfl⟩

theorem Order.Submit_none_succeeds {w : World} {sn sa : String} {tE tX now : Time}
    (hd : w.order.status = Order.StatusDraft) (hn : w.order.items ≠ [])
    (hitems : Order.checkItems w.products w.order.items = some none) :
    ∃ w', Order.Submit w sn sa none tE tX now = Outcome.ret true none w' := by
  have hv := Order.valid_of_checkItems _ _ hitems
  have hlen : ¬ (0 = w.order.items.length) := by
    intro h0
    exact hn (List.length_eq_zero.1 h0.symm)
  obtain ⟨total, htotal⟩ := Order.sumItems_valid w.products w.order.items (Decimal.New 0 0) hv
  obtain ⟨w', hw'⟩ :=
    Order.commit_valid { w with order := { w.order with amount := total } } now hv
  refine ⟨w', ?_⟩
  unfold Order.Submit
  rw [if_neg (by simp [hd]), if_neg hlen, hitems]
  simp only [Order.calculateAmount, htotal]
  exact hw'

theorem Order.Submit_not_draft {w : World} {sn sa : String} {coupon : Option Nat}
    {tE tX now : Time} (hd : w.order.status ≠ Order.StatusDraft) :
    Order.Submit w sn sa coupon tE tX now =
      Outcome.ret false (some (Error.leaf Site.submitNotDraft)) w := by
  unfold Order.Submit
  rw [if_pos (fun h => hd h.symm)]

theorem Order.Submit_no_item {w : World} (sn sa : String) (coupon : Option Nat)
    (tE tX now : Time) (hn : w.order.items = []) :
    ∃ e, Order.Submit w sn sa coupon tE tX now = Outcome.ret false (some e) w := by
  by_cases hd : w.order.status = Order.StatusDraft
  · refine ⟨Error.leaf Site.submitNoItem, ?_⟩
    unfold Order.Submit
    rw [if_neg (by simp [hd]), if_pos (by simp [hn])]
  · exact ⟨_, Order.Submit_not_draft hd⟩

theorem Order.Submit_item_fails {w : World} (sn sa : String) (coupon : Option Nat)
    (tE tX now : Time) {e : Error}
    (hcheck : Order.checkItems w.products w.order.items = some (some e)) :
    ∃ e, Order.Submit w sn sa coupon tE tX now = Outcome.ret false (some e) w := by
  by_cases hd : w.order.status = Order.StatusDraft
  · by_cases hn : w.order.items = []
    · exact Order.Submit_no_item sn sa coupon tE tX now hn
    · have hlen : ¬ (0 = w.order.items.length) := by
        intro h0
        exact hn (List.length_eq_zero.1 h0.symm)
      refine ⟨e, ?_⟩
      unfold Order.Submit
      rw [if_neg (by simp [hd]), if_neg hlen, hcheck]
  · exact ⟨_, Order.Submit_not_draft hd⟩

theorem mapSet_of_lookup_none {α : Type} (m : List (String × α)) (key : String) (val : α)
    (h : m.lookup key = none) : mapSet m key val = m ++ [(key, val)] := by
  induction m with
  | nil => rfl
  | cons kv rest ih =>
    obtain ⟨k, v⟩ := kv
    rw [List.lookup_cons] at h
    by_cases hk : key = k
    · subst hk
      simp at h
    · have hbeq : (key == k) = false := by simpa using hk
      rw [hbeq] at h
      simp only [mapSet]
      rw [if_neg (fun hkk => hk hkk.symm), ih h]
      rfl

/-- `AddProduct` on a Draft order for a product that the order does not hold,
as one conditional. -/
theorem Order.AddProduct_absent {w : World} {p : Nat} {prod : Product} (q : Int) (uuid : String)
    (hd : w.order.status = Order.StatusDraft) (hp : w.products[p]? = some prod)
    (habs : Order.HasProduct w p = some false) :
    Order.AddProduct w p q uuid =
      if (prod.CanBeOrdered q).1 = false then
        Outcome.ret false (some (Error.quote Site.addCannotOrder (prod.CanBeOrdered q).2)) w
      else
        Outcome.ret true none
          { w with order := { w.order with
              items := w.order.items ++ [(prod.id, { id := uuid, product := p, quantity := q })] } }
    := by
  have hlookup : w.order.items.lookup prod.id = none := by
    unfold Order.HasProduct at habs
    rw [hp] at habs
    simp only [Option.some.injEq] at habs
    cases hl : w.order.items.lookup prod.id with
    | none => rfl
    | some i =>
      rw [hl] at habs
      exact absurd habs (by simp)
  unfold Order.AddProduct
  rw [if_neg (by simp [hd]), habs, hp]
  simp only
  rw [mapSet_of_lookup_none _ _ _ hlookup]
  rfl

end Sstest

namespace Sstest

/-! ## The stock loop of `Submit` -/

theorem Order.commitStock_getElem?_of_not_mem (items : List (String × Item))
    (products products' : List Product) (a : Nat)
    (ha : ∀ kv ∈ items, kv.2.product ≠ a)
    (h : Order.commitStock products items = some products') :
    products'[a]? = products[a]? := by
  induction items generalizing products with
  | nil =>
    simp only [Order.commitStock, Option.some.injEq] at h
    rw [h]
  | cons kv rest ih =>
    obtain ⟨k, val⟩ := kv
    unfold Order.commitStock at h
    split at h
    · exact absurd h (by simp)
    · have hne : val.product ≠ a := ha (k, val) (by simp)
      rw [ih _ (fun kv hkv => ha kv (by simp [hkv])) h, List.getElem?_set_ne hne]

theorem Order.commitStock_getElem?_of_mem (items : List (String × Item))
    (products products' : List Product) (kv : String × Item) (p : Product)
    (hnodup : (items.map (fun kv => kv.2.product)).Nodup) (hmem : kv ∈ items)
    (hp : products[kv.2.product]? = some p)
    (h : Order.commitStock products items = some products') :
    products'[kv.2.product]? = some (p.SetStock (wrapInt64 (p.stock - kv.2.quantity))) := by
  induction items generalizing products with
  | nil => exact absurd hmem (by simp)
  | cons kv0 rest ih =>
    obtain ⟨k, val⟩ := kv0
    rw [List.map_cons, List.nodup_cons] at hnodup
    unfold Order.commitStock at h
    split at h
    · exact absurd h (by simp)
    · rename_i p0 hp0
      rcases List.mem_cons.1 hmem with heq | hrest
      · subst heq
        simp only at hp hp0 ⊢
        rw [hp] at hp0
        cases hp0
        have hlt : val.product < products.length := by
          by_contra hge
          rw [List.getElem?_eq_none (by omega)] at hp
          exact absurd hp (by simp)
        rw [Order.commitStock_getElem?_of_not_mem rest _ _ val.product ?_ h,
          List.getElem?_set_self hlt]
        intro kv hkv hkeq
        exact hnodup.1 (List.mem_map.2 ⟨kv, hkv, hkeq⟩)
      · have hne : val.product ≠ kv.2.product := by
          intro hkeq
          exact hnodup.1 (List.mem_map.2 ⟨kv, hrest, hkeq.symm⟩)
        exact ih _ hnodup.2 hrest (by rw [List.getElem?_set_ne hne]; exact hp) h

/-- What a successful `Submit` does, when the items of the order point to
pairwise distinct products: the order is Submitted at `now` with shipping status
None, every product of an item has lost the quantity of the item, in `int64`
arithmetic, and the other products are as before. -/
theorem Order.Submit_success_effects {w : World} {sn sa : String} {coupon : Option Nat}
    {tE tX now : Time} {err : Option Error} {w' : World}
    (hnodup : (w.order.items.map (fun kv => kv.2.product)).Nodup)
    (h : Order.Submit w sn sa coupon tE tX now = Outcome.ret true err w') :
    w'.order.status = Order.StatusSubmitted ∧
    w'.order.shippingStatus = Order.ShipStatusNone ∧
    w'.order.submittedDate = now ∧
    w'.order.items = w.order.items ∧
    (∀ kv ∈ w.order.items, ∃ p, w.products[kv.2.product]? = some p ∧
      (p.CanBeOrdered kv.2.quantity).1 = true ∧
      w'.products[kv.2.product]? =
        some (p.SetStock (wrapInt64 (p.stock - kv.2.quantity)))) ∧
    (∀ a : Nat, (∀ kv ∈ w.order.items, kv.2.product ≠ a) → w'.products[a]? = w.products[a]?) := by
  have key : Order.checkItems w.products w.order.items = some none ∧
      ∃ w1 : World, w1.products = w.products ∧ w1.order.items = w.order.items ∧
        Order.commit w1 now = Outcome.ret true none w' := by
    cases coupon with
    | none =>
      obtain ⟨-, -, -, hcheck, total, -, hcommit⟩ := Order.Submit_success_none h
      refine ⟨hcheck, _, ?_, ?_, hcommit⟩ <;> rfl
    | some c =>
      obtain ⟨-, -, -, hcheck, cpn, total, -, -, -, -, hcommit⟩ := Order.Submit_success_some h
      refine ⟨hcheck, _, ?_, ?_, hcommit⟩ <;> rfl
  obtain ⟨hcheck, w1, hps, hitems, hcommit⟩ := key
  obtain ⟨-, -, ho, hstock, -⟩ := Order.commit_ret hcommit
  rw [hps, hitems] at hstock
  refine ⟨by rw [ho], by rw [ho], by rw [ho], by rw [ho]; exact hitems, ?_, ?_⟩
  · intro kv hkv
    obtain ⟨p, hp, hcan⟩ := (Order.checkItems_eq_some_none_iff _ _).1 hcheck kv hkv
    exact ⟨p, hp, hcan,
      Order.commitStock_getElem?_of_mem _ _ _ kv p hnodup hkv hp hstock⟩
  · intro a ha
    exact Order.commitStock_getElem?_of_not_mem _ _ _ a ha hstock

/-- The subtraction of `CanBeOrdered` and of `Submit` is exact on a stock that
is not negative: an accepted quantity is at most the stock, and the stock left
is the difference, not negative. -/
theorem Product.CanBeOrdered_exact (p : Product) (q : Int)
    (hs : IsInt64 p.stock) (hq : IsInt64 q) (hnonneg : 0 ≤ p.stock) :
    (p.CanBeOrdered q).1 = true ↔
      0 < q ∧ p.status = Product.StatusAvailable ∧ q ≤ p.stock := by
  rw [Product.CanBeOrdered_eq_true_iff]
  constructor
  · rintro ⟨h1, h2, h3⟩
    have hw : wrapInt64 (p.stock - q) = p.stock - q := by
      apply wrapInt64_eq_self
      unfold IsInt64 at *
      constructor <;> omega
    rw [hw] at h3
    exact ⟨h1, h2, by omega⟩
  · rintro ⟨h1, h2, h3⟩
    have hw : wrapInt64 (p.stock - q) = p.stock - q := by
      apply wrapInt64_eq_self
      unfold IsInt64 at *
      constructor <;> omega
    rw [hw]
    exact ⟨h1, h2, by omega⟩

end Sstest

namespace Sstest

/-! ## Independence of the order of iteration

Go visits a map in an unspecified order.  The three loops of `Submit` do not
depend on it, but for the item named by the error of the first one. -/

theorem wrapInt64_sub_wrapInt64 (x y : Int) :
    wrapInt64 (wrapInt64 x - y) = wrapInt64 (x - y) := by
  unfold wrapInt64
  omega

theorem wrapInt64_sub_sub_comm (s x y : Int) :
    wrapInt64 (wrapInt64 (s - x) - y) = wrapInt64 (wrapInt64 (s - y) - x) := by
  unfold wrapInt64
  omega

theorem Order.subtotalSpec_perm (products : List Product) {l1 l2 : List (String × Item)}
    (h : l1.Perm l2) : Order.subtotalSpec products l1 = Order.subtotalSpec products l2 := by
  unfold Order.subtotalSpec
  exact (h.map _).sum_eq

theorem Order.sumItems_perm (products : List Product) {l1 l2 : List (String × Item)}
    (a : Decimal) (h : l1.Perm l2) :
    Order.sumItems products l1 a = Order.sumItems products l2 a := by
  by_cases hv : ∀ kv ∈ l1, kv.2.product < products.length
  · have hv2 : ∀ kv ∈ l2, kv.2.product < products.length :=
      fun kv hkv => hv kv (h.mem_iff.2 hkv)
    obtain ⟨t1, ht1⟩ := Order.sumItems_valid products l1 a hv
    obtain ⟨t2, ht2⟩ := Order.sumItems_valid products l2 a hv2
    rw [ht1, ht2, Order.sumItems_eq _ _ _ _ ht1, Order.sumItems_eq _ _ _ _ ht2,
      Order.subtotalSpec_perm products h]
  · have hnone : ∀ (l : List (String × Item)) (b : Decimal),
        (¬ ∀ kv ∈ l, kv.2.product < products.length) → Order.sumItems products l b = none := by
      intro l
      induction l with
      | nil => intro b hb; exact absurd (fun kv hkv => absurd hkv (by simp)) hb
      | cons kv rest ih =>
        intro b hb
        obtain ⟨k, val⟩ := kv
        unfold Order.sumItems
        split
        · rfl
        · rename_i p hp
          apply ih
          intro hrest
          apply hb
          intro kv hkv
          rcases List.mem_cons.1 hkv with rfl | hmem
          · show val.product < products.length
            by_contra hge
            rw [List.getElem?_eq_none (by omega)] at hp
            exact absurd hp (by simp)
          · exact hrest kv hmem
    rw [hnone l1 a hv, hnone l2 a (fun hv2 => hv (fun kv hkv => hv2 kv (h.mem_iff.1 hkv)))]

theorem Order.checkItems_perm (products : List Product) {l1 l2 : List (String × Item)}
    (h : l1.Perm l2) :
    Order.checkItems products l1 = some none ↔ Order.checkItems products l2 = some none := by
  rw [Order.checkItems_eq_some_none_iff, Order.checkItems_eq_some_none_iff]
  constructor
  · intro h1 kv hkv
    exact h1 kv (h.mem_iff.2 hkv)
  · intro h2 kv hkv
    exact h2 kv (h.mem_iff.1 hkv)

theorem Order.commitStock_swap (products : List Product) (x y : String × Item)
    (rest : List (String × Item)) :
    Order.commitStock products (x :: y :: rest) = Order.commitStock products (y :: x :: rest) := by
  obtain ⟨kx, vx⟩ := x
  obtain ⟨ky, vy⟩ := y
  simp only [Order.commitStock]
  by_cases hx : vx.product < products.length
  · by_cases hy : vy.product < products.length
    · rw [List.getElem?_eq_getElem hx, List.getElem?_eq_getElem hy]
      simp only
      by_cases hxy : vx.product = vy.product
      · have hlx : vy.product < (products.set vx.product
            (products[vx.product].SetStock
              (wrapInt64 (products[vx.product].stock - vx.quantity)))).length := by
          rw [List.length_set]; exact hy
        have hly : vx.product < (products.set vy.product
            (products[vy.product].SetStock
              (wrapInt64 (products[vy.product].stock - vy.quantity)))).length := by
          rw [List.length_set]; exact hx
        rw [List.getElem?_eq_getElem hlx, List.getElem?_eq_getElem hly]
        simp only [List.getElem_set, hxy, if_true, List.set_set, Product.SetStock]
        rw [wrapInt64_sub_sub_comm]
      · have hyx : vy.product ≠ vx.product := fun e => hxy e.symm
        rw [List.getElem?_set_ne hxy, List.getElem?_set_ne hyx,
          List.getElem?_eq_getElem hx, List.getElem?_eq_getElem hy]
        simp only
        rw [List.set_comm _ _ _ hxy]
    · have hny : products[vy.product]? = none := List.getElem?_eq_none (by omega)
      rw [List.getElem?_eq_getElem hx, hny]
      simp only
      rw [List.getElem?_eq_none (by rw [List.length_set]; omega)]
  · have hnx : products[vx.product]? = none := List.getElem?_eq_none (by omega)
    rw [hnx]
    simp only
    split
    · rfl
    · rw [List.getElem?_eq_none (by rw [List.length_set]; omega)]

theorem Order.commitStock_perm {l1 l2 : List (String × Item)} (h : l1.Perm l2)
    (products : List Product) :
    Order.commitStock products l1 = Order.commitStock products l2 := by
  induction h generalizing products with
  | nil => rfl
  | cons x _ ih =>
    obtain ⟨k, val⟩ := x
    simp only [Order.commitStock]
    split
    · rfl
    · exact ih _
  | swap x y l => exact Order.commitStock_swap products y x l
  | trans _ _ ih1 ih2 => rw [ih1, ih2]

end Sstest

namespace Sstest

/-! ## Maps -/

theorem lookup_mapSet {α : Type} (m : List (String × α)) (key : String) (val : α)
    (k : String) :
    (mapSet m key val).lookup k = if k = key then some val else m.lookup k := by
  induction m with
  | nil =>
    by_cases hk : k = key
    · subst hk
      simp [mapSet]
    · have hb : (k == key) = false := by simpa using hk
      simp [mapSet, List.lookup_cons, hb, hk]
  | cons kv rest ih =>
    obtain ⟨k0, v0⟩ := kv
    simp only [mapSet]
    by_cases h0 : k0 = key
    · subst h0
      rw [if_pos rfl]
      by_cases hk : k = k0
      · subst hk
        simp
      · have hb : (k == k0) = false := by simpa using hk
        simp [List.lookup_cons, hb, hk]
    · rw [if_neg h0]
      by_cases hk : k = k0
      · subst hk
        have hne : ¬ k = key := h0
        simp [hne]
      · have hb : (k == k0) = false := by simpa using hk
        rw [List.lookup_cons, hb]
        simp only
        rw [ih, List.lookup_cons, hb]

theorem lookup_mapDelete {α : Type} (m : List (String × α)) (key : String) (k : String) :
    (mapDelete m key).lookup k = if k = key then none else m.lookup k := by
  induction m with
  | nil => simp [mapDelete]
  | cons kv rest ih =>
    obtain ⟨k0, v0⟩ := kv
    unfold mapDelete at ih ⊢
    by_cases h0 : k0 = key
    · subst h0
      rw [List.filter_cons_of_neg (by simp), ih]
      by_cases hk : k = k0
      · simp [hk]
      · have hb : (k == k0) = false := by simpa using hk
        simp [hk, List.lookup_cons, hb]
    · rw [List.filter_cons_of_pos (by simpa using h0)]
      by_cases hk : k = k0
      · subst hk
        have hne : ¬ k = key := h0
        simp [hne]
      · have hb : (k == k0) = false := by simpa using hk
        rw [List.lookup_cons, hb]
        simp only
        rw [ih, List.lookup_cons, hb]

theorem keys_mapSet_of_lookup_some {α : Type} (m : List (String × α)) (key : String)
    (val v0 : α) (h : m.lookup key = some v0) :
    (mapSet m key val).map Prod.fst = m.map Prod.fst := by
  induction m with
  | nil => simp at h
  | cons kv rest ih =>
    obtain ⟨k1, v1⟩ := kv
    simp only [mapSet]
    by_cases h1 : k1 = key
    · subst h1
      rw [if_pos rfl]
      rfl
    · rw [if_neg h1]
      have hb : (key == k1) = false := by
        simpa using (fun e : key = k1 => h1 e.symm)
      rw [List.lookup_cons, hb] at h
      simp only [List.map_cons, ih h]

theorem length_mapSet_of_lookup_some {α : Type} (m : List (String × α)) (key : String)
    (val v0 : α) (h : m.lookup key = some v0) :
    (mapSet m key val).length = m.length := by
  have hk := keys_mapSet_of_lookup_some m key val v0 h
  have hl := congrArg List.length hk
  simpa using hl

theorem keys_mapDelete {α : Type} (m : List (String × α)) (key : String) :
    (mapDelete m key).map Prod.fst = (m.map Prod.fst).filter (fun k => k ≠ key) := by
  induction m with
  | nil => rfl
  | cons kv rest ih =>
    obtain ⟨k0, v0⟩ := kv
    unfold mapDelete at ih ⊢
    by_cases h0 : k0 = key
    · subst h0
      rw [List.filter_cons_of_neg (by simp), ih, List.map_cons,
        List.filter_cons_of_neg (by simp)]
    · rw [List.filter_cons_of_pos (by simpa using h0), List.map_cons, ih, List.map_cons,
        List.filter_cons_of_pos (by simpa using h0)]

theorem lookup_isSome_iff_mem {α : Type} (m : List (String × α)) (key : String) :
    (m.lookup key).isSome = true ↔ ∃ v, (key, v) ∈ m := by
  rw [List.lookup_isSome_iff]
  constructor
  · rintro ⟨⟨k, v⟩, hmem, hk⟩
    have hkk : key = k := by simpa using hk
    subst hkk
    exact ⟨v, hmem⟩
  · rintro ⟨v, hmem⟩
    exact ⟨(key, v), hmem, by simp⟩

theorem mem_of_lookup_eq_some {α : Type} (m : List (String × α)) (key : String) (v : α)
    (h : m.lookup key = some v) : (key, v) ∈ m := by
  induction m with
  | nil => simp at h
  | cons kv rest ih =>
    obtain ⟨k0, v0⟩ := kv
    rw [List.lookup_cons] at h
    by_cases hk : key = k0
    · subst hk
      simp at h
      subst h
      simp
    · have hb : (key == k0) = false := by simpa using hk
      rw [hb] at h
      exact List.mem_cons_of_mem _ (ih h)

theorem lookup_eq_some_of_mem_of_nodup {α : Type} (m : List (String × α)) (key : String)
    (v : α) (hn : (m.map Prod.fst).Nodup) (h : (key, v) ∈ m) : m.lookup key = some v := by
  induction m with
  | nil => simp at h
  | cons kv rest ih =>
    obtain ⟨k0, v0⟩ := kv
    rw [List.map_cons, List.nodup_cons] at hn
    rcases List.mem_cons.1 h with heq | hmem
    · cases heq
      simp
    · have hne : key ≠ k0 := by
        intro e
        subst e
        exact hn.1 (List.mem_map.2 ⟨(key, v), hmem, rfl⟩)
      have hb : (key == k0) = false := by simpa using hne
      rw [List.lookup_cons, hb]
      exact ih hn.2 hmem

end Sstest

namespace Sstest

/-! ## Item quantities -/

/-- The two guards of `AddQuantity` let an addition through exactly when the
exact sum is a positive `int`. -/
theorem Item.AddQuantity_eq (i : Item) (n : Int) (hq : IsInt64 i.quantity) (hn : IsInt64 n) :
    (1 ≤ i.quantity + n ∧ i.quantity + n ≤ MaxInt64 →
      i.AddQuantity n = ({ i with quantity := i.quantity + n }, none)) ∧
    (¬ (1 ≤ i.quantity + n ∧ i.quantity + n ≤ MaxInt64) →
      ∃ e, i.AddQuantity n = (i, some e)) := by
  unfold IsInt64 at hq hn
  unfold MaxInt64
  have hcases : (i.quantity + n < 2 ^ 63 ∧ -(2 ^ 63) ≤ i.quantity + n ∧
        wrapInt64 (i.quantity + n) = i.quantity + n) ∨
      (2 ^ 63 ≤ i.quantity + n ∧ wrapInt64 (i.quantity + n) = i.quantity + n - 2 ^ 64) ∨
      (i.quantity + n < -(2 ^ 63) ∧ wrapInt64 (i.quantity + n) = i.quantity + n + 2 ^ 64) := by
    unfold wrapInt64
    omega
  constructor
  · rintro ⟨h1, h2⟩
    have hw : wrapInt64 (i.quantity + n) = i.quantity + n := by
      rcases hcases with ⟨-, -, h⟩ | ⟨h, -⟩ | ⟨h, -⟩
      · exact h
      · omega
      · omega
    unfold Item.AddQuantity
    rw [hw]
    have hguard : (decide (i.quantity + n < i.quantity) != decide (n < 0)) = false := by
      by_cases hneg : n < 0
      · have : i.quantity + n < i.quantity := by omega
        simp [hneg, this]
      · have : ¬ i.quantity + n < i.quantity := by omega
        simp [hneg, this]
    rw [hguard]
    have hpos : ¬ (0 ≥ i.quantity + n) := by omega
    simp [hpos]
  · intro hnot
    unfold Item.AddQuantity
    by_cases hguard : (decide (wrapInt64 (i.quantity + n) < i.quantity) != decide (n < 0)) = true
    · rw [if_pos hguard]
      exact ⟨_, rfl⟩
    · rw [if_neg hguard]
      by_cases hpos : 0 ≥ wrapInt64 (i.quantity + n)
      · rw [if_pos hpos]
        exact ⟨_, rfl⟩
      · exfalso
        rcases hcases with ⟨hlt, hge, h⟩ | ⟨h, hw⟩ | ⟨h, hw⟩
        · rw [h] at hpos
          omega
        · apply hguard
          rw [hw]
          have h1 : i.quantity + n - 2 ^ 64 < i.quantity := by omega
          have h2 : ¬ n < 0 := by omega
          rw [decide_eq_true h1, decide_eq_false h2]
          rfl
        · apply hguard
          rw [hw]
          have h1 : ¬ i.quantity + n + 2 ^ 64 < i.quantity := by omega
          have h2 : n < 0 := by omega
          rw [decide_eq_false h1, decide_eq_true h2]
          rfl

theorem Item.AddQuantity_err (i : Item) (n : Int) :
    ((i.AddQuantity n).2 = none ∧
      (i.AddQuantity n).1 = { i with quantity := wrapInt64 (i.quantity + n) }) ∨
    ((∃ e, (i.AddQuantity n).2 = some e) ∧ (i.AddQuantity n).1 = i) := by
  unfold Item.AddQuantity
  split_ifs
  · exact Or.inr ⟨⟨_, rfl⟩, rfl⟩
  · exact Or.inr ⟨⟨_, rfl⟩, rfl⟩
  · exact Or.inl ⟨rfl, rfl⟩

theorem Item.SubtractQuantity_eq (i : Item) (n : Int) :
    i.SubtractQuantity n = i.AddQuantity (wrapInt64 (0 - n)) := by
  unfold Item.SubtractQuantity
  simp only
  split
  · rename_i e he
    exact Prod.ext rfl he.symm
  · rename_i he
    exact Prod.ext rfl he.symm

end Sstest

namespace Sstest

/-! ## Item management: each operation as one conditional -/

theorem Order.HasProduct_eq {w : World} {p : Nat} {prod : Product}
    (hp : w.products[p]? = some prod) :
    Order.HasProduct w p = some (w.order.items.lookup prod.id).isSome := by
  unfold Order.HasProduct
  rw [hp]

theorem Order.AddProduct_not_draft (w : World) (p : Nat) (q : Int) (uuid : String)
    (hd : w.order.status ≠ Order.StatusDraft) :
    Order.AddProduct w p q uuid = Outcome.ret false (some (Error.leaf Site.addNotDraft)) w := by
  unfold Order.AddProduct
  rw [if_pos (fun h => hd h.symm)]

theorem Order.EditProduct_not_draft (w : World) (p : Nat) (q : Int)
    (hd : w.order.status ≠ Order.StatusDraft) :
    Order.EditProduct w p q = Outcome.ret false (some (Error.leaf Site.editNotDraft)) w := by
  unfold Order.EditProduct
  rw [if_pos (fun h => hd h.symm)]

theorem Order.DeleteProduct_not_draft (w : World) (p : Nat)
    (hd : w.order.status ≠ Order.StatusDraft) :
    Order.DeleteProduct w p = Outcome.ret false (some (Error.leaf Site.deleteNotDraft)) w := by
  unfold Order.DeleteProduct
  rw [if_pos (fun h => hd h.symm)]

theorem Order.AddProduct_present {w : World} {p : Nat} {prod : Product} {item : Item}
    (q : Int) (uuid : String)
    (hd : w.order.status = Order.StatusDraft) (hp : w.products[p]? = some prod)
    (hl : w.order.items.lookup prod.id = some item) :
    Order.AddProduct w p q uuid =
      if (prod.CanBeOrdered (wrapInt64 (item.quantity + q))).1 = false then
        Outcome.ret false
          (some (Error.quote Site.addCannotOrderMore
            (prod.CanBeOrdered (wrapInt64 (item.quantity + q))).2)) w
      else
        Outcome.ret true none
          { w with order := { w.order with
              items := mapSet w.order.items prod.id (item.AddQuantity q).1 } } := by
  unfold Order.AddProduct
  rw [if_neg (by simp [hd]), Order.HasProduct_eq hp, hp, hl]
  simp only [Option.isSome_some, Option.isSome_none, hl]

theorem Order.EditProduct_present {w : World} {p : Nat} {prod : Product} {item : Item}
    (q : Int)
    (hd : w.order.status = Order.StatusDraft) (hp : w.products[p]? = some prod)
    (hl : w.order.items.lookup prod.id = some item) :
    Order.EditProduct w p q =
      if (prod.CanBeOrdered (wrapInt64 (item.quantity + q))).1 = false then
        Outcome.ret false
          (some (Error.quote Site.editCannotOrder
            (prod.CanBeOrdered (wrapInt64 (item.quantity + q))).2)) w
      else
        Outcome.ret true none
          { w with order := { w.order with
              items := mapSet w.order.items prod.id
                { item with quantity := wrapInt64 (item.quantity + q) } } } := by
  unfold Order.EditProduct
  rw [if_neg (by simp [hd]), Order.HasProduct_eq hp, hp, hl]
  simp only [Option.isSome_some, Option.isSome_none, hl]

theorem Order.EditProduct_absent {w : World} {p : Nat} {prod : Product} (q : Int)
    (hd : w.order.status = Order.StatusDraft) (hp : w.products[p]? = some prod)
    (hl : w.order.items.lookup prod.id = none) :
    Order.EditProduct w p q = Outcome.ret false (some (Error.leaf Site.editNoProduct)) w := by
  unfold Order.EditProduct
  rw [if_neg (by simp [hd]), Order.HasProduct_eq hp, hp, hl]
  simp only [Option.isSome_some, Option.isSome_none, hl]

theorem Order.DeleteProduct_present {w : World} {p : Nat} {prod : Product} {item : Item}
    (hd : w.order.status = Order.StatusDraft) (hp : w.products[p]? = some prod)
    (hl : w.order.items.lookup prod.id = some item) :
    Order.DeleteProduct w p =
      Outcome.ret true none
        { w with order := { w.order with items := mapDelete w.order.items prod.id } } := by
  unfold Order.DeleteProduct
  rw [if_neg (by simp [hd]), Order.HasProduct_eq hp, hp, hl]
  simp only [Option.isSome_some, Option.isSome_none, hl]

theorem Order.DeleteProduct_absent {w : World} {p : Nat} {prod : Product}
    (hd : w.order.status = Order.StatusDraft) (hp : w.products[p]? = some prod)
    (hl : w.order.items.lookup prod.id = none) :
    Order.DeleteProduct w p = Outcome.ret false (some (Error.leaf Site.deleteNoProduct)) w := by
  unfold Order.DeleteProduct
  rw [if_neg (by simp [hd]), Order.HasProduct_eq hp, hp, hl]
  simp only [Option.isSome_some, Option.isSome_none, hl]

theorem Order.AddProduct_absent_of_lookup {w : World} {p : Nat} {prod : Product} (q : Int)
    (uuid : String)
    (hd : w.order.status = Order.StatusDraft) (hp : w.products[p]? = some prod)
    (hl : w.order.items.lookup prod.id = none) :
    Order.AddProduct w p q uuid =
      if (prod.CanBeOrdered q).1 = false then
        Outcome.ret false (some (Error.quote Site.addCannotOrder (prod.CanBeOrdered q).2)) w
      else
        Outcome.ret true none
          { w with order := { w.order with
              items := w.order.items ++ [(prod.id, { id := uuid, product := p, quantity := q })] } }
    := by
  apply Order.AddProduct_absent q uuid hd hp
  rw [Order.HasProduct_eq hp, hl]
  rfl

/-- A call of `AddProduct`, `EditProduct` or `DeleteProduct` that returns leaves
the heap and every field of the order but its items as they were. -/
theorem Order.AddProduct_frame {w : World} {p : Nat} {q : Int} {uuid : String} {ok : Bool}
    {err : Option Error} {w' : World}
    (h : Order.AddProduct w p q uuid = Outcome.ret ok err w') :
    w' = { w with order := { w.order with items := w'.order.items } } := by
  by_cases hd : w.order.status = Order.StatusDraft
  · cases hp : w.products[p]? with
    | none =>
      unfold Order.AddProduct at h
      rw [if_neg (by simp [hd]), hp] at h
      split at h <;> simp_all
    | some prod =>
      cases hl : w.order.items.lookup prod.id with
      | none =>
        rw [Order.AddProduct_absent_of_lookup q uuid hd hp hl] at h
        split_ifs at h <;> cases h <;> rfl
      | some item =>
        rw [Order.AddProduct_present q uuid hd hp hl] at h
        split_ifs at h <;> cases h <;> rfl
  · rw [Order.AddProduct_not_draft w p q uuid hd] at h
    cases h
    rfl

theorem Order.EditProduct_frame {w : World} {p : Nat} {q : Int} {ok : Bool}
    {err : Option Error} {w' : World}
    (h : Order.EditProduct w p q = Outcome.ret ok err w') :
    w' = { w with order := { w.order with items := w'.order.items } } := by
  by_cases hd : w.order.status = Order.StatusDraft
  · cases hp : w.products[p]? with
    | none =>
      unfold Order.EditProduct at h
      rw [if_neg (by simp [hd]), hp] at h
      split at h <;> simp_all
    | some prod =>
      cases hl : w.order.items.lookup prod.id with
      | none =>
        rw [Order.EditProduct_absent q hd hp hl] at h
        cases h
        rfl
      | some item =>
        rw [Order.EditProduct_present q hd hp hl] at h
        split_ifs at h <;> cases h <;> rfl
  · rw [Order.EditProduct_not_draft w p q hd] at h
    cases h
    rfl

theorem Order.DeleteProduct_frame {w : World} {p : Nat} {ok : Bool}
    {err : Option Error} {w' : World}
    (h : Order.DeleteProduct w p = Outcome.ret ok err w') :
    w' = { w with order := { w.order with items := w'.order.items } } := by
  by_cases hd : w.order.status = Order.StatusDraft
  · cases hp : w.products[p]? with
    | none =>
      unfold Order.DeleteProduct at h
      rw [if_neg (by simp [hd]), hp] at h
      split at h <;> simp_all
    | some prod =>
      cases hl : w.order.items.lookup prod.id with
      | none =>
        rw [Order.DeleteProduct_absent hd hp hl] at h
        cases h
        rfl
      | some item =>
        rw [Order.DeleteProduct_present hd hp hl] at h
        cases h
        rfl
  · rw [Order.DeleteProduct_not_draft w p hd] at h
    cases h
    rfl

end Sstest

namespace Sstest

/-! ## Merging into an item that the order holds -/

/-- A positive total has not wrapped around when the exact sum is not below the
least `int`. -/
theorem wrapInt64_add_of_pos {e q : Int} (he : IsInt64 e) (hq : IsInt64 q)
    (hlow : MinInt64 ≤ e + q) (hpos : 0 < wrapInt64 (e + q)) :
    wrapInt64 (e + q) = e + q ∧ 1 ≤ e + q ∧ e + q ≤ MaxInt64 := by
  unfold IsInt64 at he hq
  unfold MinInt64 at hlow
  unfold MaxInt64
  unfold wrapInt64 at hpos ⊢
  omega

/-- The exact sum is not below the least `int` when the old quantity is not
negative. -/
theorem minInt64_le_add_of_nonneg {e q : Int} (hq : IsInt64 q) (hnonneg : 0 ≤ e) :
    MinInt64 ≤ e + q := by
  unfold IsInt64 at hq
  unfold MinInt64
  omega

/-- `AddProduct` for a product that the order holds, when the exact sum of the
old quantity and `q` is not below the least `int`: the quantity of the item
becomes the exact sum when `CanBeOrdered` accepts the total, and nothing changes
otherwise. -/
theorem Order.AddProduct_merge {w : World} {p : Nat} {prod : Product} {item : Item}
    (q : Int) (uuid : String)
    (hd : w.order.status = Order.StatusDraft) (hp : w.products[p]? = some prod)
    (hl : w.order.items.lookup prod.id = some item)
    (he : IsInt64 item.quantity) (hq : IsInt64 q) (hlow : MinInt64 ≤ item.quantity + q) :
    ((prod.CanBeOrdered (wrapInt64 (item.quantity + q))).1 = true →
      wrapInt64 (item.quantity + q) = item.quantity + q ∧
      Order.AddProduct w p q uuid =
        Outcome.ret true none
          { w with order := { w.order with
              items := mapSet w.order.items prod.id
                { item with quantity := item.quantity + q } } }) ∧
    ((prod.CanBeOrdered (wrapInt64 (item.quantity + q))).1 = false →
      ∃ e, Order.AddProduct w p q uuid = Outcome.ret false (some e) w) := by
  have heq := Order.AddProduct_present q uuid hd hp hl
  constructor
  · intro hc
    have hpos : 0 < wrapInt64 (item.quantity + q) :=
      ((Product.CanBeOrdered_eq_true_iff _ _).1 hc).1
    obtain ⟨hw, h1, h2⟩ := wrapInt64_add_of_pos he hq hlow hpos
    refine ⟨hw, ?_⟩
    rw [heq, if_neg (by simp [hc]), ((Item.AddQuantity_eq item q he hq).1 ⟨h1, h2⟩)]
  · intro hc
    rw [heq, if_pos hc]
    exact ⟨_, rfl⟩

theorem mem_mapSet {α : Type} (m : List (String × α)) (key : String) (val : α)
    (kv : String × α) (h : kv ∈ mapSet m key val) : kv ∈ m ∨ kv = (key, val) := by
  induction m with
  | nil =>
    simp only [mapSet, List.mem_singleton] at h
    exact Or.inr h
  | cons kv0 rest ih =>
    obtain ⟨k0, v0⟩ := kv0
    simp only [mapSet] at h
    split_ifs at h
    · rcases List.mem_cons.1 h with h1 | h1
      · exact Or.inr h1
      · exact Or.inl (List.mem_cons_of_mem _ h1)
    · rcases List.mem_cons.1 h with h1 | h1
      · exact Or.inl (by rw [h1]; exact List.mem_cons_self _ _)
      · rcases ih h1 with h2 | h2
        · exact Or.inl (List.mem_cons_of_mem _ h2)
        · exact Or.inr h2

theorem not_mem_keys_of_lookup_none {α : Type} (m : List (String × α)) (key : String)
    (h : m.lookup key = none) : key ∉ m.map Prod.fst := by
  intro hmem
  obtain ⟨⟨k, v⟩, hkv, hk⟩ := List.mem_map.1 hmem
  simp only at hk
  subst hk
  have := (lookup_isSome_iff_mem m k).2 ⟨v, hkv⟩
  rw [h] at this
  exact absurd this (by simp)

end Sstest

namespace Sstest

/-! ## The items of an order are keyed by the id of their product -/

theorem Order.KeyedByProduct_of_items_eq {w w' : World} (hps : w'.products = w.products)
    (hitems : w'.order.items = w.order.items) (hinv : Order.KeyedByProduct w) :
    Order.KeyedByProduct w' := by
  unfold Order.KeyedByProduct at hinv ⊢
  rw [hps, hitems]
  exact hinv

theorem Order.KeyedByProduct_append (w : World) {w' : World} {key : String} {item : Item} {prod : Product}
    (hps : w'.products = w.products)
    (hitems : w'.order.items = w.order.items ++ [(key, item)])
    (hl : w.order.items.lookup key = none)
    (hprod : w.products[item.product]? = some prod) (hid : prod.id = key)
    (hinv : Order.KeyedByProduct w) : Order.KeyedByProduct w' := by
  unfold Order.KeyedByProduct at hinv ⊢
  rw [hps, hitems]
  constructor
  · rw [List.map_append, List.nodup_append]
    refine ⟨hinv.1, by simp, ?_⟩
    intro a ha hb
    simp only [List.map_cons, List.map_nil, List.mem_singleton] at hb
    subst hb
    exact not_mem_keys_of_lookup_none _ _ hl ha
  · intro kv hkv
    rcases List.mem_append.1 hkv with h | h
    · exact hinv.2 kv h
    · simp only [List.mem_singleton] at h
      subst h
      exact ⟨prod, hprod, hid⟩

theorem Order.KeyedByProduct_mapSet (w : World) {w' : World} {key : String} {item item' : Item}
    (hps : w'.products = w.products)
    (hitems : w'.order.items = mapSet w.order.items key item')
    (hl : w.order.items.lookup key = some item)
    (hprod : item'.product = item.product)
    (hinv : Order.KeyedByProduct w) : Order.KeyedByProduct w' := by
  unfold Order.KeyedByProduct at hinv ⊢
  rw [hps, hitems]
  constructor
  · rw [keys_mapSet_of_lookup_some _ _ _ _ hl]
    exact hinv.1
  · intro kv hkv
    rcases mem_mapSet _ _ _ _ hkv with h | h
    · exact hinv.2 kv h
    · subst h
      obtain ⟨prod, hp, hid⟩ := hinv.2 (key, item) (mem_of_lookup_eq_some _ _ _ hl)
      exact ⟨prod, by rw [hprod]; exact hp, hid⟩

theorem Order.KeyedByProduct_mapDelete (w : World) {w' : World} {key : String}
    (hps : w'.products = w.products)
    (hitems : w'.order.items = mapDelete w.order.items key)
    (hinv : Order.KeyedByProduct w) : Order.KeyedByProduct w' := by
  unfold Order.KeyedByProduct at hinv ⊢
  rw [hps, hitems]
  constructor
  · rw [keys_mapDelete]
    exact hinv.1.filter _
  · intro kv hkv
    unfold mapDelete at hkv
    exact hinv.2 kv (List.mem_filter.1 hkv).1

theorem Order.AddProduct_keyed {w w' : World} {p : Nat} {q : Int} {uuid : String} {ok : Bool}
    {err : Option Error} (h : Order.AddProduct w p q uuid = Outcome.ret ok err w')
    (hinv : Order.KeyedByProduct w) : Order.KeyedByProduct w' := by
  by_cases hd : w.order.status = Order.StatusDraft
  · cases hp : w.products[p]? with
    | none =>
      unfold Order.AddProduct at h
      rw [if_neg (by simp [hd]), hp] at h
      split at h <;> simp_all
    | some prod =>
      cases hl : w.order.items.lookup prod.id with
      | none =>
        rw [Order.AddProduct_absent_of_lookup q uuid hd hp hl] at h
        split_ifs at h
        · cases h
          exact hinv
        · cases h
          exact Order.KeyedByProduct_append w rfl rfl hl hp rfl hinv
      | some item =>
        rw [Order.AddProduct_present q uuid hd hp hl] at h
        split_ifs at h
        · cases h
          exact hinv
        · cases h
          refine Order.KeyedByProduct_mapSet w rfl rfl hl ?_ hinv
          rcases Item.AddQuantity_err item q with ⟨-, h1⟩ | ⟨-, h1⟩ <;> rw [h1]
  · rw [Order.AddProduct_not_draft w p q uuid hd] at h
    cases h
    exact hinv

theorem Order.EditProduct_keyed {w w' : World} {p : Nat} {q : Int} {ok : Bool}
    {err : Option Error} (h : Order.EditProduct w p q = Outcome.ret ok err w')
    (hinv : Order.KeyedByProduct w) : Order.KeyedByProduct w' := by
  by_cases hd : w.order.status = Order.StatusDraft
  · cases hp : w.products[p]? with
    | none =>
      unfold Order.EditProduct at h
      rw [if_neg (by simp [hd]), hp] at h
      split at h <;> simp_all
    | some prod =>
      cases hl : w.order.items.lookup prod.id with
      | none =>
        rw [Order.EditProduct_absent q hd hp hl] at h
        cases h
        exact hinv
      | some item =>
        rw [Order.EditProduct_present q hd hp hl] at h
        split_ifs at h
        · cases h
          exact hinv
        · cases h
          exact Order.KeyedByProduct_mapSet w rfl rfl hl rfl hinv
  · rw [Order.EditProduct_not_draft w p q hd] at h
    cases h
    exact hinv

theorem Order.DeleteProduct_keyed {w w' : World} {p : Nat} {ok : Bool}
    {err : Option Error} (h : Order.DeleteProduct w p = Outcome.ret ok err w')
    (hinv : Order.KeyedByProduct w) : Order.KeyedByProduct w' := by
  by_cases hd : w.order.status = Order.StatusDraft
  · cases hp : w.products[p]? with
    | none =>
      unfold Order.DeleteProduct at h
      rw [if_neg (by simp [hd]), hp] at h
      split at h <;> simp_all
    | some prod =>
      cases hl : w.order.items.lookup prod.id with
      | none =>
        rw [Order.DeleteProduct_absent hd hp hl] at h
        cases h
        exact hinv
      | some item =>
        rw [Order.DeleteProduct_present hd hp hl] at h
        cases h
        exact Order.KeyedByProduct_mapDelete w rfl rfl hinv
  · rw [Order.DeleteProduct_not_draft w p hd] at h
    cases h
    exact hinv

theorem Order.ItemsReachable_keyed {w : World} (h : Order.ItemsReachable w) :
    Order.KeyedByProduct w := by
  induction h with
  | new id now products coupons =>
    exact ⟨List.nodup_nil, fun kv hkv => absurd hkv (by simp [Order.New])⟩
  | add p q uuid _ hstep ih => exact Order.AddProduct_keyed hstep ih
  | edit p q _ hstep ih => exact Order.EditProduct_keyed hstep ih
  | delete p _ hstep ih => exact Order.DeleteProduct_keyed hstep ih

end Sstest

namespace Sstest

/-! ## The status of an order across a call -/

theorem Order.Submit_status {w : World} {sn sa : String} {coupon : Option Nat}
    {tE tX now : Time} {ok : Bool} {err : Option Error} {w' : World}
    (h : Order.Submit w sn sa coupon tE tX now = Outcome.ret ok err w') :
    (ok = false ∧ w'.order.status = w.order.status) ∨
    (ok = true ∧ w.order.status = Order.StatusDraft ∧
      w'.order.status = Order.StatusSubmitted) := by
  cases ok with
  | false =>
    left
    exact ⟨rfl, by rw [(Order.Submit_fail h).2.1]⟩
  | true =>
    right
    cases coupon with
    | none =>
      obtain ⟨_, hd, _, _, total, _, hc⟩ := Order.Submit_success_none h
      exact ⟨rfl, hd.symm, by rw [(Order.commit_ret hc).2.2.1]⟩
    | some c =>
      obtain ⟨_, hd, _, _, cpn, total, _, _, _, _, hc⟩ := Order.Submit_success_some h
      exact ⟨rfl, hd.symm, by rw [(Order.commit_ret hc).2.2.1]⟩

theorem Order.Process_status {w : World} {now : Time} {ok : Bool} {err : Option Error}
    {w' : World} (h : Order.Process w now = Outcome.ret ok err w') :
    (ok = false ∧ err = some (Error.leaf Site.processNotSubmitted) ∧ w' = w) ∨
    (ok = true ∧ w.order.status = Order.StatusSubmitted ∧
      w'.order.status = Order.StatusProcessed) := by
  unfold Order.Process at h
  split_ifs at h with hs
  · cases h
    exact Or.inl ⟨rfl, rfl, rfl⟩
  · cases h
    exact Or.inr ⟨rfl, (not_not.mp hs).symm, rfl⟩

theorem Order.Cancel_status {w : World} {ok : Bool} {err : Option Error}
    {w' : World} (h : Order.Cancel w = Outcome.ret ok err w') :
    (ok = false ∧ err = some (Error.leaf Site.cancelNotSubmitted) ∧ w' = w) ∨
    (ok = true ∧ w.order.status = Order.StatusSubmitted ∧
      w'.order.status = Order.StatusCanceled) := by
  unfold Order.Cancel at h
  split_ifs at h with hs
  · cases h
    exact Or.inl ⟨rfl, rfl, rfl⟩
  · cases h
    exact Or.inr ⟨rfl, (not_not.mp hs).symm, rfl⟩

theorem Order.ProcessShipping_status {w : World} {trackingNo : String} {ok : Bool}
    {err : Option Error} {w' : World}
    (h : Order.ProcessShipping w trackingNo = Outcome.ret ok err w') :
    (ok = false ∧ err = some (Error.leaf Site.shippingNotProcessed) ∧ w' = w) ∨
    (ok = true ∧ w.order.status = Order.StatusProcessed ∧
      w'.order.status = Order.StatusProcessed) := by
  unfold Order.ProcessShipping at h
  split_ifs at h with hs
  · cases h
    exact Or.inl ⟨rfl, rfl, rfl⟩
  · cases h
    exact Or.inr ⟨rfl, (not_not.mp hs).symm, (not_not.mp hs).symm⟩

theorem Order.FinishOrder_status {w : World} {ok : Bool} {err : Option Error}
    {w' : World} (h : Order.FinishOrder w = Outcome.ret ok err w') :
    (ok = false ∧ err = some (Error.leaf Site.finishNotProcessed) ∧ w' = w) ∨
    (ok = true ∧ w.order.status = Order.StatusProcessed ∧
      w'.order.status = Order.StatusDelivered) := by
  unfold Order.FinishOrder at h
  split_ifs at h with hs
  · cases h
    exact Or.inl ⟨rfl, rfl, rfl⟩
  · cases h
    exact Or.inr ⟨rfl, (not_not.mp hs).symm, rfl⟩

theorem Order.AddProduct_status {w : World} {p : Nat} {q : Int} {uuid : String} {ok : Bool}
    {err : Option Error} {w' : World}
    (h : Order.AddProduct w p q uuid = Outcome.ret ok err w') :
    w'.order.status = w.order.status := by
  rw [Order.AddProduct_frame h]

theorem Order.EditProduct_status {w : World} {p : Nat} {q : Int} {ok : Bool}
    {err : Option Error} {w' : World}
    (h : Order.EditProduct w p q = Outcome.ret ok err w') :
    w'.order.status = w.order.status := by
  rw [Order.EditProduct_frame h]

theorem Order.DeleteProduct_status {w : World} {p : Nat} {ok : Bool}
    {err : Option Error} {w' : World}
    (h : Order.DeleteProduct w p = Outcome.ret ok err w') :
    w'.order.status = w.order.status := by
  rw [Order.DeleteProduct_frame h]

/-- The status across one call: it stays, or the call is the successful
transition of one of the four changes. -/
theorem Order.Call.run_status {w : World} {c : Order.Call} {ok : Bool} {err : Option Error}
    {w' : World} (h : c.run w = Outcome.ret ok err w') :
    w'.order.status = w.order.status ∨
    (ok = true ∧
      (((∃ sn sa coupon tE tX now, c = Order.Call.submit sn sa coupon tE tX now) ∧
          w.order.status = Order.StatusDraft ∧ w'.order.status = Order.StatusSubmitted) ∨
       ((∃ now, c = Order.Call.process now) ∧
          w.order.status = Order.StatusSubmitted ∧ w'.order.status = Order.StatusProcessed) ∨
       (c = Order.Call.cancel ∧
          w.order.status = Order.StatusSubmitted ∧ w'.order.status = Order.StatusCanceled) ∨
       (c = Order.Call.finishOrder ∧
          w.order.status = Order.StatusProcessed ∧ w'.order.status = Order.StatusDelivered))) := by
  cases c with
  | addProduct p q uuid => exact Or.inl (Order.AddProduct_status h)
  | editProduct p q => exact Or.inl (Order.EditProduct_status h)
  | deleteProduct p => exact Or.inl (Order.DeleteProduct_status h)
  | submit sn sa coupon tE tX now =>
    have h1 : Order.Submit w sn sa coupon tE tX now = Outcome.ret ok err w' := h
    rcases Order.Submit_status h1 with ⟨_, hs⟩ | ⟨hok, hd, hs⟩
    · exact Or.inl hs
    · exact Or.inr ⟨hok, Or.inl ⟨⟨sn, sa, coupon, tE, tX, now, rfl⟩, hd, hs⟩⟩
  | process now =>
    rcases Order.Process_status h with ⟨_, _, hw⟩ | ⟨hok, hd, hs⟩
    · exact Or.inl (by rw [hw])
    · exact Or.inr ⟨hok, Or.inr (Or.inl ⟨⟨now, rfl⟩, hd, hs⟩)⟩
  | cancel =>
    rcases Order.Cancel_status h with ⟨_, _, hw⟩ | ⟨hok, hd, hs⟩
    · exact Or.inl (by rw [hw])
    · exact Or.inr ⟨hok, Or.inr (Or.inr (Or.inl ⟨rfl, hd, hs⟩))⟩
  | processShipping trackingNo =>
    rcases Order.ProcessShipping_status h with ⟨_, _, hw⟩ | ⟨hok, hd, hs⟩
    · exact Or.inl (by rw [hw])
    · exact Or.inl (by rw [hs, hd])
  | finishOrder =>
    rcases Order.FinishOrder_status h with ⟨_, _, hw⟩ | ⟨hok, hd, hs⟩
    · exact Or.inl (by rw [hw])
    · exact Or.inr ⟨hok, Or.inr (Or.inr (Or.inr ⟨rfl, hd, hs⟩))⟩

theorem Order.Call.run_statusChange {w : World} {c : Order.Call} {ok : Bool}
    {err : Option Error} {w' : World} (h : c.run w = Outcome.ret ok err w') :
    w'.order.status = w.order.status ∨ Order.StatusChange w.order.status w'.order.status := by
  rcases Order.Call.run_status h with hs | ⟨_, ⟨_, hd, hs⟩ | ⟨_, hd, hs⟩ | ⟨_, hd, hs⟩ | ⟨_, hd, hs⟩⟩
  · exact Or.inl hs
  · exact Or.inr (Or.inl ⟨hd, hs⟩)
  · exact Or.inr (Or.inr (Or.inl ⟨hd, hs⟩))
  · exact Or.inr (Or.inr (Or.inr (Or.inl ⟨hd, hs⟩)))
  · exact Or.inr (Or.inr (Or.inr (Or.inr ⟨hd, hs⟩)))

theorem Order.StatusLater_of_change {s s1 : String} (h : Order.StatusChange s s1) :
    Order.StatusLater s s1 := by
  unfold Order.StatusChange at h
  unfold Order.StatusLater
  rcases h with ⟨h1, h2⟩ | ⟨h1, h2⟩ | ⟨h1, h2⟩ | ⟨h1, h2⟩ <;> simp [h1, h2]

theorem Order.StatusLater_trans {s s1 s2 : String} (h1 : Order.StatusLater s s1)
    (h2 : Order.StatusLater s1 s2) : Order.StatusLater s s2 := by
  unfold Order.StatusLater at *
  rcases h1 with ⟨ha, hb | hb | hb | hb⟩ | ⟨ha, hb | hb | hb⟩ | ⟨ha, hb⟩ <;>
    rcases h2 with ⟨hc, hd | hd | hd | hd⟩ | ⟨hc, hd | hd | hd⟩ | ⟨hc, hd⟩ <;>
    subst ha hb <;>
    first
      | exact absurd hc (by decide)
      | (subst hd; decide)

theorem Order.StatusLater_irrefl (s : String) : ¬ Order.StatusLater s s := by
  unfold Order.StatusLater
  rintro (⟨ha, hb | hb | hb | hb⟩ | ⟨ha, hb | hb | hb⟩ | ⟨ha, hb⟩) <;>
    exact absurd (ha.symm.trans hb) (by decide)

/-- The status after a run of calls is the status before it or a later one. -/
theorem Order.runCalls_status (cs : List Order.Call) :
    ∀ (w w' : World), Order.runCalls w cs = some w' →
      w'.order.status = w.order.status ∨ Order.StatusLater w.order.status w'.order.status := by
  induction cs with
  | nil =>
    intro w w' h
    simp only [Order.runCalls, Option.some.injEq] at h
    exact Or.inl (by rw [h])
  | cons c rest ih =>
    intro w w' h
    simp only [Order.runCalls] at h
    cases hc : c.run w with
    | panic =>
      rw [hc] at h
      exact absurd h (by simp)
    | ret ok err w1 =>
      rw [hc] at h
      simp only at h
      rcases Order.Call.run_statusChange hc with h1 | h1 <;> rcases ih w1 w' h with h2 | h2
      · exact Or.inl (h2.trans h1)
      · exact Or.inr (h1 ▸ h2)
      · exact Or.inr (h2 ▸ Order.StatusLater_of_change h1)
      · exact Or.inr (Order.StatusLater_trans (Order.StatusLater_of_change h1) h2)

theorem Order.runCalls_append (cs1 cs2 : List Order.Call) :
    ∀ (w : World), Order.runCalls w (cs1 ++ cs2) =
      (Order.runCalls w cs1).bind (fun w1 => Order.runCalls w1 cs2) := by
  induction cs1 with
  | nil => intro w; rfl
  | cons c rest ih =>
    intro w
    simp only [List.cons_append, Order.runCalls]
    cases c.run w with
    | panic => rfl
    | ret ok err w1 => exact ih w1

end Sstest

namespace Sstest

/-! ## Package decimal: rounding -/

theorem Decimal.roundPlaces_of_int (x : ℚ) (places : Nat) (n : Int)
    (h : x * (10 : ℚ) ^ places = n) : Decimal.roundPlaces x places = x := by
  have hpos : (0 : ℚ) < (10 : ℚ) ^ places := by positivity
  have hx : x = (n : ℚ) / (10 : ℚ) ^ places := by
    rw [← h]
    field_simp
  unfold Decimal.roundPlaces
  simp only [h]
  split_ifs with h0
  · have hf : ⌊(n : ℚ) + 1 / 2⌋ = n := by
      rw [Int.floor_eq_iff]
      constructor <;> linarith
    rw [hf, hx]
  · have hf : ⌊-(n : ℚ) + 1 / 2⌋ = -n := by
      rw [Int.floor_eq_iff]
      push_cast
      constructor <;> linarith
    rw [hf, hx]
    simp

theorem Decimal.abs_div_sub_le (x r T : ℚ) (hT : 0 < T) (h : |r - x * T| ≤ 1 / 2) :
    |r / T - x| ≤ 1 / (2 * T) := by
  have key : r / T - x = (r - x * T) / T := by
    field_simp
    ring
  calc |r / T - x| = |r - x * T| / T := by rw [key, abs_div, abs_of_pos hT]
    _ ≤ (1 / 2) / T := div_le_div_of_nonneg_right h (le_of_lt hT)
    _ = 1 / (2 * T) := by field_simp

theorem Decimal.roundPlaces_error (x : ℚ) (places : Nat) :
    |Decimal.roundPlaces x places - x| ≤ 1 / (2 * (10 : ℚ) ^ places) := by
  have hpos : (0 : ℚ) < (10 : ℚ) ^ places := by positivity
  unfold Decimal.roundPlaces
  simp only
  split_ifs with h0
  · have h1 := Int.floor_le (x * (10 : ℚ) ^ places + 1 / 2)
    have h2 := Int.lt_floor_add_one (x * (10 : ℚ) ^ places + 1 / 2)
    apply Decimal.abs_div_sub_le _ _ _ hpos
    rw [abs_le]
    constructor <;> linarith
  · have h1 := Int.floor_le (-(x * (10 : ℚ) ^ places) + 1 / 2)
    have h2 := Int.lt_floor_add_one (-(x * (10 : ℚ) ^ places) + 1 / 2)
    apply Decimal.abs_div_sub_le _ _ _ hpos
    rw [abs_le]
    constructor <;> linarith

/-! ## Package coupon: the setters -/

theorem Coupon.kindMap_lookup_isNone (kind : String) :
    (Coupon.kindMap.lookup kind).isNone = true ↔
      kind ≠ Coupon.KindValue ∧ kind ≠ Coupon.KindPercentage := by
  by_cases h1 : kind = Coupon.KindValue
  · subst h1
    simp [Coupon.kindMap, List.lookup]
  · by_cases h2 : kind = Coupon.KindPercentage
    · subst h2
      simp [Coupon.kindMap, List.lookup]
      decide
    · have b1 : (kind == Coupon.KindValue) = false := by simpa using h1
      have b2 : (kind == Coupon.KindPercentage) = false := by simpa using h2
      simp [Coupon.kindMap, List.lookup, b1, b2, h1, h2]

/-- The two guards of `SetKind`, in arithmetic form. -/
theorem Coupon.SetKind_eq (c : Coupon) (kind : String) :
    c.SetKind kind =
      if kind ≠ Coupon.KindValue ∧ kind ≠ Coupon.KindPercentage then
        (c, some (Error.leaf Site.couponUnknownKind))
      else if kind = Coupon.KindPercentage ∧ 100 ≤ c.value then
        (c, some (Error.leaf Site.couponKindValue))
      else ({ c with kind := kind }, none) := by
  unfold Coupon.SetKind
  by_cases hk : kind ≠ Coupon.KindValue ∧ kind ≠ Coupon.KindPercentage
  · rw [if_pos ((Coupon.kindMap_lookup_isNone kind).mpr hk), if_pos hk]
  · rw [if_neg (fun h => hk ((Coupon.kindMap_lookup_isNone kind).mp h)), if_neg hk]
    have hiff : (Coupon.KindPercentage = kind ∧
        Decimal.GreaterThanOrEqual c.value (Decimal.New 100 0) = true) ↔
        (kind = Coupon.KindPercentage ∧ 100 ≤ c.value) := by
      simp [Decimal.GreaterThanOrEqual, Decimal.New, eq_comm]
    by_cases hp : kind = Coupon.KindPercentage ∧ 100 ≤ c.value
    · rw [if_pos (hiff.mpr hp), if_pos hp]
    · rw [if_neg (fun h => hp (hiff.mp h)), if_neg hp]

/-- The two guards of `SetValue`, in arithmetic form. -/
theorem Coupon.SetValue_eq (c : Coupon) (value : Decimal) :
    c.SetValue value =
      if value ≤ 0 then (c, some (Error.leaf Site.couponValueNotPositive))
      else if c.kind = Coupon.KindPercentage ∧ 100 ≤ value then
        (c, some (Error.leaf Site.couponValuePercentage))
      else ({ c with value := value }, none) := by
  unfold Coupon.SetValue
  have h0 : (Decimal.LessThanOrEqual value (Decimal.New 0 0) = true) ↔ value ≤ 0 := by
    simp [Decimal.LessThanOrEqual, Decimal.New]
  have hiff : (Coupon.KindPercentage = c.kind ∧
      Decimal.GreaterThanOrEqual value (Decimal.New 100 0) = true) ↔
      (c.kind = Coupon.KindPercentage ∧ 100 ≤ value) := by
    simp [Decimal.GreaterThanOrEqual, Decimal.New, eq_comm]
  by_cases hv : value ≤ 0
  · rw [if_pos (h0.mpr hv), if_pos hv]
  · rw [if_neg (fun h => hv (h0.mp h)), if_neg hv]
    by_cases hp : c.kind = Coupon.KindPercentage ∧ 100 ≤ value
    · rw [if_pos (hiff.mpr hp), if_pos hp]
    · rw [if_neg (fun h => hp (hiff.mp h)), if_neg hp]

end Sstest

namespace Sstest

/-! ## Package coupon: the clock checks and runs of calls -/

theorem Coupon.IsEarly_eq (c : Coupon) (now : Time) :
    c.IsEarly now =
      if now < c.startDate then (true, { c with status := Coupon.StatusInactive })
      else (false, c) := by
  unfold Coupon.IsEarly
  rw [Coupon.SetStatus_inactive]

theorem Coupon.IsExpired_eq (c : Coupon) (now : Time) :
    c.IsExpired now =
      if c.endDate < now then (true, { c with status := Coupon.StatusExpired })
      else (false, c) := by
  unfold Coupon.IsExpired
  rw [Coupon.SetStatus_expired]

/-- A call changes the kind or the value of a coupon only through `SetKind` and
`SetValue`, and the dates only through `SetStartDate` and `SetEndDate`. -/
theorem Coupon.Op.run_frame (c : Coupon) (op : Coupon.Op) :
    ((∀ kind, op ≠ Coupon.Op.setKind kind) → (op.run c).kind = c.kind) ∧
    ((∀ value, op ≠ Coupon.Op.setValue value) → (op.run c).value = c.value) ∧
    ((∀ d, op ≠ Coupon.Op.setStartDate d) → (op.run c).startDate = c.startDate) ∧
    ((∀ d, op ≠ Coupon.Op.setEndDate d) → (op.run c).endDate = c.endDate) := by
  cases op with
  | setID id => exact ⟨fun _ => rfl, fun _ => rfl, fun _ => rfl, fun _ => rfl⟩
  | setStock stock => exact ⟨fun _ => rfl, fun _ => rfl, fun _ => rfl, fun _ => rfl⟩
  | setStatus status =>
    simp only [Coupon.Op.run, Coupon.SetStatus]
    split_ifs <;> exact ⟨fun _ => rfl, fun _ => rfl, fun _ => rfl, fun _ => rfl⟩
  | setKind kind =>
    simp only [Coupon.Op.run, Coupon.SetKind]
    refine ⟨fun h => absurd rfl (h kind), ?_, ?_, ?_⟩ <;> intro _ <;> split_ifs <;> rfl
  | setValue value =>
    simp only [Coupon.Op.run, Coupon.SetValue]
    refine ⟨?_, fun h => absurd rfl (h value), ?_, ?_⟩ <;> intro _ <;> split_ifs <;> rfl
  | setStartDate d =>
    simp only [Coupon.Op.run, Coupon.SetStartDate]
    refine ⟨?_, ?_, fun h => absurd rfl (h d), ?_⟩ <;> intro _ <;> split_ifs <;> rfl
  | setEndDate d =>
    simp only [Coupon.Op.run, Coupon.SetEndDate]
    refine ⟨?_, ?_, ?_, fun h => absurd rfl (h d)⟩ <;> intro _ <;> split_ifs <;> rfl
  | isEarly now =>
    simp only [Coupon.Op.run, Coupon.IsEarly_eq]
    split_ifs <;> exact ⟨fun _ => rfl, fun _ => rfl, fun _ => rfl, fun _ => rfl⟩
  | isExpired now =>
    simp only [Coupon.Op.run, Coupon.IsExpired_eq]
    split_ifs <;> exact ⟨fun _ => rfl, fun _ => rfl, fun _ => rfl, fun _ => rfl⟩
  | canBeApplied tE tX =>
    simp only [Coupon.Op.run]
    rw [Coupon.CanBeApplied_frame]
    exact ⟨fun _ => rfl, fun _ => rfl, fun _ => rfl, fun _ => rfl⟩

/-- A call keeps the value of a coupon positive, and below 100 when the kind is
Percentage. -/
theorem Coupon.Op.run_value (c : Coupon) (op : Coupon.Op)
    (h : 0 < c.value ∧ (c.kind = Coupon.KindPercentage → c.value < 100)) :
    0 < (op.run c).value ∧ ((op.run c).kind = Coupon.KindPercentage → (op.run c).value < 100) := by
  by_cases hk : ∃ kind, op = Coupon.Op.setKind kind
  · obtain ⟨kind, rfl⟩ := hk
    simp only [Coupon.Op.run]
    rw [Coupon.SetKind_eq]
    split_ifs with h1 h2
    · exact h
    · exact h
    · refine ⟨h.1, fun hp => ?_⟩
      exact not_le.mp (fun hle => h2 ⟨hp, hle⟩)
  · by_cases hv : ∃ value, op = Coupon.Op.setValue value
    · obtain ⟨value, rfl⟩ := hv
      simp only [Coupon.Op.run]
      rw [Coupon.SetValue_eq]
      split_ifs with h1 h2
      · exact h
      · exact h
      · refine ⟨not_le.mp h1, fun hp => ?_⟩
        exact not_le.mp (fun hle => h2 ⟨hp, hle⟩)
    · have hf := Coupon.Op.run_frame c op
      rw [hf.1 (fun kind e => hk ⟨kind, e⟩), hf.2.1 (fun value e => hv ⟨value, e⟩)]
      exact h

/-- A call keeps the start date of a coupon at or before its end date. -/
theorem Coupon.Op.run_dates (c : Coupon) (op : Coupon.Op) (h : c.startDate ≤ c.endDate) :
    (op.run c).startDate ≤ (op.run c).endDate := by
  by_cases hs : ∃ d, op = Coupon.Op.setStartDate d
  · obtain ⟨d, rfl⟩ := hs
    simp only [Coupon.Op.run, Coupon.SetStartDate]
    split_ifs with h1
    · exact h
    · exact not_lt.mp h1
  · by_cases he : ∃ d, op = Coupon.Op.setEndDate d
    · obtain ⟨d, rfl⟩ := he
      simp only [Coupon.Op.run, Coupon.SetEndDate]
      split_ifs with h1
      · exact h
      · exact not_lt.mp h1
    · have hf := Coupon.Op.run_frame c op
      rw [hf.2.2.1 (fun d e => hs ⟨d, e⟩), hf.2.2.2 (fun d e => he ⟨d, e⟩)]
      exact h

theorem Coupon.runOps_value (ops : List Coupon.Op) :
    ∀ c : Coupon, (0 < c.value ∧ (c.kind = Coupon.KindPercentage → c.value < 100)) →
      0 < (c.runOps ops).value ∧
        ((c.runOps ops).kind = Coupon.KindPercentage → (c.runOps ops).value < 100) := by
  induction ops with
  | nil => intro c h; exact h
  | cons op rest ih =>
    intro c h
    exact ih (op.run c) (Coupon.Op.run_value c op h)

theorem Coupon.runOps_dates (ops : List Coupon.Op) :
    ∀ c : Coupon, c.startDate ≤ c.endDate →
      (c.runOps ops).startDate ≤ (c.runOps ops).endDate := by
  induction ops with
  | nil => intro c h; exact h
  | cons op rest ih =>
    intro c h
    exact ih (op.run c) (Coupon.Op.run_dates c op h)

theorem Coupon.New_value (id : String) (currentTime : Time) :
    (Coupon.New id currentTime).kind = Coupon.KindPercentage ∧
    (Coupon.New id currentTime).value = 10 := by
  simp [Coupon.New, Decimal.New]

theorem Coupon.New_dates (id : String) (currentTime : Time) :
    (Coupon.New id currentTime).startDate ≤ currentTime ∧
    (Coupon.New id currentTime).endDate = (Coupon.New id currentTime).startDate + 7776000 := by
  have key : ∀ t : Int, t - t % 86400 ≤ t ∧
      t - t % 86400 + 90 * 86400 = t - t % 86400 + 7776000 := by
    intro t
    omega
  exact key currentTime

/-- A check that does not reject the coupon leaves it as it was. -/
theorem Coupon.Check.run_pass (c : Coupon) (now : Time) (k : Coupon.Check)
    (h : (k.run c now).1 = false) : (k.run c now).2 = c := by
  cases k with
  | status => rfl
  | stock => rfl
  | early =>
    simp only [Coupon.Check.run, Coupon.IsEarly_eq] at h ⊢
    by_cases h1 : now < c.startDate
    · rw [if_pos h1] at h
      exact absurd h (by simp)
    · rw [if_neg h1]
  | expired =>
    simp only [Coupon.Check.run, Coupon.IsExpired_eq] at h ⊢
    by_cases h1 : c.endDate < now
    · rw [if_pos h1] at h
      exact absurd h (by simp)
    · rw [if_neg h1]

theorem Coupon.canBeAppliedInOrder_eq_true_iff (now : Time) (checks : List Coupon.Check) :
    ∀ c : Coupon, c.canBeAppliedInOrder now checks = true ↔
      ∀ k ∈ checks, (k.run c now).1 = false := by
  induction checks with
  | nil => intro c; simp [Coupon.canBeAppliedInOrder]
  | cons k rest ih =>
    intro c
    simp only [Coupon.canBeAppliedInOrder, List.mem_cons, forall_eq_or_imp]
    cases hk : (k.run c now).1 with
    | true => simp
    | false =>
      rw [Coupon.Check.run_pass c now k hk]
      simp [ih c]

/-- The four checks pass exactly when the coupon is Active, in its period of
validity at `now`, and in stock. -/
theorem Coupon.Check.run_all_iff (c : Coupon) (now : Time) :
    (∀ k ∈ [Coupon.Check.status, Coupon.Check.early, Coupon.Check.expired,
        Coupon.Check.stock], (k.run c now).1 = false) ↔
      (c.status = Coupon.StatusActive ∧ c.startDate ≤ now ∧ now ≤ c.endDate ∧ 0 < c.stock) := by
  simp only [List.mem_cons, List.mem_singleton, forall_eq_or_imp, forall_eq,
    Coupon.Check.run, Coupon.IsEarly_eq, Coupon.IsExpired_eq, List.not_mem_nil,
    IsEmpty.forall_iff, implies_true, and_true]
  by_cases h1 : now < c.startDate <;> by_cases h2 : c.endDate < now <;>
    simp [h1, h2, not_lt.mp, not_le.mpr]

theorem Coupon.CanBeApplied_true_iff (c : Coupon) (tE tX : Time) :
    ((c.CanBeApplied tE tX).1 = true ∧ (c.CanBeApplied tE tX).2.1 = none) ↔
      (c.status = Coupon.StatusActive ∧ c.startDate ≤ tE ∧ tX ≤ c.endDate ∧ 0 < c.stock) := by
  rw [Coupon.CanBeApplied_eq]
  by_cases hs : c.status = Coupon.StatusActive
  · rw [if_neg (not_not.mpr hs)]
    by_cases h1 : tE < c.startDate
    · rw [if_pos h1]
      simp [not_le.mpr h1]
    · rw [if_neg h1]
      by_cases h2 : c.endDate < tX
      · rw [if_pos h2]
        simp [not_le.mpr h2]
      · rw [if_neg h2]
        by_cases h3 : c.stock ≤ 0
        · rw [if_pos h3]
          simp [not_lt.mpr h3]
        · rw [if_neg h3]
          simp [hs, not_lt.mp h1, not_lt.mp h2, not_le.mp h3]
  · rw [if_pos hs]
    simp [hs]

end Sstest

namespace Sstest

/-! ## Package product: the setters and runs of calls -/

/-- The guard of `SetPrice`, in arithmetic form. -/
theorem Product.SetPrice_eq (p : Product) (price : Decimal) :
    p.SetPrice price =
      if price < 0 then (p, some (Error.leaf Site.productNegativePrice))
      else ({ p with price := price }, none) := by
  unfold Product.SetPrice
  have h0 : ((Decimal.New 0 0).GreaterThan price = true) ↔ price < 0 := by
    simp [Decimal.GreaterThan, Decimal.New]
  by_cases h : price < 0
  · rw [if_pos (h0.mpr h), if_pos h]
  · rw [if_neg (fun h' => h (h0.mp h')), if_neg h]

theorem Product.statusSlice_lookup_isNone (status : String) :
    (Product.statusSlice.lookup status).isNone = true ↔
      status ≠ Product.StatusPrototype ∧ status ≠ Product.StatusAvailable ∧
        status ≠ Product.StatusDiscontinued := by
  by_cases h1 : status = Product.StatusPrototype
  · subst h1
    simp [Product.statusSlice, List.lookup]
  · by_cases h2 : status = Product.StatusAvailable
    · subst h2
      simp [Product.statusSlice, List.lookup]
      decide
    · by_cases h3 : status = Product.StatusDiscontinued
      · subst h3
        simp [Product.statusSlice, List.lookup]
        decide
      · have b1 : (status == Product.StatusPrototype) = false := by simpa using h1
        have b2 : (status == Product.StatusAvailable) = false := by simpa using h2
        have b3 : (status == Product.StatusDiscontinued) = false := by simpa using h3
        simp [Product.statusSlice, List.lookup, b1, b2, b3, h1, h2, h3]

/-- A call keeps the price of a product at zero or more. -/
theorem Product.Op.run_price (p : Product) (op : Product.Op) (h : 0 ≤ p.price) :
    0 ≤ (op.run p).price := by
  cases op with
  | setID id => exact h
  | setName name => exact h
  | setStock stock => exact h
  | setPrice price =>
    simp only [Product.Op.run]
    rw [Product.SetPrice_eq]
    split_ifs with h1
    · exact h
    · exact not_lt.mp h1
  | setStatus status =>
    simp only [Product.Op.run, Product.SetStatus]
    split_ifs <;> exact h
  | canBeOrdered quantity => exact h

theorem Product.runOps_price (ops : List Product.Op) :
    ∀ p : Product, 0 ≤ p.price → 0 ≤ (p.runOps ops).price := by
  induction ops with
  | nil => intro p h; exact h
  | cons op rest ih =>
    intro p h
    exact ih (op.run p) (Product.Op.run_price p op h)

end Sstest

namespace Sstest

/-! ## The status of an entity is one of its status codes -/

theorem lookup_isNone_iff_not_mem_keys {α : Type} (m : List (String × α)) (key : String) :
    (m.lookup key).isNone = true ↔ key ∉ m.map Prod.fst := by
  have h := lookup_isSome_iff_mem m key
  constructor
  · intro hn hmem
    obtain ⟨⟨k, v⟩, hkv, hk⟩ := List.mem_map.1 hmem
    simp only at hk
    subst hk
    have hs := h.mpr ⟨v, hkv⟩
    rw [Option.isSome_iff_ne_none] at hs
    rw [Option.isNone_iff_eq_none] at hn
    exact hs hn
  · intro hn
    rw [Option.isNone_iff_eq_none]
    by_contra hne
    obtain ⟨v, hv⟩ := h.mp (Option.isSome_iff_ne_none.mpr hne)
    exact hn (List.mem_map.2 ⟨(key, v), hv, rfl⟩)

theorem Product.SetStatus_eq_product (p : Product) (status : String) :
    p.SetStatus status =
      if status ∈ Product.statusSlice.map Prod.fst then ({ p with status := status }, none)
      else (p, some (Error.leaf Site.productUnknownStatus)) := by
  unfold Product.SetStatus
  by_cases h : status ∈ Product.statusSlice.map Prod.fst
  · rw [if_neg (fun hn => (lookup_isNone_iff_not_mem_keys _ _).mp hn h), if_pos h]
  · rw [if_pos ((lookup_isNone_iff_not_mem_keys _ _).mpr h), if_neg h]

theorem Coupon.SetStatus_eq_coupon (c : Coupon) (status : String) :
    c.SetStatus status =
      if status ∈ Coupon.statusMap.map Prod.fst then ({ c with status := status }, none)
      else (c, some (Error.leaf Site.couponUnknownStatus)) := by
  unfold Coupon.SetStatus
  by_cases h : status ∈ Coupon.statusMap.map Prod.fst
  · rw [if_neg (fun hn => (lookup_isNone_iff_not_mem_keys _ _).mp hn h), if_pos h]
  · rw [if_pos ((lookup_isNone_iff_not_mem_keys _ _).mpr h), if_neg h]

theorem Order.SetStatus_eq_order (o : Order) (status : String) :
    o.SetStatus status =
      if status ∈ Order.statusMap.map Prod.fst then ({ o with status := status }, none)
      else (o, some (Error.leaf Site.orderUnknownStatus)) := by
  unfold Order.SetStatus
  by_cases h : status ∈ Order.statusMap.map Prod.fst
  · rw [if_neg (fun hn => (lookup_isNone_iff_not_mem_keys _ _).mp hn h), if_pos h]
  · rw [if_pos ((lookup_isNone_iff_not_mem_keys _ _).mpr h), if_neg h]

theorem User.SetStatus_eq_user (u : User) (status : String) :
    u.SetStatus status =
      if status ∈ User.statusSlice.map Prod.fst then ({ u with status := status }, none)
      else (u, some (Error.leaf Site.userUnknownStatus)) := by
  unfold User.SetStatus
  by_cases h : status ∈ User.statusSlice.map Prod.fst
  · rw [if_neg (fun hn => (lookup_isNone_iff_not_mem_keys _ _).mp hn h), if_pos h]
  · rw [if_pos ((lookup_isNone_iff_not_mem_keys _ _).mpr h), if_neg h]

theorem Product.Op.run_status_product (p : Product) (op : Product.Op)
    (h : p.status ∈ Product.statusSlice.map Prod.fst) :
    (op.run p).status ∈ Product.statusSlice.map Prod.fst := by
  cases op with
  | setID id => exact h
  | setName name => exact h
  | setStock stock => exact h
  | setPrice price =>
    simp only [Product.Op.run, Product.SetPrice]
    split_ifs <;> exact h
  | setStatus status =>
    simp only [Product.Op.run]
    rw [Product.SetStatus_eq_product]
    split_ifs with h1
    · exact h1
    · exact h
  | canBeOrdered quantity => exact h

theorem Product.runOps_status_product (ops : List Product.Op) :
    ∀ p : Product, p.status ∈ Product.statusSlice.map Prod.fst →
      (p.runOps ops).status ∈ Product.statusSlice.map Prod.fst := by
  induction ops with
  | nil => intro p h; exact h
  | cons op rest ih =>
    intro p h
    exact ih (op.run p) (Product.Op.run_status_product p op h)

theorem Coupon.Op.run_status_coupon (c : Coupon) (op : Coupon.Op)
    (h : c.status ∈ Coupon.statusMap.map Prod.fst) :
    (op.run c).status ∈ Coupon.statusMap.map Prod.fst := by
  cases op with
  | setID id => exact h
  | setStock stock => exact h
  | setStatus status =>
    simp only [Coupon.Op.run]
    rw [Coupon.SetStatus_eq_coupon]
    split_ifs with h1
    · exact h1
    · exact h
  | setKind kind =>
    simp only [Coupon.Op.run, Coupon.SetKind]
    split_ifs <;> exact h
  | setValue value =>
    simp only [Coupon.Op.run, Coupon.SetValue]
    split_ifs <;> exact h
  | setStartDate d =>
    simp only [Coupon.Op.run, Coupon.SetStartDate]
    split_ifs <;> exact h
  | setEndDate d =>
    simp only [Coupon.Op.run, Coupon.SetEndDate]
    split_ifs <;> exact h
  | isEarly now =>
    simp only [Coupon.Op.run, Coupon.IsEarly_eq]
    split_ifs
    · show Coupon.StatusInactive ∈ Coupon.statusMap.map Prod.fst
      decide
    · exact h
  | isExpired now =>
    simp only [Coupon.Op.run, Coupon.IsExpired_eq]
    split_ifs
    · show Coupon.StatusExpired ∈ Coupon.statusMap.map Prod.fst
      decide
    · exact h
  | canBeApplied tE tX =>
    simp only [Coupon.Op.run]
    rw [Coupon.CanBeApplied_status]
    simp only
    split_ifs
    · decide
    · decide
    · exact h

theorem Coupon.runOps_status_coupon (ops : List Coupon.Op) :
    ∀ c : Coupon, c.status ∈ Coupon.statusMap.map Prod.fst →
      (c.runOps ops).status ∈ Coupon.statusMap.map Prod.fst := by
  induction ops with
  | nil => intro c h; exact h
  | cons op rest ih =>
    intro c h
    exact ih (op.run c) (Coupon.Op.run_status_coupon c op h)

theorem Order.Setter.run_status_setter (o : Order) (s : Order.Setter)
    (h : o.status ∈ Order.statusMap.map Prod.fst) :
    (s.run o).status ∈ Order.statusMap.map Prod.fst := by
  cases s with
  | setStatus status =>
    simp only [Order.Setter.run]
    rw [Order.SetStatus_eq_order]
    split_ifs with h1
    · exact h1
    · exact h
  | setShippingStatus status =>
    simp only [Order.Setter.run, Order.SetShippingStatus]
    split_ifs <;> exact h
  | _ => exact h

theorem Order.Call.run_status_mem {w : World} {c : Order.Call} {ok : Bool}
    {err : Option Error} {w' : World} (hc : c.run w = Outcome.ret ok err w')
    (h : w.order.status ∈ Order.statusMap.map Prod.fst) :
    w'.order.status ∈ Order.statusMap.map Prod.fst := by
  rcases Order.Call.run_statusChange hc with h1 | h1
  · rw [h1]
    exact h
  · unfold Order.StatusChange at h1
    rcases h1 with ⟨_, h2⟩ | ⟨_, h2⟩ | ⟨_, h2⟩ | ⟨_, h2⟩ <;> rw [h2] <;> decide

theorem Order.runMethods_status (ms : List Order.Method) :
    ∀ (w w' : World), Order.runMethods w ms = some w' →
      w.order.status ∈ Order.statusMap.map Prod.fst →
      w'.order.status ∈ Order.statusMap.map Prod.fst := by
  induction ms with
  | nil =>
    intro w w' h hs
    simp only [Order.runMethods, Option.some.injEq] at h
    rw [← h]
    exact hs
  | cons m rest ih =>
    intro w w' h hs
    cases m with
    | setter s =>
      simp only [Order.runMethods] at h
      exact ih _ w' h (Order.Setter.run_status_setter w.order s hs)
    | call c =>
      simp only [Order.runMethods] at h
      cases hc : c.run w with
      | panic =>
        rw [hc] at h
        exact absurd h (by simp)
      | ret ok err w1 =>
        rw [hc] at h
        exact ih w1 w' h (Order.Call.run_status_mem hc hs)

theorem User.Op.run_status_user (u : User) (op : User.Op)
    (h : u.status ∈ User.statusSlice.map Prod.fst) :
    (op.run u).status ∈ User.statusSlice.map Prod.fst := by
  cases op with
  | setStatus status =>
    simp only [User.Op.run]
    rw [User.SetStatus_eq_user]
    split_ifs with h1
    · exact h1
    · exact h
  | setPassword hashedPassword =>
    simp only [User.Op.run, User.SetPassword]
    cases hashedPassword <;> exact h
  | setPasswordHash hash validHash =>
    simp only [User.Op.run, User.SetPasswordHash]
    split_ifs <;> exact h
  | activate =>
    simp only [User.Op.run, User.Activate]
    rw [User.SetStatus_eq_user]
    split_ifs with h1
    · exact h1
    · exact h
  | deactivate =>
    simp only [User.Op.run, User.Deactivate]
    rw [User.SetStatus_eq_user]
    split_ifs with h1
    · exact h1
    · exact h
  | suspend =>
    simp only [User.Op.run, User.Suspend]
    rw [User.SetStatus_eq_user]
    split_ifs with h1
    · exact h1
    · exact h
  | _ => exact h

theorem User.runOps_status_user (ops : List User.Op) :
    ∀ u : User, u.status ∈ User.statusSlice.map Prod.fst →
      (u.runOps ops).status ∈ User.statusSlice.map Prod.fst := by
  induction ops with
  | nil => intro u h; exact h
  | cons op rest ih =>
    intro u h
    exact ih (op.run u) (User.Op.run_status_user u op h)

end Sstest

namespace Sstest

/-! ## The items of an order across a call -/

/-- The items after a call of `AddProduct` that returns: as before, or with a
new item at the end, or with the quantity of an item changed by `AddQuantity`. -/
theorem Order.AddProduct_items {w w' : World} {p : Nat} {q : Int} {uuid : String} {ok : Bool}
    {err : Option Error} (h : Order.AddProduct w p q uuid = Outcome.ret ok err w') :
    w'.products = w.products ∧ w'.order.status = w.order.status ∧
    (w'.order.items = w.order.items ∨
     (∃ prod, w.products[p]? = some prod ∧ w.order.items.lookup prod.id = none ∧
        (prod.CanBeOrdered q).1 = true ∧
        w'.order.items =
          w.order.items ++ [(prod.id, { id := uuid, product := p, quantity := q })]) ∨
     (∃ prod item, w.products[p]? = some prod ∧ w.order.items.lookup prod.id = some item ∧
        (prod.CanBeOrdered (wrapInt64 (item.quantity + q))).1 = true ∧
        w'.order.items = mapSet w.order.items prod.id (item.AddQuantity q).1)) := by
  have hps : w'.products = w.products := by rw [Order.AddProduct_frame h]
  have hst : w'.order.status = w.order.status := by rw [Order.AddProduct_frame h]
  refine ⟨hps, hst, ?_⟩
  clear hps hst
  by_cases hd : w.order.status = Order.StatusDraft
  · cases hp : w.products[p]? with
    | none =>
      unfold Order.AddProduct at h
      rw [if_neg (by simp [hd]), hp] at h
      split at h <;> simp_all
    | some prod =>
      cases hl : w.order.items.lookup prod.id with
      | none =>
        rw [Order.AddProduct_absent_of_lookup q uuid hd hp hl] at h
        split_ifs at h with hc
        · cases h
          exact Or.inl rfl
        · cases h
          exact Or.inr (Or.inl ⟨prod, rfl, hl, by simpa using hc, rfl⟩)
      | some item =>
        rw [Order.AddProduct_present q uuid hd hp hl] at h
        split_ifs at h with hc
        · cases h
          exact Or.inl rfl
        · cases h
          exact Or.inr (Or.inr ⟨prod, item, rfl, hl, by simpa using hc, rfl⟩)
  · rw [Order.AddProduct_not_draft w p q uuid hd] at h
    cases h
    exact Or.inl rfl

/-- The items after a call of `EditProduct` that returns: as before, or with
the quantity of an item changed. -/
theorem Order.EditProduct_items {w w' : World} {p : Nat} {q : Int} {ok : Bool}
    {err : Option Error} (h : Order.EditProduct w p q = Outcome.ret ok err w') :
    w'.products = w.products ∧ w'.order.status = w.order.status ∧
    (w'.order.items = w.order.items ∨
     (∃ prod item, w.products[p]? = some prod ∧ w.order.items.lookup prod.id = some item ∧
        (prod.CanBeOrdered (wrapInt64 (item.quantity + q))).1 = true ∧
        w'.order.items = mapSet w.order.items prod.id
          { item with quantity := wrapInt64 (item.quantity + q) })) := by
  have hps : w'.products = w.products := by rw [Order.EditProduct_frame h]
  have hst : w'.order.status = w.order.status := by rw [Order.EditProduct_frame h]
  refine ⟨hps, hst, ?_⟩
  clear hps hst
  by_cases hd : w.order.status = Order.StatusDraft
  · cases hp : w.products[p]? with
    | none =>
      unfold Order.EditProduct at h
      rw [if_neg (by simp [hd]), hp] at h
      split at h <;> simp_all
    | some prod =>
      cases hl : w.order.items.lookup prod.id with
      | none =>
        rw [Order.EditProduct_absent q hd hp hl] at h
        cases h
        exact Or.inl rfl
      | some item =>
        rw [Order.EditProduct_present q hd hp hl] at h
        split_ifs at h with hc
        · cases h
          exact Or.inl rfl
        · cases h
          exact Or.inr ⟨prod, item, rfl, hl, by simpa using hc, rfl⟩
  · rw [Order.EditProduct_not_draft w p q hd] at h
    cases h
    exact Or.inl rfl

/-- The items after a call of `DeleteProduct` that returns: some of the items
before. -/
theorem Order.DeleteProduct_items {w w' : World} {p : Nat} {ok : Bool}
    {err : Option Error} (h : Order.DeleteProduct w p = Outcome.ret ok err w') :
    w'.products = w.products ∧ w'.order.status = w.order.status ∧
    ∀ kv ∈ w'.order.items, kv ∈ w.order.items := by
  have hps : w'.products = w.products := by rw [Order.DeleteProduct_frame h]
  have hst : w'.order.status = w.order.status := by rw [Order.DeleteProduct_frame h]
  refine ⟨hps, hst, ?_⟩
  clear hps hst
  by_cases hd : w.order.status = Order.StatusDraft
  · cases hp : w.products[p]? with
    | none =>
      unfold Order.DeleteProduct at h
      rw [if_neg (by simp [hd]), hp] at h
      split at h <;> simp_all
    | some prod =>
      cases hl : w.order.items.lookup prod.id with
      | none =>
        rw [Order.DeleteProduct_absent hd hp hl] at h
        cases h
        exact fun kv hkv => hkv
      | some item =>
        rw [Order.DeleteProduct_present hd hp hl] at h
        cases h
        intro kv hkv
        exact (List.mem_filter.1 hkv).1
  · rw [Order.DeleteProduct_not_draft w p hd] at h
    cases h
    exact fun kv hkv => hkv

/-- The status of an order that only `AddProduct`, `EditProduct` and
`DeleteProduct` have been called on is Draft. -/
theorem Order.ItemsReachable_draft {w : World} (h : Order.ItemsReachable w) :
    w.order.status = Order.StatusDraft := by
  induction h with
  | new id now products coupons => rfl
  | add p q uuid _ hstep ih => rw [(Order.AddProduct_items hstep).2.1, ih]
  | edit p q _ hstep ih => rw [(Order.EditProduct_items hstep).2.1, ih]
  | delete p _ hstep ih => rw [(Order.DeleteProduct_items hstep).2.1, ih]

/-! ## Every item has a quantity of 1 or more -/

theorem Order.AddProduct_quantities {w w' : World} {p : Nat} {q : Int} {uuid : String}
    {ok : Bool} {err : Option Error}
    (h : Order.AddProduct w p q uuid = Outcome.ret ok err w')
    (hinv : Order.QuantitiesPositive w) : Order.QuantitiesPositive w' := by
  unfold Order.QuantitiesPositive at hinv ⊢
  rcases (Order.AddProduct_items h).2.2 with hi | ⟨prod, _, _, hc, hi⟩ |
    ⟨prod, item, _, hl, hc, hi⟩
  · rw [hi]
    exact hinv
  · rw [hi]
    intro kv hkv
    rcases List.mem_append.1 hkv with hm | hm
    · exact hinv kv hm
    · simp only [List.mem_singleton] at hm
      subst hm
      have := ((Product.CanBeOrdered_eq_true_iff prod q).mp hc).1
      show 1 ≤ q
      omega
  · rw [hi]
    intro kv hkv
    rcases mem_mapSet _ _ _ _ hkv with hm | hm
    · exact hinv kv hm
    · subst hm
      have hold := hinv (prod.id, item) (mem_of_lookup_eq_some _ _ _ hl)
      rcases Item.AddQuantity_err item q with ⟨-, h1⟩ | ⟨-, h1⟩
      · rw [h1]
        have := ((Product.CanBeOrdered_eq_true_iff prod _).mp hc).1
        show 1 ≤ wrapInt64 (item.quantity + q)
        omega
      · rw [h1]
        exact hold

theorem Order.EditProduct_quantities {w w' : World} {p : Nat} {q : Int}
    {ok : Bool} {err : Option Error}
    (h : Order.EditProduct w p q = Outcome.ret ok err w')
    (hinv : Order.QuantitiesPositive w) : Order.QuantitiesPositive w' := by
  unfold Order.QuantitiesPositive at hinv ⊢
  rcases (Order.EditProduct_items h).2.2 with hi | ⟨prod, item, _, hl, hc, hi⟩
  · rw [hi]
    exact hinv
  · rw [hi]
    intro kv hkv
    rcases mem_mapSet _ _ _ _ hkv with hm | hm
    · exact hinv kv hm
    · subst hm
      have := ((Product.CanBeOrdered_eq_true_iff prod _).mp hc).1
      show 1 ≤ wrapInt64 (item.quantity + q)
      omega

theorem Order.DeleteProduct_quantities {w w' : World} {p : Nat}
    {ok : Bool} {err : Option Error}
    (h : Order.DeleteProduct w p = Outcome.ret ok err w')
    (hinv : Order.QuantitiesPositive w) : Order.QuantitiesPositive w' := by
  unfold Order.QuantitiesPositive at hinv ⊢
  intro kv hkv
  exact hinv kv ((Order.DeleteProduct_items h).2.2 kv hkv)

theorem Order.ItemsReachable_quantities {w : World} (h : Order.ItemsReachable w) :
    Order.QuantitiesPositive w := by
  induction h with
  | new id now products coupons =>
    exact fun kv hkv => absurd hkv (by simp [Order.New])
  | add p q uuid _ hstep ih => exact Order.AddProduct_quantities hstep ih
  | edit p q _ hstep ih => exact Order.EditProduct_quantities hstep ih
  | delete p _ hstep ih => exact Order.DeleteProduct_quantities hstep ih

end Sstest

namespace Sstest

/-! ## Every item passes `CanBeOrdered` on its own product -/

/-- In a heap whose products have pairwise distinct ids, an id is the id of
one address only. -/
theorem index_eq_of_id_eq {products : List Product}
    (hids : (products.map Product.id).Nodup) {i j : Nat} {pi pj : Product}
    (hi : products[i]? = some pi) (hj : products[j]? = some pj) (hid : pi.id = pj.id) :
    i = j := by
  have hlen : i < (products.map Product.id).length := by
    rw [List.length_map]
    by_contra hge
    rw [List.getElem?_eq_none (not_lt.mp hge)] at hi
    exact absurd hi (by simp)
  apply List.getElem?_inj hlen hids
  rw [List.getElem?_map, List.getElem?_map, hi, hj]
  simp [hid]

theorem Order.AddProduct_canBeOrdered {w w' : World} {p : Nat} {q : Int} {uuid : String}
    {ok : Bool} {err : Option Error}
    (h : Order.AddProduct w p q uuid = Outcome.ret ok err w')
    (hids : (w.products.map Product.id).Nodup) (hkey : Order.KeyedByProduct w)
    (hinv : Order.ItemsCanBeOrdered w) : Order.ItemsCanBeOrdered w' := by
  unfold Order.ItemsCanBeOrdered at hinv ⊢
  obtain ⟨hps, -, hcases⟩ := Order.AddProduct_items h
  rw [hps]
  rcases hcases with hi | ⟨prod, hp, _, hc, hi⟩ | ⟨prod, item, hp, hl, hc, hi⟩
  · rw [hi]
    exact hinv
  · rw [hi]
    intro kv hkv
    rcases List.mem_append.1 hkv with hm | hm
    · exact hinv kv hm
    · simp only [List.mem_singleton] at hm
      subst hm
      exact ⟨prod, hp, hc⟩
  · rw [hi]
    intro kv hkv
    rcases mem_mapSet _ _ _ _ hkv with hm | hm
    · exact hinv kv hm
    · subst hm
      have hmem := mem_of_lookup_eq_some _ _ _ hl
      rcases Item.AddQuantity_err item q with ⟨-, h1⟩ | ⟨-, h1⟩
      · obtain ⟨prod', hp', hid'⟩ := hkey.2 (prod.id, item) hmem
        have hidx : item.product = p := index_eq_of_id_eq hids hp' hp hid'
        rw [h1]
        exact ⟨prod, by rw [← hidx] at hp; exact hp, hc⟩
      · rw [h1]
        exact hinv (prod.id, item) hmem

theorem Order.EditProduct_canBeOrdered {w w' : World} {p : Nat} {q : Int}
    {ok : Bool} {err : Option Error}
    (h : Order.EditProduct w p q = Outcome.ret ok err w')
    (hids : (w.products.map Product.id).Nodup) (hkey : Order.KeyedByProduct w)
    (hinv : Order.ItemsCanBeOrdered w) : Order.ItemsCanBeOrdered w' := by
  unfold Order.ItemsCanBeOrdered at hinv ⊢
  obtain ⟨hps, -, hcases⟩ := Order.EditProduct_items h
  rw [hps]
  rcases hcases with hi | ⟨prod, item, hp, hl, hc, hi⟩
  · rw [hi]
    exact hinv
  · rw [hi]
    intro kv hkv
    rcases mem_mapSet _ _ _ _ hkv with hm | hm
    · exact hinv kv hm
    · subst hm
      have hmem := mem_of_lookup_eq_some _ _ _ hl
      obtain ⟨prod', hp', hid'⟩ := hkey.2 (prod.id, item) hmem
      have hidx : item.product = p := index_eq_of_id_eq hids hp' hp hid'
      exact ⟨prod, by rw [← hidx] at hp; exact hp, hc⟩

theorem Order.DeleteProduct_canBeOrdered {w w' : World} {p : Nat}
    {ok : Bool} {err : Option Error}
    (h : Order.DeleteProduct w p = Outcome.ret ok err w')
    (hinv : Order.ItemsCanBeOrdered w) : Order.ItemsCanBeOrdered w' := by
  unfold Order.ItemsCanBeOrdered at hinv ⊢
  obtain ⟨hps, -, hsub⟩ := Order.DeleteProduct_items h
  rw [hps]
  intro kv hkv
  exact hinv kv (hsub kv hkv)

theorem Order.ItemsReachable_canBeOrdered {w : World} (h : Order.ItemsReachable w) :
    (w.products.map Product.id).Nodup → Order.ItemsCanBeOrdered w := by
  induction h with
  | new id now products coupons =>
    exact fun _ kv hkv => absurd hkv (by simp [Order.New])
  | add p q uuid hprev hstep ih =>
    intro hids
    rw [(Order.AddProduct_items hstep).1] at hids
    exact Order.AddProduct_canBeOrdered hstep hids (Order.ItemsReachable_keyed hprev) (ih hids)
  | edit p q hprev hstep ih =>
    intro hids
    rw [(Order.EditProduct_items hstep).1] at hids
    exact Order.EditProduct_canBeOrdered hstep hids (Order.ItemsReachable_keyed hprev) (ih hids)
  | delete p hprev hstep ih =>
    intro hids
    rw [(Order.DeleteProduct_items hstep).1] at hids
    exact Order.DeleteProduct_canBeOrdered hstep (ih hids)

/-! ## The stocks after a submission -/

/-- After a successful `Submit` on items of pairwise distinct products the
stock of the product of every item is zero or more; it is the stock before less
the quantity, which was not above it, whenever the stock before was not
negative. -/
theorem Order.Submit_stock_nonneg {w : World} {sn sa : String} {coupon : Option Nat}
    {tE tX now : Time} {err : Option Error} {w' : World}
    (hnodup : (w.order.items.map (fun kv => kv.2.product)).Nodup)
    (h : Order.Submit w sn sa coupon tE tX now = Outcome.ret true err w') :
    ∀ kv ∈ w.order.items, ∃ p p', w.products[kv.2.product]? = some p ∧
      w'.products[kv.2.product]? = some p' ∧ 0 ≤ p'.stock ∧ 0 < kv.2.quantity ∧
      (IsInt64 p.stock → IsInt64 kv.2.quantity → 0 ≤ p.stock →
        kv.2.quantity ≤ p.stock ∧ p'.stock = p.stock - kv.2.quantity) := by
  intro kv hkv
  obtain ⟨p, hp, hc, hp'⟩ := (Order.Submit_success_effects hnodup h).2.2.2.2.1 kv hkv
  obtain ⟨hq, -, hw⟩ := (Product.CanBeOrdered_eq_true_iff p kv.2.quantity).mp hc
  refine ⟨p, _, hp, hp', hw, hq, ?_⟩
  intro hs hqi h0
  have hle := ((Product.CanBeOrdered_exact p kv.2.quantity hs hqi h0).mp hc).2.2
  refine ⟨hle, ?_⟩
  show wrapInt64 (p.stock - kv.2.quantity) = p.stock - kv.2.quantity
  apply wrapInt64_eq_self
  have h1 := hs.2
  unfold IsInt64 at *
  constructor <;> omega

/-- After a successful `Submit` with a coupon the stock of the coupon is one
less than before, and zero or more. -/
theorem Order.Submit_coupon_stock_nonneg {w : World} {sn sa : String} {c : Nat}
    {tE tX now : Time} {err : Option Error} {w' : World}
    (h : Order.Submit w sn sa (some c) tE tX now = Outcome.ret true err w') :
    ∃ cpn cpn', w.coupons[c]? = some cpn ∧ w'.coupons[c]? = some cpn' ∧ 0 < cpn.stock ∧
      (IsInt64 cpn.stock → cpn'.stock = cpn.stock - 1 ∧ 0 ≤ cpn'.stock) := by
  obtain ⟨-, -, -, -, cpn, total, hcpn, hcan, -, -, hcommit⟩ := Order.Submit_success_some h
  obtain ⟨-, -, -, -, hc⟩ := Order.commit_ret hcommit
  have hpos : 0 < cpn.stock := by
    have := Coupon.CanBeApplied_ok cpn tE tX (by rw [hcan])
    exact this.2.2
  have hlt : c < w.coupons.length := by
    by_contra hge
    rw [List.getElem?_eq_none (not_lt.mp hge)] at hcpn
    exact absurd hcpn (by simp)
  refine ⟨cpn, cpn.SetStock (wrapInt64 (cpn.stock - 1)), hcpn, ?_, hpos, ?_⟩
  · rw [hc]
    simp [hlt]
  · intro hs
    have hw : wrapInt64 (cpn.stock - 1) = cpn.stock - 1 := by
      apply wrapInt64_eq_self
      have h1 := hs.2
      unfold IsInt64 at *
      constructor <;> omega
    show wrapInt64 (cpn.stock - 1) = cpn.stock - 1 ∧ 0 ≤ wrapInt64 (cpn.stock - 1)
    rw [hw]
    exact ⟨rfl, by omega⟩

/-! ## The amount check of `calculateAmount` -/

theorem Decimal.roundPlaces_ge (x : ℚ) (places : Nat)
    (h : 1 / (2 * (10 : ℚ) ^ places) ≤ x) :
    1 / (10 : ℚ) ^ places ≤ Decimal.roundPlaces x places := by
  have hpos : (0 : ℚ) < (10 : ℚ) ^ places := by positivity
  have hs : (1 : ℚ) / 2 ≤ x * (10 : ℚ) ^ places := by
    have h2 : 1 / (2 * (10 : ℚ) ^ places) * (10 : ℚ) ^ places ≤ x * (10 : ℚ) ^ places :=
      mul_le_mul_of_nonneg_right h (le_of_lt hpos)
    have h3 : 1 / (2 * (10 : ℚ) ^ places) * (10 : ℚ) ^ places = 1 / 2 := by
      field_simp
      ring
    rw [h3] at h2
    exact h2
  unfold Decimal.roundPlaces
  simp only
  rw [if_pos (by linarith)]
  have hfloor : (1 : Int) ≤ ⌊x * (10 : ℚ) ^ places + 1 / 2⌋ := by
    rw [Int.le_floor]
    push_cast
    linarith
  have hcast : (1 : ℚ) ≤ ((⌊x * (10 : ℚ) ^ places + 1 / 2⌋ : Int) : ℚ) := by
    exact_mod_cast hfloor
  exact div_le_div_of_nonneg_right hcast (le_of_lt hpos)

/-- With a coupon that leaves a positive amount, `calculateAmount` succeeds and
sets that amount. -/
theorem Order.calculateAmount_accepts {w : World} {c : Nat} {cpn : Coupon} {subtotal : Decimal}
    (hc : w.coupons[c]? = some cpn)
    (hsum : Order.sumItems w.products w.order.items (Decimal.New 0 0) = some subtotal)
    (hpos : 0 < subtotal - cpn.GetDiscountAmount subtotal) :
    Order.calculateAmount w (some c) =
      Outcome.ret true none
        { w with order := { w.order with
            amount := subtotal - cpn.GetDiscountAmount subtotal } } := by
  unfold Order.calculateAmount
  rw [hsum]
  simp only
  rw [hc]
  simp only
  have hge : (Decimal.New 0 0).GreaterThanOrEqual
      (Decimal.Sub subtotal (cpn.GetDiscountAmount subtotal)) = false := by
    simp [Decimal.GreaterThanOrEqual, Decimal.New, Decimal.Sub]
    linarith
  rw [hge]
  simp [Decimal.Sub]

end Sstest

namespace Sstest

/-! ## Claims -/

/-- C1 fails on the code: a product whose status is Available and whose stock
is the least `int64` has stock below the quantity 1, and yet `CanBeOrdered(1)`
returns true with no error, because `p.stock - int64(quantity)` wraps around
to the greatest `int64`. -/
theorem C1_CanBeOrdered_wraps :
    IsInt64 Scenario.minStockProd.stock ∧
    Scenario.minStockProd.stock < 1 ∧
    Scenario.minStockProd.CanBeOrdered 1 = (true, none) := by
  decide

/-- C2: whenever `Submit` returns failure, the status and the amount of the
order, the stock of every product and the stock of every coupon are what they
were before the call. -/
theorem C2_Submit_failure_changes_nothing (w : World) (shippingName shippingAddress : String)
    (coupon : Option Nat) (nowEarly nowExpired now : Time) (err : Option Error) (w' : World)
    (h : Order.Submit w shippingName shippingAddress coupon nowEarly nowExpired now =
      Outcome.ret false err w') :
    w'.order.status = w.order.status ∧ w'.order.amount = w.order.amount ∧
    (∀ a : Nat, (w'.products[a]?).map Product.stock = (w.products[a]?).map Product.stock) ∧
    (∀ a : Nat, (w'.coupons[a]?).map Coupon.stock = (w.coupons[a]?).map Coupon.stock) := by
  obtain ⟨-, ho, hp, hc⟩ := Order.Submit_fail h
  refine ⟨by rw [ho], by rw [ho], fun a => by rw [hp], fun a => ?_⟩
  rcases hc with hc | ⟨c, cpn, -, hcpn, hc⟩
  · rw [hc]
  · rw [hc, List.getElem?_set]
    by_cases hca : c = a
    · subst hca
      have hlt : c < w.coupons.length := by
        by_contra hge
        rw [List.getElem?_eq_none (by omega)] at hcpn
        exact absurd hcpn (by simp)
      rw [if_pos rfl, if_pos hlt, hcpn, Coupon.CanBeApplied_frame]
      rfl
    · rw [if_neg hca]

/-- Witness of C2: the submission of `validOrder` with the inactive coupon
fails, and leaves the order in Draft with amount 0. -/
theorem C2_Submit_failure_changes_nothing_witness :
    (Scenario.heap Scenario.validOrder).order.status = Order.StatusDraft ∧
    (Scenario.heap Scenario.validOrder).order.amount = 0 ∧
    (Scenario.heap Scenario.validOrder).order.status =
      (Scenario.heap Scenario.validOrder).order.status ∧
    (Scenario.heap Scenario.validOrder).order.amount =
      (Scenario.heap Scenario.validOrder).order.amount ∧
    (∀ a : Nat, ((Scenario.heap Scenario.validOrder).products[a]?).map Product.stock =
        ((Scenario.heap Scenario.validOrder).products[a]?).map Product.stock) ∧
    (∀ a : Nat, ((Scenario.heap Scenario.validOrder).coupons[a]?).map Coupon.stock =
        ((Scenario.heap Scenario.validOrder).coupons[a]?).map Coupon.stock) :=
  ⟨by decide, by with_unfolding_all decide,
    C2_Submit_failure_changes_nothing (Scenario.heap Scenario.validOrder) "ship name3"
      "ship address3" (some 2) 1000 1000 1000
      (some (Error.wrap Site.submitCoupon
        (Error.wrap Site.applyCannotApply (Error.leaf Site.couponStatus))))
      (Scenario.heap Scenario.validOrder) (by decide!)⟩

/-- C3 fails on the code: the coupon `earlyCoupon` is Active and its start date
is still to come, so `CanBeApplied` is false and `Submit` fails, but it does
not leave the coupon as it was: `IsEarly` has set its status to Inactive. -/
theorem C3_counterexample :
    Scenario.earlyCoupon.status = Coupon.StatusActive ∧
    (Scenario.earlyCoupon.CanBeApplied 1000 1000).1 = false ∧
    Order.Submit (Scenario.heap Scenario.validOrder) "ship name" "ship address" (some 3)
        1000 1000 1000 =
      Outcome.ret false
        (some (Error.wrap Site.submitCoupon
          (Error.wrap Site.applyCannotApply (Error.leaf Site.couponEarly))))
        { Scenario.heap Scenario.validOrder with
          coupons := (Scenario.heap Scenario.validOrder).coupons.set 3
            { Scenario.earlyCoupon with status := Coupon.StatusInactive } } ∧
    { Scenario.earlyCoupon with status := Coupon.StatusInactive } ≠ Scenario.earlyCoupon := by
  refine ⟨by decide, by decide!, by decide!,
    by decide!⟩

/-- C3, amended.  On a Draft order with at least one item, all of them
orderable, submitted with the coupon `cpn`: if `CanBeApplied` is false, `Submit`
returns failure and leaves the order, the products and every field of the
coupon but its status as they were; the status is set to Inactive when the
coupon is Active and early, to Expired when it is Active and expired, and is
otherwise kept.  If `CanBeApplied` is true and the discounted amount is not
positive, then `Submit`, whenever it returns, returns failure and changes
nothing. -/
theorem C3_coupon_failure_frame (w : World) (shippingName shippingAddress : String) (c : Nat)
    (cpn : Coupon) (nowEarly nowExpired now : Time)
    (hd : w.order.status = Order.StatusDraft) (hn : w.order.items ≠ [])
    (hitems : ∀ kv ∈ w.order.items, ∃ p, w.products[kv.2.product]? = some p ∧
      (p.CanBeOrdered kv.2.quantity).1 = true)
    (hcpn : w.coupons[c]? = some cpn) :
    ((cpn.CanBeApplied nowEarly nowExpired).1 = false →
      ∃ e, Order.Submit w shippingName shippingAddress (some c) nowEarly nowExpired now =
        Outcome.ret false (some e)
          { w with
            coupons := w.coupons.set c
              { cpn with
                status :=
                  if cpn.status = Coupon.StatusActive ∧ nowEarly < cpn.startDate then
                    Coupon.StatusInactive
                  else if cpn.status = Coupon.StatusActive ∧ cpn.endDate < nowExpired then
                    Coupon.StatusExpired
                  else cpn.status } }) ∧
    ((cpn.CanBeApplied nowEarly nowExpired).1 = true →
      Order.subtotalSpec w.products w.order.items -
        cpn.GetDiscountAmount (Order.subtotalSpec w.products w.order.items) ≤ 0 →
      ∀ ok err w',
        Order.Submit w shippingName shippingAddress (some c) nowEarly nowExpired now =
          Outcome.ret ok err w' →
        ok = false ∧ err ≠ none ∧ w' = w) := by
  have hcheck := (Order.checkItems_eq_some_none_iff _ _).2 hitems
  constructor
  · intro hfalse
    obtain ⟨e, he⟩ :=
      Order.Submit_inapplicable shippingName shippingAddress now hd hn hcheck hcpn hfalse
    rw [Coupon.CanBeApplied_status] at he
    exact ⟨e, he⟩
  · intro htrue hamount ok err w' h
    obtain ⟨hok, ⟨e, he⟩, hw⟩ := Order.Submit_amount_not_positive hcpn htrue hamount h
    exact ⟨hok, by simp [he], hw⟩

/-- Witness of C3, amended: `validOrder` submitted with `earlyCoupon`. -/
theorem C3_coupon_failure_frame_witness :
    (Scenario.heap Scenario.validOrder).order.status = Order.StatusDraft ∧
    (Scenario.heap Scenario.validOrder).order.items ≠ [] ∧
    (Scenario.heap Scenario.validOrder).coupons[3]? = some Scenario.earlyCoupon ∧
    (Scenario.earlyCoupon.CanBeApplied 1000 1000).1 = false ∧
    ∃ e, Order.Submit (Scenario.heap Scenario.validOrder) "ship name" "ship address" (some 3)
        1000 1000 1000 =
      Outcome.ret false (some e)
        { Scenario.heap Scenario.validOrder with
          coupons := (Scenario.heap Scenario.validOrder).coupons.set 3
            { Scenario.earlyCoupon with
              status :=
                if Scenario.earlyCoupon.status = Coupon.StatusActive ∧
                    (1000 : Time) < Scenario.earlyCoupon.startDate then
                  Coupon.StatusInactive
                else if Scenario.earlyCoupon.status = Coupon.StatusActive ∧
                    Scenario.earlyCoupon.endDate < (1000 : Time) then
                  Coupon.StatusExpired
                else Scenario.earlyCoupon.status } } :=
  ⟨by decide, by decide, rfl, by decide!,
    (C3_coupon_failure_frame (Scenario.heap Scenario.validOrder) "ship name" "ship address" 3
      Scenario.earlyCoupon 1000 1000 1000 (by decide) (by decide)
      ((Order.checkItems_eq_some_none_iff _ _).1 (by decide!)) rfl).1 (by decide!)⟩

/-- C4 fails on the code: `Submit` never reads its parameters `shippingName`
and `shippingAddress`.  The submission of `validOrder` with no coupon succeeds
and the order still has the empty shipping name and address of `order.New`. -/
theorem C4_Submit_drops_shipping_data :
    Order.Submit (Scenario.heap Scenario.validOrder) "ship name4" "ship address4" none
        1000 1000 1000 =
      Outcome.ret true none
        { Scenario.heap (Scenario.submittedOrder (Decimal.New 1250 0) none) with
          products := Scenario.productsAfter } ∧
    (Scenario.submittedOrder (Decimal.New 1250 0) none).shippingName = "" ∧
    (Scenario.submittedOrder (Decimal.New 1250 0) none).shippingAddress = "" := by
  refine ⟨by decide!, by decide, by decide⟩

/-- C5 fails on the code, by the defect of C1: the order of `minStockWorld`
holds one item, of quantity 1, for a product whose stock is the least `int64`.
`Submit` succeeds, and the stock afterwards is the greatest `int64`, not the
stock before minus the quantity. -/
theorem C5_Submit_stock_wraps :
    Order.Submit Scenario.minStockWorld "ship name" "ship address" none 1000 1000 1000 =
      Outcome.ret true none Scenario.minStockWorldAfter ∧
    (Scenario.minStockWorld.products[0]?).map Product.stock = some MinInt64 ∧
    (Scenario.minStockWorldAfter.products[0]?).map Product.stock = some MaxInt64 ∧
    MaxInt64 ≠ MinInt64 - 1 := by
  refine ⟨by decide!, by decide, by decide, by decide⟩

/-- C6: whenever `Submit` succeeds with the coupon at address `c`, the amount of
the order is the sum over the items of price times quantity minus the discount
`GetDiscountAmount` of that sum, the coupon has one unit of stock less than
before and is otherwise as before, and the order is bound to the coupon. -/
theorem C6_Submit_with_coupon (w : World) (shippingName shippingAddress : String) (c : Nat)
    (nowEarly nowExpired now : Time) (err : Option Error) (w' : World)
    (hstock : ∀ cpn ∈ w.coupons, IsInt64 cpn.stock)
    (h : Order.Submit w shippingName shippingAddress (some c) nowEarly nowExpired now =
      Outcome.ret true err w') :
    ∃ cpn, w.coupons[c]? = some cpn ∧
      w'.order.amount = Order.subtotalSpec w.products w.order.items -
        cpn.GetDiscountAmount (Order.subtotalSpec w.products w.order.items) ∧
      w'.coupons[c]? = some { cpn with stock := cpn.stock - 1 } ∧
      w'.order.coupon = some c := by
  obtain ⟨-, -, -, -, cpn, total, hcpn, hcan, htotal, -, hcommit⟩ := Order.Submit_success_some h
  obtain ⟨-, -, ho, -, hc⟩ := Order.commit_ret hcommit
  have ht := Order.sumItems_eq _ _ _ _ htotal
  simp only [Decimal.New_zero_exp, Int.cast_zero, zero_add] at ht
  have hlt : c < w.coupons.length := by
    by_contra hge
    rw [List.getElem?_eq_none (by omega)] at hcpn
    exact absurd hcpn (by simp)
  have hpos : 0 < cpn.stock := by
    have h2 : (cpn.CanBeApplied nowEarly nowExpired).2.1 = none := by rw [hcan]
    exact (Coupon.CanBeApplied_ok cpn nowEarly nowExpired h2).2.2
  have hrange : IsInt64 cpn.stock := hstock cpn (List.getElem?_mem hcpn)
  have hwrap : wrapInt64 (cpn.stock - 1) = cpn.stock - 1 := by
    apply wrapInt64_eq_self
    unfold IsInt64 at hrange ⊢
    constructor <;> omega
  refine ⟨cpn, hcpn, ?_, ?_, ?_⟩
  · rw [ho, ht]
    rfl
  · rw [hc]
    simp only
    rw [List.getElem?_set_self hlt, hwrap]
    rfl
  · rw [ho]

/-- Witness of C6: the two submissions with a coupon of `TestSubmitOrder`.
With the value coupon of 100 the amount is 1150 and the stock of the coupon goes
from 100 to 99; with the coupon of 20 percent the amount is 1000 and the stock
goes from 10 to 9. -/
theorem C6_Submit_with_coupon_witness :
    (∃ cpn, (Scenario.heap Scenario.validOrder).coupons[0]? = some cpn ∧
      (Scenario.submittedOrder (Decimal.New 1150 0) (some 0)).amount =
        Order.subtotalSpec (Scenario.heap Scenario.validOrder).products
            (Scenario.heap Scenario.validOrder).order.items -
          cpn.GetDiscountAmount
            (Order.subtotalSpec (Scenario.heap Scenario.validOrder).products
              (Scenario.heap Scenario.validOrder).order.items) ∧
      ((Scenario.heap Scenario.validOrder).coupons.set 0
          { Scenario.activeValueCoupon with stock := 99 })[0]? =
        some { cpn with stock := cpn.stock - 1 } ∧
      (Scenario.submittedOrder (Decimal.New 1150 0) (some 0)).coupon = some 0) ∧
    (∃ cpn, (Scenario.heap Scenario.validOrder).coupons[1]? = some cpn ∧
      (Scenario.submittedOrder (Decimal.New 1000 0) (some 1)).amount =
        Order.subtotalSpec (Scenario.heap Scenario.validOrder).products
            (Scenario.heap Scenario.validOrder).order.items -
          cpn.GetDiscountAmount
            (Order.subtotalSpec (Scenario.heap Scenario.validOrder).products
              (Scenario.heap Scenario.validOrder).order.items) ∧
      ((Scenario.heap Scenario.validOrder).coupons.set 1
          { Scenario.activePercentageCoupon with stock := 9 })[1]? =
        some { cpn with stock := cpn.stock - 1 } ∧
      (Scenario.submittedOrder (Decimal.New 1000 0) (some 1)).coupon = some 1) ∧
    (Scenario.submittedOrder (Decimal.New 1150 0) (some 0)).amount = 1150 ∧
    (Scenario.submittedOrder (Decimal.New 1000 0) (some 1)).amount = 1000 :=
  ⟨C6_Submit_with_coupon (Scenario.heap Scenario.validOrder) "ship name1" "ship address1" 0
      1000 1000 1000 none
      { order := Scenario.submittedOrder (Decimal.New 1150 0) (some 0),
        products := Scenario.productsAfter,
        coupons := (Scenario.heap Scenario.validOrder).coupons.set 0
          { Scenario.activeValueCoupon with stock := 99 } }
      (by decide) (by decide!),
    C6_Submit_with_coupon (Scenario.heap Scenario.validOrder) "ship name2" "ship address2" 1
      1000 1000 1000 none
      { order := Scenario.submittedOrder (Decimal.New 1000 0) (some 1),
        products := Scenario.productsAfter,
        coupons := (Scenario.heap Scenario.validOrder).coupons.set 1
          { Scenario.activePercentageCoupon with stock := 9 } }
      (by decide) (by decide!),
    by decide!, by decide!⟩

/-- C7: `Submit` with a nil coupon succeeds exactly when the order is Draft,
has at least one item, and every item passes `CanBeOrdered` on its product with
its quantity; when it succeeds the amount of the order is the undiscounted sum
over the items of price times quantity, and the call binds no coupon (the
coupon of the order is left as it was, nil for an order that had none). -/
theorem C7_Submit_without_coupon (w : World) (shippingName shippingAddress : String)
    (nowEarly nowExpired now : Time) :
    ((∃ w', Order.Submit w shippingName shippingAddress none nowEarly nowExpired now =
        Outcome.ret true none w') ↔
      (w.order.status = Order.StatusDraft ∧ w.order.items ≠ [] ∧
        ∀ kv ∈ w.order.items, ∃ p, w.products[kv.2.product]? = some p ∧
          (p.CanBeOrdered kv.2.quantity).1 = true)) ∧
    (∀ err w', Order.Submit w shippingName shippingAddress none nowEarly nowExpired now =
        Outcome.ret true err w' →
      err = none ∧
      w'.order.amount = Order.subtotalSpec w.products w.order.items ∧
      w'.order.coupon = w.order.coupon ∧
      (w.order.coupon = none → w'.order.coupon = none)) := by
  constructor
  · constructor
    · rintro ⟨w', h⟩
      obtain ⟨-, hd, hn, hcheck, -⟩ := Order.Submit_success_none h
      refine ⟨hd.symm, ?_, (Order.checkItems_eq_some_none_iff _ _).1 hcheck⟩
      intro hnil
      rw [hnil] at hn
      exact hn rfl
    · rintro ⟨hd, hn, hitems⟩
      exact Order.Submit_none_succeeds hd hn ((Order.checkItems_eq_some_none_iff _ _).2 hitems)
  · intro err w' h
    obtain ⟨herr, -, -, -, total, htotal, hcommit⟩ := Order.Submit_success_none h
    obtain ⟨-, -, ho, -, -⟩ := Order.commit_ret hcommit
    have ht := Order.sumItems_eq _ _ _ _ htotal
    simp only [Decimal.New_zero_exp, Int.cast_zero, zero_add] at ht
    have hcoupon : w'.order.coupon = w.order.coupon := by rw [ho]
    refine ⟨herr, ?_, hcoupon, fun hnone => by rw [hcoupon, hnone]⟩
    rw [ho, ht]

/-- Witness of C7: the submission of `validOrder` with no coupon of
`TestSubmitOrder` succeeds with the amount 100 x 5 + 150 x 5 = 1250 and no
coupon. -/
theorem C7_Submit_without_coupon_witness :
    Order.Submit (Scenario.heap Scenario.validOrder) "ship name4" "ship address4" none
        1000 1000 1000 =
      Outcome.ret true none
        { Scenario.heap (Scenario.submittedOrder (Decimal.New 1250 0) none) with
          products := Scenario.productsAfter } ∧
    (Scenario.submittedOrder (Decimal.New 1250 0) none).amount = 100 * 5 + 150 * 5 ∧
    Order.subtotalSpec (Scenario.heap Scenario.validOrder).products
      (Scenario.heap Scenario.validOrder).order.items = 1250 ∧
    (Scenario.submittedOrder (Decimal.New 1250 0) none).coupon = none ∧
    (none = (none : Option Error) ∧
      (Scenario.submittedOrder (Decimal.New 1250 0) none).amount =
        Order.subtotalSpec (Scenario.heap Scenario.validOrder).products
          (Scenario.heap Scenario.validOrder).order.items ∧
      (Scenario.submittedOrder (Decimal.New 1250 0) none).coupon =
        (Scenario.heap Scenario.validOrder).order.coupon ∧
      ((Scenario.heap Scenario.validOrder).order.coupon = none →
        (Scenario.submittedOrder (Decimal.New 1250 0) none).coupon = none)) :=
  ⟨by decide!, by decide!, by decide!, by decide,
    (C7_Submit_without_coupon (Scenario.heap Scenario.validOrder) "ship name4" "ship address4"
      1000 1000 1000).2 none
      { Scenario.heap (Scenario.submittedOrder (Decimal.New 1250 0) none) with
        products := Scenario.productsAfter } (by decide!)⟩

/-- C8: `Submit` returns false with an error when the order is not Draft; when
it has no item, whatever the coupon; when the product of some item fails
`CanBeOrdered` on the quantity of the item; and when the coupon passed fails
`CanBeApplied`.  In the last two cases the items of the order point to products
of the heap (none holds a nil product). -/
theorem C8_Submit_failures (w : World) (shippingName shippingAddress : String)
    (coupon : Option Nat) (nowEarly nowExpired now : Time) :
    (w.order.status ≠ Order.StatusDraft →
      ∃ e, Order.Submit w shippingName shippingAddress coupon nowEarly nowExpired now =
        Outcome.ret false (some e) w) ∧
    (w.order.items = [] →
      ∃ e, Order.Submit w shippingName shippingAddress coupon nowEarly nowExpired now =
        Outcome.ret false (some e) w) ∧
    ((∀ kv ∈ w.order.items, kv.2.product < w.products.length) →
      (∃ kv ∈ w.order.items, ∃ p, w.products[kv.2.product]? = some p ∧
        (p.CanBeOrdered kv.2.quantity).1 = false) →
      ∃ e, Order.Submit w shippingName shippingAddress coupon nowEarly nowExpired now =
        Outcome.ret false (some e) w) ∧
    ((∀ kv ∈ w.order.items, kv.2.product < w.products.length) →
      ∀ c cpn, coupon = some c → w.coupons[c]? = some cpn →
        (cpn.CanBeApplied nowEarly nowExpired).1 = false →
        ∃ e w', Order.Submit w shippingName shippingAddress coupon nowEarly nowExpired now =
          Outcome.ret false (some e) w') := by
  refine ⟨fun hd => ⟨_, Order.Submit_not_draft hd⟩, fun hn => Order.Submit_no_item _ _ _ _ _ _ hn,
    ?_, ?_⟩
  · intro hv hbad
    obtain ⟨e, he⟩ := Order.checkItems_fail_of_mem _ _ hv hbad
    exact Order.Submit_item_fails _ _ _ _ _ _ he
  · intro hv c cpn hc hcpn hfalse
    subst hc
    by_cases hd : w.order.status = Order.StatusDraft
    · by_cases hn : w.order.items = []
      · obtain ⟨e, he⟩ :=
          Order.Submit_no_item shippingName shippingAddress (some c) nowEarly nowExpired now hn
        exact ⟨e, w, he⟩
      · obtain ⟨r, hr⟩ := Order.checkItems_valid _ _ hv
        cases r with
        | some e =>
          obtain ⟨e2, he2⟩ :=
            Order.Submit_item_fails shippingName shippingAddress (some c) nowEarly nowExpired
              now hr
          exact ⟨e2, w, he2⟩
        | none =>
          obtain ⟨e, he⟩ :=
            Order.Submit_inapplicable shippingName shippingAddress now hd hn hr hcpn hfalse
          exact ⟨e, _, he⟩
    · exact ⟨_, w, Order.Submit_not_draft hd⟩

/-- Witness of C8: in `TestSubmitOrder`, the order without items is refused
with the active value coupon, and `validOrder` is refused with the inactive
coupon. -/
theorem C8_Submit_failures_witness :
    (∃ e, Order.Submit (Scenario.heap Scenario.noItemOrder) "ship name3" "ship address3"
        (some 0) 1000 1000 1000 =
      Outcome.ret false (some e) (Scenario.heap Scenario.noItemOrder)) ∧
    (∃ e w', Order.Submit (Scenario.heap Scenario.validOrder) "ship name3" "ship address3"
        (some 2) 1000 1000 1000 =
      Outcome.ret false (some e) w') :=
  ⟨(C8_Submit_failures (Scenario.heap Scenario.noItemOrder) "ship name3" "ship address3"
      (some 0) 1000 1000 1000).2.1 (by decide),
    (C8_Submit_failures (Scenario.heap Scenario.validOrder) "ship name3" "ship address3"
      (some 2) 1000 1000 1000).2.2.2 (by decide) 2 Scenario.inactiveCoupon rfl rfl
      (by decide!)⟩

/-- C9 fails on the code: `validOrder` is Draft, has two orderable items and no
coupon set; `fullValueCoupon` can be applied and its discount, 1250, is the
whole subtotal.  `Submit` does not return: `calculateAmount` builds its error
message from `o.coupon.ID()`, and the coupon of the order is nil. -/
theorem C9_Submit_panics :
    Scenario.validOrder.status = Order.StatusDraft ∧
    Scenario.validOrder.coupon = none ∧
    Order.checkItems (Scenario.heap Scenario.validOrder).products Scenario.validOrder.items =
      some none ∧
    Scenario.fullValueCoupon.CanBeApplied 1000 1000 = (true, none, Scenario.fullValueCoupon) ∧
    Scenario.fullValueCoupon.GetDiscountAmount
        (Order.subtotalSpec (Scenario.heap Scenario.validOrder).products
          Scenario.validOrder.items) =
      Order.subtotalSpec (Scenario.heap Scenario.validOrder).products
        Scenario.validOrder.items ∧
    Order.Submit (Scenario.heap Scenario.validOrder) "ship name" "ship address" (some 4)
      1000 1000 1000 = Outcome.panic := by
  refine ⟨by decide, by decide, by decide!, by decide!, by decide!, by decide!⟩

/-- C10: on a Draft order that does not hold the product `prod`, at address
`p`, `AddProduct(p, q)` succeeds exactly when `prod.CanBeOrdered(q)` does.  When
it succeeds the order gains one item, for `p`, of quantity `q`, stored under
the id of `prod`, and nothing else changes; when it fails it returns an error
and nothing changes. -/
theorem C10_AddProduct_new_product (w : World) (p : Nat) (prod : Product) (q : Int)
    (uuid : String)
    (hd : w.order.status = Order.StatusDraft) (hp : w.products[p]? = some prod)
    (habs : Order.HasProduct w p = some false) :
    ((∃ w', Order.AddProduct w p q uuid = Outcome.ret true none w') ↔
      (prod.CanBeOrdered q).1 = true) ∧
    ((prod.CanBeOrdered q).1 = true →
      Order.AddProduct w p q uuid =
        Outcome.ret true none
          { w with order := { w.order with
              items := w.order.items ++
                [(prod.id, { id := uuid, product := p, quantity := q })] } }) ∧
    ((prod.CanBeOrdered q).1 = false →
      ∃ e, Order.AddProduct w p q uuid = Outcome.ret false (some e) w) := by
  have heq := Order.AddProduct_absent q uuid hd hp habs
  refine ⟨⟨?_, ?_⟩, ?_, ?_⟩
  · rintro ⟨w', h⟩
    by_cases hc : (prod.CanBeOrdered q).1 = false
    · rw [heq, if_pos hc] at h
      exact absurd h (by simp)
    · simpa using hc
  · intro hc
    rw [heq, if_neg (by simp [hc])]
    exact ⟨_, rfl⟩
  · intro hc
    rw [heq, if_neg (by simp [hc])]
  · intro hc
    rw [heq, if_pos hc]
    exact ⟨_, rfl⟩

/-- Witness of C10: the first `AddProduct` of `TestAddProduct`, 10 units of an
available product of stock 100 on a new order. -/
theorem C10_AddProduct_new_product_witness :
    (Scenario.heap Scenario.noItemOrder).order.status = Order.StatusDraft ∧
    Order.HasProduct (Scenario.heap Scenario.noItemOrder) 0 = some false ∧
    (Scenario.availableProd.CanBeOrdered 10).1 = true ∧
    Order.AddProduct (Scenario.heap Scenario.noItemOrder) 0 10 "item1" =
      Outcome.ret true none
        { Scenario.heap Scenario.noItemOrder with
          order := { (Scenario.heap Scenario.noItemOrder).order with
            items := (Scenario.heap Scenario.noItemOrder).order.items ++
              [(Scenario.availableProd.id, { id := "item1", product := 0, quantity := 10 })] } } :=
  ⟨by decide, by decide, by decide,
    (C10_AddProduct_new_product (Scenario.heap Scenario.noItemOrder) 0 Scenario.availableProd 10
      "item1" (by decide) rfl (by decide)).2.1 (by decide)⟩

end Sstest

namespace Sstest

/-- C11 fails on the code: the order of `negativeItemWorld` holds `maxStockProd`
with the item quantity -1.  The total of -1 and the least `int`, computed as
`AddProduct` does, wraps around to the greatest `int`, which `CanBeOrdered`
accepts; `Item.AddQuantity` then refuses the addition as an overflow, and
`AddProduct` drops that error: it returns true and the quantity is still -1. -/
theorem C11_counterexample :
    Scenario.negativeItemWorld.order.status = Order.StatusDraft ∧
    Order.HasProduct Scenario.negativeItemWorld 0 = some true ∧
    Scenario.negativeItemWorld.order.items.lookup Scenario.maxStockProd.id =
      some Scenario.negativeItem ∧
    wrapInt64 (Scenario.negativeItem.quantity + MinInt64) = MaxInt64 ∧
    (Scenario.maxStockProd.CanBeOrdered
      (wrapInt64 (Scenario.negativeItem.quantity + MinInt64))).1 = true ∧
    Scenario.negativeItem.AddQuantity MinInt64 =
      (Scenario.negativeItem, some (Error.leaf Site.itemOverflow)) ∧
    Order.AddProduct Scenario.negativeItemWorld 0 MinInt64 "item2" =
      Outcome.ret true none Scenario.negativeItemWorld := by
  refine ⟨by decide, by decide, by decide!, by decide, by decide!, by decide, by decide!⟩

/-- C11, amended.  On a Draft order that holds the product `prod`, at address
`p`, in the item `item` of quantity `e`, and for a quantity `q` such that the
exact sum `e + q` is not below the least `int` (as is the case whenever `e` is
not negative, `minInt64_le_add_of_nonneg`), `AddProduct(p, q)` succeeds exactly
when `prod.CanBeOrdered` accepts the total `e + q` computed in `int` arithmetic.
When it succeeds the total has not wrapped around, the quantity of the item
becomes `e + q`, the other items are as before and the order has as many items
as before; when it fails nothing changes. -/
theorem C11_AddProduct_merges (w : World) (p : Nat) (prod : Product) (item : Item) (q : Int)
    (uuid : String)
    (hd : w.order.status = Order.StatusDraft) (hp : w.products[p]? = some prod)
    (hl : w.order.items.lookup prod.id = some item)
    (he : IsInt64 item.quantity) (hq : IsInt64 q) (hlow : MinInt64 ≤ item.quantity + q) :
    ((∃ w', Order.AddProduct w p q uuid = Outcome.ret true none w') ↔
      (prod.CanBeOrdered (wrapInt64 (item.quantity + q))).1 = true) ∧
    ((prod.CanBeOrdered (wrapInt64 (item.quantity + q))).1 = true →
      wrapInt64 (item.quantity + q) = item.quantity + q ∧
      ∃ w', Order.AddProduct w p q uuid = Outcome.ret true none w' ∧
        w'.order.items.lookup prod.id = some { item with quantity := item.quantity + q } ∧
        (∀ k, k ≠ prod.id → w'.order.items.lookup k = w.order.items.lookup k) ∧
        w'.order.items.length = w.order.items.length) ∧
    ((prod.CanBeOrdered (wrapInt64 (item.quantity + q))).1 = false →
      ∃ e, Order.AddProduct w p q uuid = Outcome.ret false (some e) w) := by
  obtain ⟨hsucc, hfail⟩ := Order.AddProduct_merge q uuid hd hp hl he hq hlow
  refine ⟨⟨?_, ?_⟩, ?_, hfail⟩
  · rintro ⟨w', h⟩
    by_cases hc : (prod.CanBeOrdered (wrapInt64 (item.quantity + q))).1 = false
    · obtain ⟨e, he'⟩ := hfail hc
      rw [he'] at h
      exact absurd h (by simp)
    · simpa using hc
  · intro hc
    exact ⟨_, (hsucc hc).2⟩
  · intro hc
    obtain ⟨hw, hadd⟩ := hsucc hc
    refine ⟨hw, _, hadd, ?_, ?_, ?_⟩
    · simp only [lookup_mapSet, if_true]
    · intro k hk
      simp only [lookup_mapSet, if_neg hk]
    · exact length_mapSet_of_lookup_some _ _ _ _ hl

/-- Witness of C11, amended: in `TestAddProduct` the stock is 100 and the order
holds 10 units; adding 91 more fails and leaves the order as it was. -/
theorem C11_AddProduct_merges_witness :
    (Scenario.heap Scenario.addedOrder).order.status = Order.StatusDraft ∧
    (Scenario.heap Scenario.addedOrder).order.items.lookup Scenario.availableProd.id =
      some { id := "item1", product := 0, quantity := 10 } ∧
    (Scenario.availableProd.CanBeOrdered (wrapInt64 (10 + 91))).1 = false ∧
    ∃ e, Order.AddProduct (Scenario.heap Scenario.addedOrder) 0 91 "item2" =
      Outcome.ret false (some e) (Scenario.heap Scenario.addedOrder) :=
  ⟨by decide, by decide, by decide,
    (C11_AddProduct_merges (Scenario.heap Scenario.addedOrder) 0 Scenario.availableProd
      { id := "item1", product := 0, quantity := 10 } 91 "item2" (by decide) rfl (by decide)
      (by decide) (by decide) (by decide)).2.2 (by decide)⟩

/-- C12: `HasProduct(p)` is true exactly when some item is stored under the id of
`p`.  It is true after an `AddProduct(p, q)` that succeeds, false after a
`DeleteProduct(p)` that succeeds, false after an `AddProduct(p, q)` that fails
when it was false before, and neither call changes it for a product with
another id. -/
theorem C12_HasProduct (w : World) (p : Nat) (prod : Product)
    (hp : w.products[p]? = some prod) :
    (∃ b, Order.HasProduct w p = some b ∧ (b = true ↔ ∃ item, (prod.id, item) ∈ w.order.items)) ∧
    (∀ q uuid err w',
      Order.AddProduct w p q uuid = Outcome.ret true err w' →
      Order.HasProduct w' p = some true) ∧
    (∀ err w',
      Order.DeleteProduct w p = Outcome.ret true err w' →
      Order.HasProduct w' p = some false) ∧
    (∀ q uuid err w',
      Order.HasProduct w p = some false →
      Order.AddProduct w p q uuid = Outcome.ret false err w' →
      Order.HasProduct w' p = some false) ∧
    (∀ p2 prod2, w.products[p2]? = some prod2 → prod2.id ≠ prod.id →
      (∀ q uuid ok err w',
        Order.AddProduct w p q uuid = Outcome.ret ok err w' →
        Order.HasProduct w' p2 = Order.HasProduct w p2) ∧
      (∀ ok err w',
        Order.DeleteProduct w p = Outcome.ret ok err w' →
        Order.HasProduct w' p2 = Order.HasProduct w p2)) := by
  have hadd : ∀ (q : Int) (uuid : String) (ok : Bool) (err : Option Error) (w' : World),
      Order.AddProduct w p q uuid = Outcome.ret ok err w' →
      w'.products = w.products ∧
      ((ok = false ∧ w' = w) ∨
        (ok = true ∧ ∃ v, w'.order.items = w.order.items ++ [(prod.id, v)] ∨
          w'.order.items = mapSet w.order.items prod.id v)) := by
    intro q uuid ok err w' h
    have hframe := Order.AddProduct_frame h
    refine ⟨by rw [hframe], ?_⟩
    by_cases hd : w.order.status = Order.StatusDraft
    · cases hl : w.order.items.lookup prod.id with
      | none =>
        rw [Order.AddProduct_absent_of_lookup q uuid hd hp hl] at h
        split_ifs at h
        · cases h
          exact Or.inl ⟨rfl, rfl⟩
        · cases h
          exact Or.inr ⟨rfl, _, Or.inl rfl⟩
      | some item =>
        rw [Order.AddProduct_present q uuid hd hp hl] at h
        split_ifs at h
        · cases h
          exact Or.inl ⟨rfl, rfl⟩
        · cases h
          exact Or.inr ⟨rfl, _, Or.inr rfl⟩
    · rw [Order.AddProduct_not_draft w p q uuid hd] at h
      cases h
      exact Or.inl ⟨rfl, rfl⟩
  have hdel : ∀ (ok : Bool) (err : Option Error) (w' : World),
      Order.DeleteProduct w p = Outcome.ret ok err w' →
      w'.products = w.products ∧
      ((ok = false ∧ w' = w) ∨
        (ok = true ∧ w'.order.items = mapDelete w.order.items prod.id)) := by
    intro ok err w' h
    have hframe := Order.DeleteProduct_frame h
    refine ⟨by rw [hframe], ?_⟩
    by_cases hd : w.order.status = Order.StatusDraft
    · cases hl : w.order.items.lookup prod.id with
      | none =>
        rw [Order.DeleteProduct_absent hd hp hl] at h
        cases h
        exact Or.inl ⟨rfl, rfl⟩
      | some item =>
        rw [Order.DeleteProduct_present hd hp hl] at h
        cases h
        exact Or.inr ⟨rfl, rfl⟩
    · rw [Order.DeleteProduct_not_draft w p hd] at h
      cases h
      exact Or.inl ⟨rfl, rfl⟩
  refine ⟨?_, ?_, ?_, ?_, ?_⟩
  · refine ⟨_, Order.HasProduct_eq hp, ?_⟩
    exact lookup_isSome_iff_mem _ _
  · intro q uuid err w' h
    obtain ⟨hps, hcase⟩ := hadd q uuid true err w' h
    have hp' : w'.products[p]? = some prod := by rw [hps]; exact hp
    rw [Order.HasProduct_eq hp']
    rcases hcase with ⟨hf, -⟩ | ⟨-, v, hitems | hitems⟩
    · exact absurd hf (by simp)
    · rw [hitems, List.lookup_append]
      simp
    · rw [hitems, lookup_mapSet, if_pos rfl]
      rfl
  · intro err w' h
    obtain ⟨hps, hcase⟩ := hdel true err w' h
    have hp' : w'.products[p]? = some prod := by rw [hps]; exact hp
    rw [Order.HasProduct_eq hp']
    rcases hcase with ⟨hf, -⟩ | ⟨-, hitems⟩
    · exact absurd hf (by simp)
    · rw [hitems, lookup_mapDelete, if_pos rfl]
      rfl
  · intro q uuid err w' hfalse h
    obtain ⟨-, hcase⟩ := hadd q uuid false err w' h
    rcases hcase with ⟨-, hw⟩ | ⟨ht, -⟩
    · rw [hw]; exact hfalse
    · exact absurd ht (by simp)
  · intro p2 prod2 hp2 hne
    constructor
    · intro q uuid ok err w' h
      obtain ⟨hps, hcase⟩ := hadd q uuid ok err w' h
      have hp2' : w'.products[p2]? = some prod2 := by rw [hps]; exact hp2
      rw [Order.HasProduct_eq hp2', Order.HasProduct_eq hp2]
      rcases hcase with ⟨-, hw⟩ | ⟨-, v, hitems | hitems⟩
      · rw [hw]
      · rw [hitems, List.lookup_append]
        have hb : (prod2.id == prod.id) = false := by simpa using hne
        simp [List.lookup_cons, hb]
      · rw [hitems, lookup_mapSet, if_neg hne]
    · intro ok err w' h
      obtain ⟨hps, hcase⟩ := hdel ok err w' h
      have hp2' : w'.products[p2]? = some prod2 := by rw [hps]; exact hp2
      rw [Order.HasProduct_eq hp2', Order.HasProduct_eq hp2]
      rcases hcase with ⟨-, hw⟩ | ⟨-, hitems⟩
      · rw [hw]
      · rw [hitems, lookup_mapDelete, if_neg hne]

/-- Witness of C12: in `TestDeleteProduct`, the order holds `availableProd`;
deleting it succeeds and `HasProduct` is false afterwards. -/
theorem C12_HasProduct_witness :
    (Scenario.heap Scenario.addedOrder).products[0]? = some Scenario.availableProd ∧
    Order.HasProduct (Scenario.heap Scenario.addedOrder) 0 = some true ∧
    Order.DeleteProduct (Scenario.heap Scenario.addedOrder) 0 =
      Outcome.ret true none (Scenario.heap { Scenario.addedOrder with items := [] }) ∧
    Order.HasProduct (Scenario.heap { Scenario.addedOrder with items := [] }) 0 = some false :=
  ⟨rfl, by decide, by decide!,
    (C12_HasProduct (Scenario.heap Scenario.addedOrder) 0 Scenario.availableProd rfl).2.2.1
      none (Scenario.heap { Scenario.addedOrder with items := [] }) (by decide!)⟩

/-- C13: on a Draft order, `EditProduct(p, q)` fails with an error when the order
does not hold the product.  When it holds it in the item `item`, of quantity
`e`, the call succeeds exactly when `prod.CanBeOrdered` accepts the total
`e + q` computed in `int` arithmetic; the quantity of the item then becomes that
total, the old quantity plus `q`, and the other items are as before.  The total
is the exact sum when that sum is not below the least `int`, as is the case
whenever `e` is not negative.  A call that fails changes nothing. -/
theorem C13_EditProduct (w : World) (p : Nat) (prod : Product) (q : Int)
    (hd : w.order.status = Order.StatusDraft) (hp : w.products[p]? = some prod) :
    (Order.HasProduct w p = some false →
      ∃ e, Order.EditProduct w p q = Outcome.ret false (some e) w) ∧
    (∀ item, w.order.items.lookup prod.id = some item →
      Order.HasProduct w p = some true ∧
      ((∃ w', Order.EditProduct w p q = Outcome.ret true none w') ↔
        (prod.CanBeOrdered (wrapInt64 (item.quantity + q))).1 = true) ∧
      ((prod.CanBeOrdered (wrapInt64 (item.quantity + q))).1 = true →
        ∃ w', Order.EditProduct w p q = Outcome.ret true none w' ∧
          w'.order.items.lookup prod.id =
            some { item with quantity := wrapInt64 (item.quantity + q) } ∧
          (∀ k, k ≠ prod.id → w'.order.items.lookup k = w.order.items.lookup k) ∧
          (IsInt64 item.quantity → IsInt64 q → MinInt64 ≤ item.quantity + q →
            wrapInt64 (item.quantity + q) = item.quantity + q)) ∧
      ((prod.CanBeOrdered (wrapInt64 (item.quantity + q))).1 = false →
        ∃ e, Order.EditProduct w p q = Outcome.ret false (some e) w)) := by
  constructor
  · intro habs
    have hl : w.order.items.lookup prod.id = none := by
      rw [Order.HasProduct_eq hp] at habs
      cases hl : w.order.items.lookup prod.id with
      | none => rfl
      | some i =>
        rw [hl] at habs
        exact absurd habs (by simp)
    exact ⟨_, Order.EditProduct_absent q hd hp hl⟩
  · intro item hl
    have heq := Order.EditProduct_present q hd hp hl
    refine ⟨by rw [Order.HasProduct_eq hp, hl]; rfl, ⟨?_, ?_⟩, ?_, ?_⟩
    · rintro ⟨w', h⟩
      by_cases hc : (prod.CanBeOrdered (wrapInt64 (item.quantity + q))).1 = false
      · rw [heq, if_pos hc] at h
        exact absurd h (by simp)
      · simpa using hc
    · intro hc
      rw [heq, if_neg (by simp [hc])]
      exact ⟨_, rfl⟩
    · intro hc
      refine ⟨_, by rw [heq, if_neg (by simp [hc])], ?_, ?_, ?_⟩
      · simp only [lookup_mapSet, if_true]
      · intro k hk
        simp only [lookup_mapSet, if_neg hk]
      · intro he hq hlow
        exact (wrapInt64_add_of_pos he hq hlow
          ((Product.CanBeOrdered_eq_true_iff _ _).1 hc).1).1
    · intro hc
      rw [heq, if_pos hc]
      exact ⟨_, rfl⟩

/-- Witness of C13: `TestEditProduct`.  With 5 units in the order and a stock of
100, `EditProduct(+20)` gives 25 units; with 8 units and a stock of 10,
`EditProduct(+300)` fails. -/
theorem C13_EditProduct_witness :
    (Scenario.editHeap Scenario.editOrder).order.status = Order.StatusDraft ∧
    (∃ w', Order.EditProduct (Scenario.editHeap Scenario.editOrder) 0 20 =
        Outcome.ret true none w' ∧
      w'.order.items.lookup Scenario.availableProd.id =
        some { ({ id := "item1", product := 0, quantity := 5 } : Item) with
               quantity := wrapInt64 (5 + 20) } ∧
      (∀ k, k ≠ Scenario.availableProd.id →
        w'.order.items.lookup k = (Scenario.editHeap Scenario.editOrder).order.items.lookup k) ∧
      (IsInt64 (5 : Int) → IsInt64 (20 : Int) → MinInt64 ≤ (5 : Int) + 20 →
        wrapInt64 (5 + 20) = 5 + 20)) ∧
    wrapInt64 (5 + 20) = 25 ∧
    (∃ e, Order.EditProduct (Scenario.editHeap Scenario.editOrder) 1 300 =
      Outcome.ret false (some e) (Scenario.editHeap Scenario.editOrder)) :=
  ⟨by decide,
    ((C13_EditProduct (Scenario.editHeap Scenario.editOrder) 0 Scenario.availableProd 20
      (by decide) rfl).2 { id := "item1", product := 0, quantity := 5 } (by decide)).2.2.1
      (by decide),
    by decide,
    ((C13_EditProduct (Scenario.editHeap Scenario.editOrder) 1
      { Scenario.anotherAvailableProd with stock := 10 } 300
      (by decide) rfl).2 { id := "item2", product := 1, quantity := 8 } (by decide)).2.2.2
      (by decide)⟩

/-- C14: on a Draft order, `DeleteProduct(p)` succeeds exactly when the order
holds the product.  When it succeeds no item is left under the id of the
product and the items under the other ids are as before; when the order does
not hold the product it returns false with an error and nothing changes. -/
theorem C14_DeleteProduct (w : World) (p : Nat) (prod : Product)
    (hd : w.order.status = Order.StatusDraft) (hp : w.products[p]? = some prod) :
    ((∃ w', Order.DeleteProduct w p = Outcome.ret true none w') ↔
      Order.HasProduct w p = some true) ∧
    (Order.HasProduct w p = some true →
      ∃ w', Order.DeleteProduct w p = Outcome.ret true none w' ∧
        w'.order.items = w.order.items.filter (fun kv => kv.1 ≠ prod.id) ∧
        w'.order.items.lookup prod.id = none ∧
        (∀ k, k ≠ prod.id → w'.order.items.lookup k = w.order.items.lookup k) ∧
        w'.products = w.products ∧ w'.coupons = w.coupons) ∧
    (Order.HasProduct w p = some false →
      ∃ e, Order.DeleteProduct w p = Outcome.ret false (some e) w) := by
  have hhas := Order.HasProduct_eq hp
  cases hl : w.order.items.lookup prod.id with
  | none =>
    rw [hl] at hhas
    have heq := Order.DeleteProduct_absent hd hp hl
    refine ⟨⟨?_, ?_⟩, ?_, ?_⟩
    · rintro ⟨w', h⟩
      rw [heq] at h
      exact absurd h (by simp)
    · intro h
      rw [hhas] at h
      exact absurd h (by simp)
    · intro h
      rw [hhas] at h
      exact absurd h (by simp)
    · intro _
      exact ⟨_, heq⟩
  | some item =>
    rw [hl] at hhas
    have heq := Order.DeleteProduct_present hd hp hl
    refine ⟨⟨fun _ => hhas, fun _ => ⟨_, heq⟩⟩, ?_, ?_⟩
    · intro _
      refine ⟨_, heq, rfl, ?_, ?_, rfl, rfl⟩
      · simp only [lookup_mapDelete, if_true]
      · intro k hk
        simp only [lookup_mapDelete, if_neg hk]
    · intro h
      rw [hhas] at h
      exact absurd h (by simp)

/-- Witness of C14: `TestDeleteProduct`.  Deleting the product that the order
holds succeeds and empties the order; deleting another product fails. -/
theorem C14_DeleteProduct_witness :
    (Scenario.heap Scenario.addedOrder).order.status = Order.StatusDraft ∧
    Order.HasProduct (Scenario.heap Scenario.addedOrder) 0 = some true ∧
    Order.HasProduct (Scenario.heap Scenario.addedOrder) 1 = some false ∧
    Order.DeleteProduct (Scenario.heap Scenario.addedOrder) 0 =
      Outcome.ret true none (Scenario.heap { Scenario.addedOrder with items := [] }) ∧
    (∃ e, Order.DeleteProduct (Scenario.heap Scenario.addedOrder) 1 =
      Outcome.ret false (some e) (Scenario.heap Scenario.addedOrder)) :=
  ⟨by decide, by decide, by decide, by decide!,
    (C14_DeleteProduct (Scenario.heap Scenario.addedOrder) 1 Scenario.anotherAvailableProd
      (by decide) rfl).2.2 (by decide)⟩

/-- C15: on an order that is Submitted, Canceled, Processed or Delivered, each of
`AddProduct`, `EditProduct` and `DeleteProduct` returns false with an error,
for every product and quantity, and changes nothing. -/
theorem C15_items_frozen_outside_draft (w : World) (p : Nat) (q : Int) (uuid : String)
    (hs : w.order.status = Order.StatusSubmitted ∨ w.order.status = Order.StatusCanceled ∨
      w.order.status = Order.StatusProcessed ∨ w.order.status = Order.StatusDelivered) :
    (∃ e, Order.AddProduct w p q uuid = Outcome.ret false (some e) w) ∧
    (∃ e, Order.EditProduct w p q = Outcome.ret false (some e) w) ∧
    (∃ e, Order.DeleteProduct w p = Outcome.ret false (some e) w) := by
  have hd : w.order.status ≠ Order.StatusDraft := by
    rcases hs with h | h | h | h <;> rw [h] <;> decide
  exact ⟨⟨_, Order.AddProduct_not_draft w p q uuid hd⟩,
    ⟨_, Order.EditProduct_not_draft w p q hd⟩,
    ⟨_, Order.DeleteProduct_not_draft w p hd⟩⟩

/-- Witness of C15: an order that has been submitted refuses the three
operations. -/
theorem C15_items_frozen_outside_draft_witness :
    (Scenario.heap (Scenario.submittedOrder (Decimal.New 1250 0) none)).order.status =
      Order.StatusSubmitted ∧
    (∃ e, Order.AddProduct (Scenario.heap (Scenario.submittedOrder (Decimal.New 1250 0) none))
        0 1 "item3" =
      Outcome.ret false (some e)
        (Scenario.heap (Scenario.submittedOrder (Decimal.New 1250 0) none))) ∧
    (∃ e, Order.EditProduct (Scenario.heap (Scenario.submittedOrder (Decimal.New 1250 0) none))
        0 1 =
      Outcome.ret false (some e)
        (Scenario.heap (Scenario.submittedOrder (Decimal.New 1250 0) none))) ∧
    (∃ e, Order.DeleteProduct (Scenario.heap (Scenario.submittedOrder (Decimal.New 1250 0) none))
        0 =
      Outcome.ret false (some e)
        (Scenario.heap (Scenario.submittedOrder (Decimal.New 1250 0) none))) :=
  ⟨by decide,
    C15_items_frozen_outside_draft
      (Scenario.heap (Scenario.submittedOrder (Decimal.New 1250 0) none)) 0 1 "item3"
      (Or.inl (by decide))⟩

end Sstest

namespace Sstest

/-- C16: in every world reached from `order.New` by calls of `AddProduct`,
`EditProduct` and `DeleteProduct`, each item is stored under the id of its own
product and no key occurs twice, so that no two items of the order are for
products of the same id. -/
theorem C16_items_keyed_by_product_id (w : World) (h : Order.ItemsReachable w) :
    (∀ kv ∈ w.order.items, ∃ prod, w.products[kv.2.product]? = some prod ∧ prod.id = kv.1) ∧
    (w.order.items.map Prod.fst).Nodup ∧
    (∀ kv1 ∈ w.order.items, ∀ kv2 ∈ w.order.items, ∀ prod1 prod2,
      w.products[kv1.2.product]? = some prod1 → w.products[kv2.2.product]? = some prod2 →
      prod1.id = prod2.id → kv1 = kv2) := by
  obtain ⟨hnodup, hkeyed⟩ := Order.ItemsReachable_keyed h
  refine ⟨hkeyed, hnodup, ?_⟩
  intro kv1 h1 kv2 h2 prod1 prod2 hp1 hp2 hid
  obtain ⟨p1, hq1, hk1⟩ := hkeyed kv1 h1
  obtain ⟨p2, hq2, hk2⟩ := hkeyed kv2 h2
  rw [hp1] at hq1
  rw [hp2] at hq2
  cases hq1
  cases hq2
  exact List.inj_on_of_nodup_map hnodup h1 h2 (by rw [← hk1, ← hk2, hid])

/-- Witness of C16: the order of `TestAddProduct` after its first call. -/
theorem C16_items_keyed_by_product_id_witness :
    Order.ItemsReachable (Scenario.heap Scenario.addedOrder) ∧
    (∀ kv ∈ (Scenario.heap Scenario.addedOrder).order.items,
      ∃ prod, (Scenario.heap Scenario.addedOrder).products[kv.2.product]? = some prod ∧
        prod.id = kv.1) ∧
    ((Scenario.heap Scenario.addedOrder).order.items.map Prod.fst).Nodup :=
  have hreach : Order.ItemsReachable (Scenario.heap Scenario.addedOrder) :=
    Order.ItemsReachable.add 0 10 "item1"
      (Order.ItemsReachable.new "newOrder" 1000 (Scenario.heap Scenario.noItemOrder).products
        (Scenario.heap Scenario.noItemOrder).coupons)
      (show Order.AddProduct
          { order := Order.New "newOrder" 1000,
            products := (Scenario.heap Scenario.noItemOrder).products,
            coupons := (Scenario.heap Scenario.noItemOrder).coupons } 0 10 "item1" =
        Outcome.ret true none (Scenario.heap Scenario.addedOrder) by decide!)
  ⟨hreach, (C16_items_keyed_by_product_id (Scenario.heap Scenario.addedOrder) hreach).1,
    (C16_items_keyed_by_product_id (Scenario.heap Scenario.addedOrder) hreach).2.1⟩

/-- C17: `AddQuantity(n)` returns no error exactly when the exact sum of the
quantity and `n` lies between 1 and the greatest `int`; the quantity then
becomes that sum, and is unchanged when an error is returned.
`SubtractQuantity(n)` is `AddQuantity` of `0 - n`; on an item whose quantity is
not negative it returns no error exactly when the exact difference lies between
1 and the greatest `int`, the quantity then becomes that difference, and
subtracting at least the quantity fails and leaves it unchanged. -/
theorem C17_AddQuantity (i : Item) (n : Int) (hq : IsInt64 i.quantity) (hn : IsInt64 n) :
    ((i.AddQuantity n).2 = none ↔ 1 ≤ i.quantity + n ∧ i.quantity + n ≤ MaxInt64) ∧
    ((i.AddQuantity n).2 = none → (i.AddQuantity n).1 = { i with quantity := i.quantity + n }) ∧
    ((i.AddQuantity n).2 ≠ none → (i.AddQuantity n).1 = i) ∧
    i.SubtractQuantity n = i.AddQuantity (wrapInt64 (0 - n)) ∧
    (0 ≤ i.quantity →
      ((i.SubtractQuantity n).2 = none ↔ 1 ≤ i.quantity - n ∧ i.quantity - n ≤ MaxInt64) ∧
      ((i.SubtractQuantity n).2 = none →
        (i.SubtractQuantity n).1 = { i with quantity := i.quantity - n }) ∧
      (i.quantity ≤ n → ∃ e, i.SubtractQuantity n = (i, some e))) := by
  have key : ∀ m : Int, IsInt64 m →
      ((i.AddQuantity m).2 = none ↔ 1 ≤ i.quantity + m ∧ i.quantity + m ≤ MaxInt64) ∧
      ((i.AddQuantity m).2 = none →
        (i.AddQuantity m).1 = { i with quantity := i.quantity + m }) ∧
      ((i.AddQuantity m).2 ≠ none → (i.AddQuantity m).1 = i) := by
    intro m hm
    obtain ⟨hin, hout⟩ := Item.AddQuantity_eq i m hq hm
    by_cases hr : 1 ≤ i.quantity + m ∧ i.quantity + m ≤ MaxInt64
    · rw [hin hr]
      exact ⟨⟨fun _ => hr, fun _ => rfl⟩, fun _ => rfl, fun hne => absurd rfl hne⟩
    · obtain ⟨e, he⟩ := hout hr
      rw [he]
      exact ⟨⟨fun h => absurd h (by simp), fun h => absurd h hr⟩,
        fun h => absurd h (by simp), fun _ => rfl⟩
  refine ⟨(key n hn).1, (key n hn).2.1, (key n hn).2.2, Item.SubtractQuantity_eq i n, ?_⟩
  intro hnonneg
  rw [Item.SubtractQuantity_eq]
  have hm : IsInt64 (wrapInt64 (0 - n)) := wrapInt64_isInt64 _
  obtain ⟨k1, k2, k3⟩ := key (wrapInt64 (0 - n)) hm
  have hneg : (n = MinInt64 ∧ wrapInt64 (0 - n) = MinInt64) ∨
      (n ≠ MinInt64 ∧ wrapInt64 (0 - n) = -n) := by
    unfold IsInt64 at hn
    unfold MinInt64 wrapInt64
    omega
  unfold IsInt64 at hq hn
  refine ⟨?_, ?_, ?_⟩
  · rw [k1]
    rcases hneg with ⟨h1, h2⟩ | ⟨h1, h2⟩
    · rw [h2, h1]
      unfold MinInt64 MaxInt64
      omega
    · rw [h2]
      unfold MaxInt64
      omega
  · intro hnone
    rw [k2 hnone]
    have hrange := k1.1 hnone
    rcases hneg with ⟨h1, h2⟩ | ⟨h1, h2⟩
    · rw [h2] at hrange
      unfold MinInt64 at hrange
      omega
    · rw [h2]
      congr 1
  · intro hle
    have hnot : ¬ ((i.AddQuantity (wrapInt64 (0 - n))).2 = none) := by
      rw [k1]
      rcases hneg with ⟨h1, h2⟩ | ⟨h1, h2⟩
      · rw [h2]
        unfold MinInt64
        omega
      · rw [h2]
        omega
    cases herr : (i.AddQuantity (wrapInt64 (0 - n))).2 with
    | none => exact absurd herr hnot
    | some e =>
      refine ⟨e, Prod.ext ?_ herr⟩
      exact k3 (by rw [herr]; simp)

/-- Witness of C17: `TestAddQuantity`.  A new item goes from 0 to 100 with
`AddQuantity(100)`, to 50 with `AddQuantity(-50)` and to 25 with
`SubtractQuantity(25)`. -/
theorem C17_AddQuantity_witness :
    IsInt64 Scenario.newItem.quantity ∧ IsInt64 (100 : Int) ∧
    ((Scenario.newItem.AddQuantity 100).2 = none ↔
      1 ≤ Scenario.newItem.quantity + 100 ∧ Scenario.newItem.quantity + 100 ≤ MaxInt64) ∧
    Scenario.newItem.AddQuantity 100 = ({ Scenario.newItem with quantity := 100 }, none) ∧
    Item.AddQuantity { Scenario.newItem with quantity := 100 } (-50) =
      ({ Scenario.newItem with quantity := 50 }, none) ∧
    Item.SubtractQuantity { Scenario.newItem with quantity := 50 } 25 =
      ({ Scenario.newItem with quantity := 25 }, none) ∧
    Item.SubtractQuantity { Scenario.newItem with quantity := 25 } 25 =
      ({ Scenario.newItem with quantity := 25 }, some (Error.leaf Site.itemNotPositive)) :=
  ⟨by decide, by decide,
    (C17_AddQuantity Scenario.newItem 100 (by decide) (by decide)).1,
    by decide, by decide, by decide, by decide⟩

end Sstest

namespace Sstest

/-- C18: `Process` succeeds exactly when the order is Submitted.  It then sets
the status to Processed and `processedDate` to the current time, later than
`createdDate` when the clock has advanced since the creation, and changes
nothing else; otherwise it returns false with an error and changes nothing. -/
theorem C18_Process (w : World) (now : Time) :
    ((∃ w', Order.Process w now = Outcome.ret true none w') ↔
      w.order.status = Order.StatusSubmitted) ∧
    (w.order.status = Order.StatusSubmitted →
      Order.Process w now =
        Outcome.ret true none
          { w with order := { w.order with
              status := Order.StatusProcessed, processedDate := now } }) ∧
    (∀ ok err w', Order.Process w now = Outcome.ret ok err w' → ok = true →
      w.order.createdDate < now → w'.order.createdDate < w'.order.processedDate) ∧
    (w.order.status ≠ Order.StatusSubmitted →
      ∃ e, Order.Process w now = Outcome.ret false (some e) w) := by
  by_cases hs : w.order.status = Order.StatusSubmitted
  · have heq : Order.Process w now =
        Outcome.ret true none
          { w with order := { w.order with
              status := Order.StatusProcessed, processedDate := now } } := by
      unfold Order.Process
      rw [if_neg (by simp [hs])]
    refine ⟨⟨fun _ => hs, fun _ => ⟨_, heq⟩⟩, fun _ => heq, ?_, fun h => absurd hs h⟩
    intro ok err w' h _ hlt
    rw [heq] at h
    cases h
    exact hlt
  · have heq : Order.Process w now =
        Outcome.ret false (some (Error.leaf Site.processNotSubmitted)) w := by
      unfold Order.Process
      rw [if_pos (fun h => hs h.symm)]
    refine ⟨⟨?_, fun h => absurd h hs⟩, fun h => absurd h hs, ?_, fun _ => ⟨_, heq⟩⟩
    · rintro ⟨w', h⟩
      rw [heq] at h
      exact absurd h (by simp)
    · intro ok err w' h hok
      rw [heq] at h
      cases h
      exact absurd hok (by simp)

/-- Witness of C18: `TestProcessOrder`.  At instant 1100 the draft order, created
at instant 1000, is refused, and the submitted one is processed with a
`processedDate` later than its `createdDate`. -/
theorem C18_Process_witness :
    (∃ e, Order.Process (Scenario.heap (Scenario.orderWithStatus Order.StatusDraft)) 1100 =
      Outcome.ret false (some e) (Scenario.heap (Scenario.orderWithStatus Order.StatusDraft))) ∧
    Order.Process (Scenario.heap (Scenario.orderWithStatus Order.StatusSubmitted)) 1100 =
      Outcome.ret true none
        { Scenario.heap (Scenario.orderWithStatus Order.StatusSubmitted) with
          order := { (Scenario.heap (Scenario.orderWithStatus Order.StatusSubmitted)).order with
            status := Order.StatusProcessed, processedDate := 1100 } } ∧
    (Scenario.orderWithStatus Order.StatusSubmitted).createdDate < (1100 : Time) :=
  ⟨(C18_Process (Scenario.heap (Scenario.orderWithStatus Order.StatusDraft)) 1100).2.2.2
      (by decide),
    (C18_Process (Scenario.heap (Scenario.orderWithStatus Order.StatusSubmitted)) 1100).2.1
      (by decide),
    by decide⟩

/-- C19: `Cancel` succeeds exactly when the order is Submitted, and then sets the
status to Canceled and changes nothing else; on an order of any other status,
such as Draft, Processed, Delivered or Canceled, it returns false with an error
and changes nothing. -/
theorem C19_Cancel (w : World) :
    ((∃ w', Order.Cancel w = Outcome.ret true none w') ↔
      w.order.status = Order.StatusSubmitted) ∧
    (w.order.status = Order.StatusSubmitted →
      Order.Cancel w =
        Outcome.ret true none { w with order := { w.order with status := Order.StatusCanceled } }) ∧
    (w.order.status ≠ Order.StatusSubmitted →
      ∃ e, Order.Cancel w = Outcome.ret false (some e) w) ∧
    (w.order.status = Order.StatusDraft ∨ w.order.status = Order.StatusProcessed ∨
        w.order.status = Order.StatusDelivered ∨ w.order.status = Order.StatusCanceled →
      ∃ e, Order.Cancel w = Outcome.ret false (some e) w) := by
  have hfail : w.order.status ≠ Order.StatusSubmitted →
      Order.Cancel w = Outcome.ret false (some (Error.leaf Site.cancelNotSubmitted)) w := by
    intro hs
    unfold Order.Cancel
    rw [if_pos (fun h => hs h.symm)]
  have hsucc : w.order.status = Order.StatusSubmitted →
      Order.Cancel w =
        Outcome.ret true none
          { w with order := { w.order with status := Order.StatusCanceled } } := by
    intro hs
    unfold Order.Cancel
    rw [if_neg (by simp [hs])]
  refine ⟨⟨?_, fun hs => ⟨_, hsucc hs⟩⟩, hsucc, fun hs => ⟨_, hfail hs⟩, ?_⟩
  · rintro ⟨w', h⟩
    by_contra hs
    rw [hfail hs] at h
    exact absurd h (by simp)
  · intro hs
    refine ⟨_, hfail ?_⟩
    rcases hs with h | h | h | h <;> rw [h] <;> decide

/-- Witness of C19: `TestCancelOrder`.  The draft order is refused and the
submitted one is canceled. -/
theorem C19_Cancel_witness :
    (∃ e, Order.Cancel (Scenario.heap (Scenario.orderWithStatus Order.StatusDraft)) =
      Outcome.ret false (some e) (Scenario.heap (Scenario.orderWithStatus Order.StatusDraft))) ∧
    Order.Cancel (Scenario.heap (Scenario.orderWithStatus Order.StatusSubmitted)) =
      Outcome.ret true none
        { Scenario.heap (Scenario.orderWithStatus Order.StatusSubmitted) with
          order := { (Scenario.heap (Scenario.orderWithStatus Order.StatusSubmitted)).order with
            status := Order.StatusCanceled } } :=
  ⟨(C19_Cancel (Scenario.heap (Scenario.orderWithStatus Order.StatusDraft))).2.2.2
      (Or.inl (by decide)),
    (C19_Cancel (Scenario.heap (Scenario.orderWithStatus Order.StatusSubmitted))).2.1
      (by decide)⟩

/-- C20: `ProcessShipping(trackingNo)` succeeds exactly when the order is
Processed.  It then sets `shippingStatus` to OnProcess and `shippingTrackingID`
to `trackingNo`, and changes nothing else, the status included; otherwise it
returns false with an error and changes nothing. -/
theorem C20_ProcessShipping (w : World) (trackingNo : String) :
    ((∃ w', Order.ProcessShipping w trackingNo = Outcome.ret true none w') ↔
      w.order.status = Order.StatusProcessed) ∧
    (w.order.status = Order.StatusProcessed →
      Order.ProcessShipping w trackingNo =
        Outcome.ret true none
          { w with order := { w.order with
              shippingTrackingID := trackingNo,
              shippingStatus := Order.ShipStatusOnProcess } }) ∧
    (∀ ok err w', Order.ProcessShipping w trackingNo = Outcome.ret ok err w' →
      w'.order.status = w.order.status) ∧
    (w.order.status ≠ Order.StatusProcessed →
      ∃ e, Order.ProcessShipping w trackingNo = Outcome.ret false (some e) w) := by
  have hfail : w.order.status ≠ Order.StatusProcessed →
      Order.ProcessShipping w trackingNo =
        Outcome.ret false (some (Error.leaf Site.shippingNotProcessed)) w := by
    intro hs
    unfold Order.ProcessShipping
    rw [if_pos (fun h => hs h.symm)]
  have hsucc : w.order.status = Order.StatusProcessed →
      Order.ProcessShipping w trackingNo =
        Outcome.ret true none
          { w with order := { w.order with
              shippingTrackingID := trackingNo,
              shippingStatus := Order.ShipStatusOnProcess } } := by
    intro hs
    unfold Order.ProcessShipping
    rw [if_neg (by simp [hs])]
  refine ⟨⟨?_, fun hs => ⟨_, hsucc hs⟩⟩, hsucc, ?_, fun hs => ⟨_, hfail hs⟩⟩
  · rintro ⟨w', h⟩
    by_contra hs
    rw [hfail hs] at h
    exact absurd h (by simp)
  · intro ok err w' h
    by_cases hs : w.order.status = Order.StatusProcessed
    · rw [hsucc hs] at h
      cases h
      rfl
    · rw [hfail hs] at h
      cases h
      rfl

/-- Witness of C20: `TestProcessShipping`.  The draft order is refused and keeps
the shipping status None and an empty tracking id; the processed order gets the
shipping status OnProcess and the tracking id passed. -/
theorem C20_ProcessShipping_witness :
    (∃ e, Order.ProcessShipping (Scenario.heap (Scenario.orderWithStatus Order.StatusDraft))
        "dummyTrackingNo" =
      Outcome.ret false (some e) (Scenario.heap (Scenario.orderWithStatus Order.StatusDraft))) ∧
    (Scenario.orderWithStatus Order.StatusDraft).shippingStatus = Order.ShipStatusNone ∧
    (Scenario.orderWithStatus Order.StatusDraft).shippingTrackingID = "" ∧
    Order.ProcessShipping (Scenario.heap (Scenario.orderWithStatus Order.StatusProcessed))
        "dummyTrackingNo" =
      Outcome.ret true none
        { Scenario.heap (Scenario.orderWithStatus Order.StatusProcessed) with
          order := { (Scenario.heap (Scenario.orderWithStatus Order.StatusProcessed)).order with
            shippingTrackingID := "dummyTrackingNo",
            shippingStatus := Order.ShipStatusOnProcess } } :=
  ⟨(C20_ProcessShipping (Scenario.heap (Scenario.orderWithStatus Order.StatusDraft))
      "dummyTrackingNo").2.2.2 (by decide),
    by decide, by decide,
    (C20_ProcessShipping (Scenario.heap (Scenario.orderWithStatus Order.StatusProcessed))
      "dummyTrackingNo").2.1 (by decide)⟩

end Sstest

namespace Sstest

/-- C21: `FinishOrder` succeeds exactly when the order is Processed.  It then
sets the status to Delivered and `shippingStatus` to Delivered and changes
nothing else; otherwise it returns false with an error and leaves the status,
the `shippingStatus` and everything else as they were. -/
theorem C21_FinishOrder (w : World) :
    ((∃ w', Order.FinishOrder w = Outcome.ret true none w') ↔
      w.order.status = Order.StatusProcessed) ∧
    (w.order.status = Order.StatusProcessed →
      Order.FinishOrder w =
        Outcome.ret true none
          { w with order := { w.order with
              status := Order.StatusDelivered,
              shippingStatus := Order.ShipStatusDelivered } }) ∧
    (w.order.status ≠ Order.StatusProcessed →
      ∃ e, Order.FinishOrder w = Outcome.ret false (some e) w) ∧
    (∀ ok err w', Order.FinishOrder w = Outcome.ret ok err w' → ok = false →
      (∃ e, err = some e) ∧ w'.order.status = w.order.status ∧
        w'.order.shippingStatus = w.order.shippingStatus) := by
  by_cases hs : w.order.status = Order.StatusProcessed
  · have heq : Order.FinishOrder w =
        Outcome.ret true none
          { w with order := { w.order with
              status := Order.StatusDelivered,
              shippingStatus := Order.ShipStatusDelivered } } := by
      unfold Order.FinishOrder
      rw [if_neg (by simp [hs])]
    refine ⟨⟨fun _ => hs, fun _ => ⟨_, heq⟩⟩, fun _ => heq, fun h => absurd hs h, ?_⟩
    intro ok err w' h hok
    rw [heq] at h
    cases h
    exact absurd hok (by simp)
  · have heq : Order.FinishOrder w =
        Outcome.ret false (some (Error.leaf Site.finishNotProcessed)) w := by
      unfold Order.FinishOrder
      rw [if_pos (fun h => hs h.symm)]
    refine ⟨⟨?_, fun h => absurd h hs⟩, fun h => absurd h hs, fun _ => ⟨_, heq⟩, ?_⟩
    · rintro ⟨w', h⟩
      rw [heq] at h
      exact absurd h (by simp)
    · intro ok err w' h _
      rw [heq] at h
      cases h
      exact ⟨⟨_, rfl⟩, rfl, rfl⟩

/-- Witness of C21: `TestFinishOrder`.  The draft order is refused and the
processed order is delivered. -/
theorem C21_FinishOrder_witness :
    (∃ e, Order.FinishOrder (Scenario.heap (Scenario.orderWithStatus Order.StatusDraft)) =
      Outcome.ret false (some e) (Scenario.heap (Scenario.orderWithStatus Order.StatusDraft))) ∧
    Order.FinishOrder (Scenario.heap (Scenario.orderWithStatus Order.StatusProcessed)) =
      Outcome.ret true none
        { Scenario.heap (Scenario.orderWithStatus Order.StatusProcessed) with
          order := { (Scenario.heap (Scenario.orderWithStatus Order.StatusProcessed)).order with
            status := Order.StatusDelivered,
            shippingStatus := Order.ShipStatusDelivered } } :=
  ⟨(C21_FinishOrder (Scenario.heap (Scenario.orderWithStatus Order.StatusDraft))).2.2.1
      (by decide),
    (C21_FinishOrder (Scenario.heap (Scenario.orderWithStatus Order.StatusProcessed))).2.1
      (by decide)⟩

end Sstest

namespace Sstest

/-- C22 fails on the code: `ProcessShipping` leaves the status Processed, so on
the processed order the call succeeds and the same call made again at once
succeeds again. -/
theorem C22_counterexample :
    Order.ProcessShipping (Scenario.heap (Scenario.orderWithStatus Order.StatusProcessed))
        "TRACK-1" =
      Outcome.ret true none
        { Scenario.heap (Scenario.orderWithStatus Order.StatusProcessed) with
          order := { Scenario.orderWithStatus Order.StatusProcessed with
            shippingTrackingID := "TRACK-1",
            shippingStatus := Order.ShipStatusOnProcess } } ∧
    Order.ProcessShipping
        { Scenario.heap (Scenario.orderWithStatus Order.StatusProcessed) with
          order := { Scenario.orderWithStatus Order.StatusProcessed with
            shippingTrackingID := "TRACK-1",
            shippingStatus := Order.ShipStatusOnProcess } }
        "TRACK-1" =
      Outcome.ret true none
        { Scenario.heap (Scenario.orderWithStatus Order.StatusProcessed) with
          order := { Scenario.orderWithStatus Order.StatusProcessed with
            shippingTrackingID := "TRACK-1",
            shippingStatus := Order.ShipStatusOnProcess } } := by
  refine ⟨by decide!, by decide!⟩

/-- C22, amended.  For each of `Submit`, `Process`, `Cancel` and `FinishOrder`
and every order on which a call of the method succeeds, the same call made again
at once, whatever the clock then reads, fails with the status error of the
method and changes nothing.  A successful `ProcessShipping` leaves the status
Processed, and the same call made again succeeds and changes nothing more. -/
theorem C22_transitions_not_repeatable :
    (∀ w sn sa coupon tE tX now err w',
      Order.Submit w sn sa coupon tE tX now = Outcome.ret true err w' →
      ∀ tE2 tX2 now2, Order.Submit w' sn sa coupon tE2 tX2 now2 =
        Outcome.ret false (some (Error.leaf Site.submitNotDraft)) w') ∧
    (∀ w now err w', Order.Process w now = Outcome.ret true err w' →
      ∀ now2, Order.Process w' now2 =
        Outcome.ret false (some (Error.leaf Site.processNotSubmitted)) w') ∧
    (∀ w err w', Order.Cancel w = Outcome.ret true err w' →
      Order.Cancel w' = Outcome.ret false (some (Error.leaf Site.cancelNotSubmitted)) w') ∧
    (∀ w err w', Order.FinishOrder w = Outcome.ret true err w' →
      Order.FinishOrder w' = Outcome.ret false (some (Error.leaf Site.finishNotProcessed)) w') ∧
    (∀ w trackingNo err w', Order.ProcessShipping w trackingNo = Outcome.ret true err w' →
      w'.order.status = Order.StatusProcessed ∧
      Order.ProcessShipping w' trackingNo = Outcome.ret true none w') := by
  refine ⟨?_, ?_, ?_, ?_, ?_⟩
  · intro w sn sa coupon tE tX now err w' h tE2 tX2 now2
    rcases Order.Submit_status h with ⟨hok, _⟩ | ⟨_, _, hs⟩
    · exact absurd hok (by simp)
    · exact Order.Submit_not_draft (by rw [hs]; decide)
  · intro w now err w' h now2
    rcases Order.Process_status h with ⟨hok, _⟩ | ⟨_, _, hs⟩
    · exact absurd hok (by simp)
    · unfold Order.Process
      rw [if_pos (by rw [hs]; decide)]
  · intro w err w' h
    rcases Order.Cancel_status h with ⟨hok, _⟩ | ⟨_, _, hs⟩
    · exact absurd hok (by simp)
    · unfold Order.Cancel
      rw [if_pos (by rw [hs]; decide)]
  · intro w err w' h
    rcases Order.FinishOrder_status h with ⟨hok, _⟩ | ⟨_, _, hs⟩
    · exact absurd hok (by simp)
    · unfold Order.FinishOrder
      rw [if_pos (by rw [hs]; decide)]
  · intro w trackingNo err w' h
    unfold Order.ProcessShipping at h
    split_ifs at h with hs
    · exact absurd h (by simp)
    · cases h
      refine ⟨(not_not.mp hs).symm, ?_⟩
      unfold Order.ProcessShipping
      rw [if_neg (by simpa using hs)]

/-- Witness of C22, amended: the submitted order is processed at instant 1100
and a second `Process`, at instant 1200, is refused; the processed order is
delivered by `FinishOrder` and a second `FinishOrder` is refused. -/
theorem C22_transitions_not_repeatable_witness :
    Order.Process
        { Scenario.heap (Scenario.orderWithStatus Order.StatusSubmitted) with
          order := { Scenario.orderWithStatus Order.StatusSubmitted with
            status := Order.StatusProcessed, processedDate := 1100 } } 1200 =
      Outcome.ret false (some (Error.leaf Site.processNotSubmitted))
        { Scenario.heap (Scenario.orderWithStatus Order.StatusSubmitted) with
          order := { Scenario.orderWithStatus Order.StatusSubmitted with
            status := Order.StatusProcessed, processedDate := 1100 } } ∧
    Order.FinishOrder
        { Scenario.heap (Scenario.orderWithStatus Order.StatusProcessed) with
          order := { Scenario.orderWithStatus Order.StatusProcessed with
            status := Order.StatusDelivered,
            shippingStatus := Order.ShipStatusDelivered } } =
      Outcome.ret false (some (Error.leaf Site.finishNotProcessed))
        { Scenario.heap (Scenario.orderWithStatus Order.StatusProcessed) with
          order := { Scenario.orderWithStatus Order.StatusProcessed with
            status := Order.StatusDelivered,
            shippingStatus := Order.ShipStatusDelivered } } :=
  ⟨C22_transitions_not_repeatable.2.1
      (Scenario.heap (Scenario.orderWithStatus Order.StatusSubmitted)) 1100 none
      { Scenario.heap (Scenario.orderWithStatus Order.StatusSubmitted) with
        order := { Scenario.orderWithStatus Order.StatusSubmitted with
          status := Order.StatusProcessed, processedDate := 1100 } }
      (by decide!) 1200,
    C22_transitions_not_repeatable.2.2.2.1
      (Scenario.heap (Scenario.orderWithStatus Order.StatusProcessed)) none
      { Scenario.heap (Scenario.orderWithStatus Order.StatusProcessed) with
        order := { Scenario.orderWithStatus Order.StatusProcessed with
          status := Order.StatusDelivered,
          shippingStatus := Order.ShipStatusDelivered } }
      (by decide!)⟩

/-- C23: a call of `AddProduct`, `EditProduct`, `DeleteProduct`, `Submit`,
`Process`, `Cancel`, `ProcessShipping` or `FinishOrder` leaves the status as it
was unless it is a successful `Submit` on a Draft order (then Submitted), a
successful `Process` on a Submitted order (then Processed), a successful
`Cancel` on a Submitted order (then Canceled) or a successful `FinishOrder` on
a Processed order (then Delivered).  Hence, over any sequence of such calls,
the status at the end is the status at the start or one that the four changes
lead to from it, a status that has been left is never taken again, and
Canceled and Delivered are never left. -/
theorem C23_one_way_state_machine :
    (∀ w c ok err w', Order.Call.run w c = Outcome.ret ok err w' →
      w'.order.status = w.order.status ∨
      (ok = true ∧
        (((∃ sn sa coupon tE tX now, c = Order.Call.submit sn sa coupon tE tX now) ∧
            w.order.status = Order.StatusDraft ∧ w'.order.status = Order.StatusSubmitted) ∨
         ((∃ now, c = Order.Call.process now) ∧
            w.order.status = Order.StatusSubmitted ∧
            w'.order.status = Order.StatusProcessed) ∨
         (c = Order.Call.cancel ∧
            w.order.status = Order.StatusSubmitted ∧ w'.order.status = Order.StatusCanceled) ∨
         (c = Order.Call.finishOrder ∧
            w.order.status = Order.StatusProcessed ∧
            w'.order.status = Order.StatusDelivered)))) ∧
    (∀ w cs w', Order.runCalls w cs = some w' →
      w'.order.status = w.order.status ∨
        Order.StatusLater w.order.status w'.order.status) ∧
    (∀ w cs1 w1 cs2 w2, Order.runCalls w cs1 = some w1 → Order.runCalls w1 cs2 = some w2 →
      w1.order.status ≠ w.order.status → w2.order.status ≠ w.order.status) ∧
    (∀ w cs w', Order.runCalls w cs = some w' →
      w.order.status = Order.StatusCanceled → w'.order.status = Order.StatusCanceled) ∧
    (∀ w cs w', Order.runCalls w cs = some w' →
      w.order.status = Order.StatusDelivered → w'.order.status = Order.StatusDelivered) := by
  refine ⟨fun w c ok err w' h => Order.Call.run_status h,
    fun w cs w' h => Order.runCalls_status cs w w' h, ?_, ?_, ?_⟩
  · intro w cs1 w1 cs2 w2 h1 h2 hne heq
    rcases Order.runCalls_status cs1 w w1 h1 with e1 | l1
    · exact hne e1
    · rcases Order.runCalls_status cs2 w1 w2 h2 with e2 | l2
      · rw [← heq, e2] at l1
        exact Order.StatusLater_irrefl _ l1
      · rw [heq] at l2
        exact Order.StatusLater_irrefl _ (Order.StatusLater_trans l1 l2)
  · intro w cs w' h hs
    rcases Order.runCalls_status cs w w' h with e | l
    · rw [e, hs]
    · unfold Order.StatusLater at l
      rw [hs] at l
      rcases l with ⟨ha, _⟩ | ⟨ha, _⟩ | ⟨ha, _⟩ <;> exact absurd ha (by decide)
  · intro w cs w' h hs
    rcases Order.runCalls_status cs w w' h with e | l
    · rw [e, hs]
    · unfold Order.StatusLater at l
      rw [hs] at l
      rcases l with ⟨ha, _⟩ | ⟨ha, _⟩ | ⟨ha, _⟩ <;> exact absurd ha (by decide)

/-- Witness of C23: on the new draft order the calls of `deliveryCalls` (add a
product, submit, process, ship, finish) all return and end in the status
Delivered, a later status of Draft; made on the canceled order they all fail
and leave it Canceled. -/
theorem C23_one_way_state_machine_witness :
    (∃ w', Order.runCalls (Scenario.heap (Scenario.orderWithStatus Order.StatusDraft))
        Scenario.deliveryCalls = some w' ∧
      w'.order.status = Order.StatusDelivered ∧
      (w'.order.status = (Scenario.heap (Scenario.orderWithStatus Order.StatusDraft)).order.status ∨
        Order.StatusLater
          (Scenario.heap (Scenario.orderWithStatus Order.StatusDraft)).order.status
          w'.order.status)) ∧
    (Scenario.heap (Scenario.orderWithStatus Order.StatusCanceled)).order.status =
      Order.StatusCanceled := by
  have hs : (Order.runCalls (Scenario.heap (Scenario.orderWithStatus Order.StatusDraft))
      Scenario.deliveryCalls).map (fun w => w.order.status) = some Order.StatusDelivered := by
    decide!
  have hc : Order.runCalls (Scenario.heap (Scenario.orderWithStatus Order.StatusCanceled))
      Scenario.deliveryCalls =
        some (Scenario.heap (Scenario.orderWithStatus Order.StatusCanceled)) := by
    decide!
  refine ⟨?_, C23_one_way_state_machine.2.2.2.1 _ _ _ hc (by decide)⟩
  cases hrun : Order.runCalls (Scenario.heap (Scenario.orderWithStatus Order.StatusDraft))
      Scenario.deliveryCalls with
  | none =>
    rw [hrun] at hs
    exact absurd hs (by simp)
  | some w' =>
    rw [hrun] at hs
    exact ⟨w', rfl, by simpa using hs, C23_one_way_state_machine.2.1 _ _ w' hrun⟩

end Sstest

namespace Sstest

/-- C24: `Coupon.SetValue(v)` fails when `v` is not positive and, on a coupon
of kind Percentage, also when `v` is 100 or more; it succeeds in every other
case, so a coupon of another kind accepts a value such as 3000.  On success the
value becomes `v` and nothing else changes; on failure an error is returned
(with a nil coupon) and the coupon, its value included, is as it was. -/
theorem C24_SetValue (c : Coupon) (v : Decimal) :
    ((c.SetValue v).2 = none ↔ ¬ (v ≤ 0 ∨ (c.kind = Coupon.KindPercentage ∧ 100 ≤ v))) ∧
    (v ≤ 0 → ∃ e, c.SetValue v = (c, some e)) ∧
    (c.kind = Coupon.KindPercentage → 100 ≤ v → ∃ e, c.SetValue v = (c, some e)) ∧
    (0 < v → c.kind ≠ Coupon.KindPercentage ∨ v < 100 →
      c.SetValue v = ({ c with value := v }, none)) ∧
    (∀ e, (c.SetValue v).2 = some e → (c.SetValue v).1 = c) := by
  rw [Coupon.SetValue_eq]
  by_cases hv : v ≤ 0
  · rw [if_pos hv]
    refine ⟨by simp [hv], fun _ => ⟨_, rfl⟩, fun _ _ => ⟨_, rfl⟩,
      fun h => absurd hv (not_le.mpr h), fun _ _ => rfl⟩
  · rw [if_neg hv]
    by_cases hp : c.kind = Coupon.KindPercentage ∧ 100 ≤ v
    · rw [if_pos hp]
      refine ⟨by simp [hp], fun _ => ⟨_, rfl⟩, fun _ _ => ⟨_, rfl⟩, ?_, fun _ _ => rfl⟩
      intro _ h
      rcases h with h | h
      · exact absurd hp.1 h
      · exact absurd hp.2 (not_le.mpr h)
    · rw [if_neg hp]
      refine ⟨by simp [hv, hp], fun h => absurd h hv, fun h1 h2 => absurd ⟨h1, h2⟩ hp,
        fun _ _ => rfl, fun e h => absurd h (by simp)⟩

/-- Witness of C24: `TestSettingValue`.  The value 0 is refused by the coupon of
kind Value and 3000 by the coupon of kind Percentage, which keep their value;
the coupon of kind Value accepts 3000 and the coupon of kind Percentage 50. -/
theorem C24_SetValue_witness :
    (∃ e, Scenario.kindValueCoupon.SetValue (Decimal.New 0 0) =
      (Scenario.kindValueCoupon, some e)) ∧
    (∃ e, Scenario.kindPercentageCoupon.SetValue (Decimal.New 3000 0) =
      (Scenario.kindPercentageCoupon, some e)) ∧
    Scenario.kindValueCoupon.SetValue (Decimal.New 3000 0) =
      ({ Scenario.kindValueCoupon with value := Decimal.New 3000 0 }, none) ∧
    Scenario.kindPercentageCoupon.SetValue (Decimal.New 50 0) =
      ({ Scenario.kindPercentageCoupon with value := Decimal.New 50 0 }, none) :=
  ⟨(C24_SetValue Scenario.kindValueCoupon (Decimal.New 0 0)).2.1 (by decide!),
    (C24_SetValue Scenario.kindPercentageCoupon (Decimal.New 3000 0)).2.2.1
      (by decide!) (by decide!),
    (C24_SetValue Scenario.kindValueCoupon (Decimal.New 3000 0)).2.2.2.1
      (by decide!) (Or.inl (by decide!)),
    (C24_SetValue Scenario.kindPercentageCoupon (Decimal.New 50 0)).2.2.2.1
      (by decide!) (Or.inr (by decide!))⟩

/-- C25 fails on the code: for the coupon of 25 percent of
`TestGetDiscountAmount` and the amount `decimal.New(1, -16)`, the product
divided by 100 is `decimal.New(25, -18)`, which is not zero, but `Decimal.Div`
keeps 16 decimal places and `GetDiscountAmount` returns zero. -/
theorem C25_counterexample :
    Scenario.kindPercentageCoupon.kind = Coupon.KindPercentage ∧
    Scenario.kindPercentageCoupon.value = Decimal.New 25 0 ∧
    Decimal.New 1 (-16) * Scenario.kindPercentageCoupon.value / 100 = Decimal.New 25 (-18) ∧
    Scenario.kindPercentageCoupon.GetDiscountAmount (Decimal.New 1 (-16)) = Decimal.New 0 0 ∧
    Scenario.kindPercentageCoupon.GetDiscountAmount (Decimal.New 1 (-16)) ≠
      Decimal.New 1 (-16) * Scenario.kindPercentageCoupon.value / 100 := by
  refine ⟨by decide!, by decide!, by decide!, by decide!, by decide!⟩

/-- C25, amended.  For a coupon of kind Percentage `GetDiscountAmount(amount)`
is `amount * value / 100` rounded to 16 decimal places, halves away from zero:
it is within half a unit of the 16th place of `amount * value / 100` and equal
to it whenever that quotient has no more than 16 decimal places.  For a coupon
of another kind, Value in particular, it is the value of the coupon, whatever
the amount.  (The method returns the amount only: it has no assignment to the
coupon.) -/
theorem C25_GetDiscountAmount (c : Coupon) (amount : Decimal) :
    (c.kind = Coupon.KindPercentage →
      c.GetDiscountAmount amount = Decimal.roundPlaces (amount * c.value / 100) 16 ∧
      |c.GetDiscountAmount amount - amount * c.value / 100| ≤ 1 / (2 * (10 : ℚ) ^ 16) ∧
      ∀ n : Int, amount * c.value / 100 * (10 : ℚ) ^ 16 = n →
        c.GetDiscountAmount amount = amount * c.value / 100) ∧
    (c.kind ≠ Coupon.KindPercentage → c.GetDiscountAmount amount = c.value) ∧
    (c.kind = Coupon.KindValue → c.GetDiscountAmount amount = c.value) := by
  have hne : c.kind ≠ Coupon.KindPercentage → c.GetDiscountAmount amount = c.value := by
    intro h
    unfold Coupon.GetDiscountAmount
    rw [if_neg (fun h' => h h'.symm)]
  refine ⟨?_, hne, fun h => hne (by rw [h]; decide)⟩
  intro hk
  have heq : c.GetDiscountAmount amount =
      Decimal.roundPlaces (amount * c.value / 100) 16 := by
    unfold Coupon.GetDiscountAmount
    rw [if_pos hk.symm]
    simp [Decimal.Div, Decimal.Mul, Decimal.New, Decimal.DivisionPrecision]
  refine ⟨heq, ?_, ?_⟩
  · rw [heq]
    exact Decimal.roundPlaces_error _ 16
  · intro n hn
    rw [heq]
    exact Decimal.roundPlaces_of_int _ 16 n hn

/-- Witness of C25, amended: `TestGetDiscountAmount`.  On the amount 50000 the
coupon of 25 percent gives 12500, the quotient having no decimal place, and the
coupon of kind Value and of value 5000 gives 5000. -/
theorem C25_GetDiscountAmount_witness :
    Scenario.kindPercentageCoupon.GetDiscountAmount (Decimal.New 50000 0) =
      Decimal.New 50000 0 * Scenario.kindPercentageCoupon.value / 100 ∧
    Decimal.New 50000 0 * Scenario.kindPercentageCoupon.value / 100 = Decimal.New 12500 0 ∧
    Scenario.kindValueCoupon.GetDiscountAmount (Decimal.New 50000 0) =
      Scenario.kindValueCoupon.value ∧
    Scenario.kindValueCoupon.value = Decimal.New 5000 0 :=
  ⟨((C25_GetDiscountAmount Scenario.kindPercentageCoupon (Decimal.New 50000 0)).1
      (by decide!)).2.2 125000000000000000000 (by decide!),
    by decide!,
    (C25_GetDiscountAmount Scenario.kindValueCoupon (Decimal.New 50000 0)).2.2 (by decide!),
    by decide!⟩

/-- C26: `Coupon.SetKind(k)` succeeds exactly when `k` is a known kind, Value or
Percentage, and it is not the case that `k` is Percentage while the value of
the coupon is 100 or more.  On success the kind becomes `k` and nothing else
changes; on failure an error is returned (with a nil coupon) and the coupon,
its kind included, is as it was. -/
theorem C26_SetKind (c : Coupon) (k : String) :
    ((c.SetKind k).2 = none ↔
      (k = Coupon.KindValue ∨ k = Coupon.KindPercentage) ∧
        ¬ (k = Coupon.KindPercentage ∧ 100 ≤ c.value)) ∧
    ((c.SetKind k).2 = none → c.SetKind k = ({ c with kind := k }, none)) ∧
    ((c.SetKind k).2 ≠ none → ∃ e, c.SetKind k = (c, some e)) := by
  rw [Coupon.SetKind_eq]
  by_cases hk : k ≠ Coupon.KindValue ∧ k ≠ Coupon.KindPercentage
  · rw [if_pos hk]
    refine ⟨?_, fun h => absurd h (by simp), fun _ => ⟨_, rfl⟩⟩
    constructor
    · intro h
      exact absurd h (by simp)
    · rintro ⟨h1 | h1, _⟩
      · exact absurd h1 hk.1
      · exact absurd h1 hk.2
  · rw [if_neg hk]
    have hknown : k = Coupon.KindValue ∨ k = Coupon.KindPercentage := by
      by_contra hcon
      exact hk ⟨fun h => hcon (Or.inl h), fun h => hcon (Or.inr h)⟩
    by_cases hp : k = Coupon.KindPercentage ∧ 100 ≤ c.value
    · rw [if_pos hp]
      refine ⟨?_, fun h => absurd h (by simp), fun _ => ⟨_, rfl⟩⟩
      constructor
      · intro h
        exact absurd h (by simp)
      · rintro ⟨_, h2⟩
        exact absurd hp h2
    · rw [if_neg hp]
      exact ⟨⟨fun _ => ⟨hknown, hp⟩, fun _ => rfl⟩, fun _ => rfl, fun h => absurd rfl h⟩

/-- Witness of C26: `TestSettingKind`.  With the value 50 the coupon of kind
Value becomes a Percentage coupon and the coupon of kind Percentage a Value
coupon; with the value 2000 the coupon of kind Value is refused the kind
Percentage, and an unknown kind is refused. -/
theorem C26_SetKind_witness :
    Scenario.value50CouponKindValue.SetKind Coupon.KindPercentage =
      ({ Scenario.value50CouponKindValue with kind := Coupon.KindPercentage }, none) ∧
    Scenario.value50CouponKindPercentage.SetKind Coupon.KindValue =
      ({ Scenario.value50CouponKindPercentage with kind := Coupon.KindValue }, none) ∧
    (∃ e, Scenario.value2000CouponKindValue.SetKind Coupon.KindPercentage =
      (Scenario.value2000CouponKindValue, some e)) ∧
    (∃ e, Scenario.value50CouponKindValue.SetKind "UnknownKind" =
      (Scenario.value50CouponKindValue, some e)) :=
  ⟨(C26_SetKind Scenario.value50CouponKindValue Coupon.KindPercentage).2.1 (by decide!),
    (C26_SetKind Scenario.value50CouponKindPercentage Coupon.KindValue).2.1 (by decide!),
    (C26_SetKind Scenario.value2000CouponKindValue Coupon.KindPercentage).2.2 (by decide!),
    (C26_SetKind Scenario.value50CouponKindValue "UnknownKind").2.2 (by decide!)⟩

end Sstest

namespace Sstest

/-- C27: the coupon that `coupon.New` makes and every coupon that a sequence of
calls of `SetID`, `SetStock`, `SetStatus`, `SetKind`, `SetValue`,
`SetStartDate`, `SetEndDate`, `IsEarly`, `IsExpired` and `CanBeApplied`,
successful or not, leads to from it has a positive value, and a value below 100
if its kind is Percentage. -/
theorem C27_value_invariant (id : String) (currentTime : Time) (ops : List Coupon.Op) :
    0 < ((Coupon.New id currentTime).runOps ops).value ∧
    (((Coupon.New id currentTime).runOps ops).kind = Coupon.KindPercentage →
      ((Coupon.New id currentTime).runOps ops).value < 100) := by
  apply Coupon.runOps_value
  rw [(Coupon.New_value id currentTime).2]
  exact ⟨by norm_num, fun _ => by norm_num⟩

/-- Witness of C27: on the new coupon, of 10 percent, the value 3000 is refused,
then the kind Value and the value 3000 are accepted and the kind Percentage is
refused; the coupon ends with the kind Value and the value 3000.  The same
calls without the change of kind leave the new coupon at 10 percent. -/
theorem C27_value_invariant_witness :
    ((Coupon.New "newCoupon" 100000).runOps
        [Coupon.Op.setValue (Decimal.New 3000 0), Coupon.Op.setKind Coupon.KindValue,
          Coupon.Op.setValue (Decimal.New 3000 0), Coupon.Op.setKind Coupon.KindPercentage]).kind =
      Coupon.KindValue ∧
    ((Coupon.New "newCoupon" 100000).runOps
        [Coupon.Op.setValue (Decimal.New 3000 0), Coupon.Op.setKind Coupon.KindValue,
          Coupon.Op.setValue (Decimal.New 3000 0), Coupon.Op.setKind Coupon.KindPercentage]).value =
      Decimal.New 3000 0 ∧
    0 < ((Coupon.New "newCoupon" 100000).runOps
        [Coupon.Op.setValue (Decimal.New 3000 0), Coupon.Op.setKind Coupon.KindValue,
          Coupon.Op.setValue (Decimal.New 3000 0), Coupon.Op.setKind Coupon.KindPercentage]).value ∧
    ((Coupon.New "newCoupon" 100000).runOps
        [Coupon.Op.setValue (Decimal.New 3000 0),
          Coupon.Op.setKind Coupon.KindPercentage]).value < 100 :=
  ⟨by decide!, by decide!,
    (C27_value_invariant "newCoupon" 100000
      [Coupon.Op.setValue (Decimal.New 3000 0), Coupon.Op.setKind Coupon.KindValue,
        Coupon.Op.setValue (Decimal.New 3000 0), Coupon.Op.setKind Coupon.KindPercentage]).1,
    (C27_value_invariant "newCoupon" 100000
      [Coupon.Op.setValue (Decimal.New 3000 0), Coupon.Op.setKind Coupon.KindPercentage]).2
      (by decide!)⟩

/-- C28: the coupon that `coupon.New` makes and every coupon that a sequence of
calls of its methods, `SetStartDate` and `SetEndDate` among them, leads to from
it has a start date that is not after its end date.  On every coupon
`SetStartDate(d)` fails exactly when `d` is after the end date and
`SetEndDate(d)` fails exactly when `d` is before the start date; a call that
fails leaves the coupon, both dates included, as it was, and a call that
succeeds sets the date and nothing else. -/
theorem C28_date_invariant :
    (∀ (id : String) (currentTime : Time) (ops : List Coupon.Op),
      ((Coupon.New id currentTime).runOps ops).startDate ≤
        ((Coupon.New id currentTime).runOps ops).endDate) ∧
    (∀ (c : Coupon) (d : Time),
      ((c.SetStartDate d).2 ≠ none ↔ c.endDate < d) ∧
      (c.endDate < d → c.SetStartDate d = (c, some (Error.leaf Site.couponStartDate))) ∧
      (¬ c.endDate < d → c.SetStartDate d = ({ c with startDate := d }, none)) ∧
      ((c.SetEndDate d).2 ≠ none ↔ d < c.startDate) ∧
      (d < c.startDate → c.SetEndDate d = (c, some (Error.leaf Site.couponEndDate))) ∧
      (¬ d < c.startDate → c.SetEndDate d = ({ c with endDate := d }, none))) := by
  constructor
  · intro id currentTime ops
    apply Coupon.runOps_dates
    have h := (Coupon.New_dates id currentTime).2
    have key : ∀ a b : Int, b = a + 7776000 → a ≤ b := by
      intro a b hab
      omega
    exact key _ _ h
  · intro c d
    unfold Coupon.SetStartDate Coupon.SetEndDate
    by_cases h1 : c.endDate < d <;> by_cases h2 : d < c.startDate <;>
      simp [h1, h2]

/-- Witness of C28: the new coupon made at instant 100000 runs from instant 86400
to instant 7862400.  A start date one second after its end date and an end date
one second before its start date are refused; a start date equal to the end
date is accepted; and after these calls and a change of the end date the start
date is still not after the end date. -/
theorem C28_date_invariant_witness :
    Scenario.newCoupon.startDate = 86400 ∧ Scenario.newCoupon.endDate = 7862400 ∧
    Scenario.newCoupon.SetStartDate 7862401 =
      (Scenario.newCoupon, some (Error.leaf Site.couponStartDate)) ∧
    Scenario.newCoupon.SetEndDate 86399 =
      (Scenario.newCoupon, some (Error.leaf Site.couponEndDate)) ∧
    Scenario.newCoupon.SetStartDate 7862400 =
      ({ Scenario.newCoupon with startDate := 7862400 }, none) ∧
    ((Coupon.New "newCoupon" 100000).runOps
        [Coupon.Op.setStartDate 7862401, Coupon.Op.setEndDate 90000,
          Coupon.Op.setStartDate 90001]).startDate ≤
      ((Coupon.New "newCoupon" 100000).runOps
        [Coupon.Op.setStartDate 7862401, Coupon.Op.setEndDate 90000,
          Coupon.Op.setStartDate 90001]).endDate :=
  ⟨by decide!, by decide!,
    (C28_date_invariant.2 Scenario.newCoupon 7862401).2.1 (by decide!),
    (C28_date_invariant.2 Scenario.newCoupon 86399).2.2.2.2.1 (by decide!),
    (C28_date_invariant.2 Scenario.newCoupon 7862400).2.2.1 (by decide!),
    C28_date_invariant.1 "newCoupon" 100000
      [Coupon.Op.setStartDate 7862401, Coupon.Op.setEndDate 90000,
        Coupon.Op.setStartDate 90001]⟩

/-- C29: with the clock read as the one instant `now`, `CanBeApplied` returns
true with no error exactly when the coupon is Active, its start date is not
after `now`, its end date is not before `now` and its stock is positive, and
false with an error otherwise.  The boolean is the same in whatever order the
four checks are made, `IsEarly` and `IsExpired` being made as the code makes
them, with the status they write. -/
theorem C29_CanBeApplied (c : Coupon) (now : Time) :
    (((c.CanBeApplied now now).1 = true ∧ (c.CanBeApplied now now).2.1 = none) ↔
      (c.status = Coupon.StatusActive ∧ c.startDate ≤ now ∧ now ≤ c.endDate ∧ 0 < c.stock)) ∧
    (¬ (c.status = Coupon.StatusActive ∧ c.startDate ≤ now ∧ now ≤ c.endDate ∧ 0 < c.stock) →
      (c.CanBeApplied now now).1 = false ∧ ∃ e, (c.CanBeApplied now now).2.1 = some e) ∧
    (∀ checks : List Coupon.Check,
      checks.Perm [Coupon.Check.status, Coupon.Check.early, Coupon.Check.expired,
        Coupon.Check.stock] →
      c.canBeAppliedInOrder now checks = (c.CanBeApplied now now).1) := by
  have hiff := Coupon.CanBeApplied_true_iff c now now
  refine ⟨hiff, ?_, ?_⟩
  · intro hn
    rcases Coupon.CanBeApplied_err c now now with h | h
    · exact absurd (hiff.mp h) hn
    · exact h
  · intro checks hperm
    rw [Bool.eq_iff_iff, Coupon.canBeAppliedInOrder_eq_true_iff]
    have hmem : (∀ k ∈ checks, (k.run c now).1 = false) ↔
        (∀ k ∈ [Coupon.Check.status, Coupon.Check.early, Coupon.Check.expired,
          Coupon.Check.stock], (k.run c now).1 = false) :=
      ⟨fun h k hk => h k (hperm.mem_iff.mpr hk), fun h k hk => h k (hperm.mem_iff.mp hk)⟩
    rw [hmem, Coupon.Check.run_all_iff, ← hiff]
    constructor
    · exact fun h => h.1
    · intro h
      rcases Coupon.CanBeApplied_err c now now with h' | h'
      · exact h'
      · rw [h'.1] at h
        exact absurd h (by simp)

/-- Witness of C29: at instant 1000 the active coupon can be applied and the
coupon whose start date is to come cannot, also when its stock is checked
first and its start date last. -/
theorem C29_CanBeApplied_witness :
    ((Scenario.activeValueCoupon.CanBeApplied 1000 1000).1 = true ∧
      (Scenario.activeValueCoupon.CanBeApplied 1000 1000).2.1 = none) ∧
    ((Scenario.earlyCoupon.CanBeApplied 1000 1000).1 = false ∧
      ∃ e, (Scenario.earlyCoupon.CanBeApplied 1000 1000).2.1 = some e) ∧
    Scenario.earlyCoupon.canBeAppliedInOrder 1000
        [Coupon.Check.stock, Coupon.Check.expired, Coupon.Check.status, Coupon.Check.early] =
      (Scenario.earlyCoupon.CanBeApplied 1000 1000).1 :=
  ⟨(C29_CanBeApplied Scenario.activeValueCoupon 1000).1.mpr (by decide!),
    (C29_CanBeApplied Scenario.earlyCoupon 1000).2.1 (by decide!),
    (C29_CanBeApplied Scenario.earlyCoupon 1000).2.2
      [Coupon.Check.stock, Coupon.Check.expired, Coupon.Check.status, Coupon.Check.early]
      (by decide)⟩

/-- C30: `IsEarly` returns true exactly when the current time is before the
start date, and then sets the status to Inactive; `IsExpired` returns true
exactly when the current time is after the end date, and then sets the status
to Expired.  When either returns false the coupon is as it was, and neither
changes a field other than the status. -/
theorem C30_IsEarly_IsExpired (c : Coupon) (now : Time) :
    ((c.IsEarly now).1 = true ↔ now < c.startDate) ∧
    (now < c.startDate →
      c.IsEarly now = (true, { c with status := Coupon.StatusInactive })) ∧
    ((c.IsEarly now).1 = false → (c.IsEarly now).2 = c) ∧
    ((c.IsExpired now).1 = true ↔ c.endDate < now) ∧
    (c.endDate < now →
      c.IsExpired now = (true, { c with status := Coupon.StatusExpired })) ∧
    ((c.IsExpired now).1 = false → (c.IsExpired now).2 = c) ∧
    (c.IsEarly now).2 = { c with status := (c.IsEarly now).2.status } ∧
    (c.IsExpired now).2 = { c with status := (c.IsExpired now).2.status } := by
  rw [Coupon.IsEarly_eq, Coupon.IsExpired_eq]
  by_cases h1 : now < c.startDate <;> by_cases h2 : c.endDate < now <;>
    simp [h1, h2]

/-- Witness of C30: at instant 1000 the coupon whose start date is instant 5000
is early and becomes Inactive, and it is not expired and stays as it is; at
instant 8000000, after its end date, it is expired and becomes Expired. -/
theorem C30_IsEarly_IsExpired_witness :
    Scenario.earlyCoupon.IsEarly 1000 =
      (true, { Scenario.earlyCoupon with status := Coupon.StatusInactive }) ∧
    (Scenario.earlyCoupon.IsExpired 1000).2 = Scenario.earlyCoupon ∧
    Scenario.earlyCoupon.IsExpired 8000000 =
      (true, { Scenario.earlyCoupon with status := Coupon.StatusExpired }) :=
  ⟨(C30_IsEarly_IsExpired Scenario.earlyCoupon 1000).2.1 (by decide!),
    (C30_IsEarly_IsExpired Scenario.earlyCoupon 1000).2.2.2.2.2.1 (by decide!),
    (C30_IsEarly_IsExpired Scenario.earlyCoupon 8000000).2.2.2.2.1 (by decide!)⟩

end Sstest

namespace Sstest

/-- C31: the stock of a product is written at submission only.  Whatever they
return, `AddProduct`, `EditProduct` and `DeleteProduct` leave every product, its
stock, status and price included, and every coupon as they were; and
`CanBeOrdered` returns its pair of results and leaves the product as it was. -/
theorem C31_stock_committed_at_submission_only (w : World) :
    (∀ p q uuid ok err w', Order.AddProduct w p q uuid = Outcome.ret ok err w' →
      w'.products = w.products ∧ w'.coupons = w.coupons) ∧
    (∀ p q ok err w', Order.EditProduct w p q = Outcome.ret ok err w' →
      w'.products = w.products ∧ w'.coupons = w.coupons) ∧
    (∀ p ok err w', Order.DeleteProduct w p = Outcome.ret ok err w' →
      w'.products = w.products ∧ w'.coupons = w.coupons) ∧
    (∀ (prod : Product) (q : Int), (Product.Op.canBeOrdered q).run prod = prod) := by
  refine ⟨?_, ?_, ?_, fun _ _ => rfl⟩
  · intro p q uuid ok err w' h
    rw [Order.AddProduct_frame h]
    exact ⟨rfl, rfl⟩
  · intro p q ok err w' h
    rw [Order.EditProduct_frame h]
    exact ⟨rfl, rfl⟩
  · intro p ok err w' h
    rw [Order.DeleteProduct_frame h]
    exact ⟨rfl, rfl⟩

/-- Witness of C31: `TestAddProduct`.  Adding 10 units of `availableProd` to the
new order succeeds and adding 101 units fails, and both calls leave the two
products of the heap as they were. -/
theorem C31_stock_committed_at_submission_only_witness :
    Order.AddProduct (Scenario.heap (Scenario.orderWithStatus Order.StatusDraft)) 0 10 "item1" =
      Outcome.ret true none (Scenario.heap Scenario.addedOrder) ∧
    (Scenario.heap Scenario.addedOrder).products =
      (Scenario.heap (Scenario.orderWithStatus Order.StatusDraft)).products ∧
    (Order.AddProduct (Scenario.heap (Scenario.orderWithStatus Order.StatusDraft)) 0 101
        "item1" =
      Outcome.ret false
        (some (Error.wrap Site.addCannotOrder (Error.leaf Site.productStock)))
        (Scenario.heap (Scenario.orderWithStatus Order.StatusDraft))) :=
  ⟨by decide!,
    ((C31_stock_committed_at_submission_only
      (Scenario.heap (Scenario.orderWithStatus Order.StatusDraft))).1 0 10 "item1" true none
      (Scenario.heap Scenario.addedOrder) (by decide!)).1,
    by decide!⟩

/-- C32: `Product.SetPrice(x)` fails exactly when `x` is negative, with an error
(and a nil product), and then leaves the product, its price included, as it
was; otherwise, zero included, it sets the price to `x` and nothing else.  Hence
the product that `product.New` makes and every product that a sequence of calls
of its methods leads to from it has a price of zero or more. -/
theorem C32_price_invariant :
    (∀ (p : Product) (x : Decimal),
      ((p.SetPrice x).2 ≠ none ↔ x < 0) ∧
      (x < 0 → p.SetPrice x = (p, some (Error.leaf Site.productNegativePrice))) ∧
      (¬ x < 0 → p.SetPrice x = ({ p with price := x }, none))) ∧
    (∀ (id name : String) (ops : List Product.Op),
      0 ≤ ((Product.New id name).runOps ops).price) := by
  constructor
  · intro p x
    rw [Product.SetPrice_eq]
    by_cases h : x < 0 <;> simp [h]
  · intro id name ops
    apply Product.runOps_price
    simp [Product.New, Decimal.New]

/-- Witness of C32: `TestSetPrice`.  On the new product the price 100 is set,
the price -100 is refused and the price 0 is set; after the three calls and a
change of stock the price is 0. -/
theorem C32_price_invariant_witness :
    (Product.New "newProd" "New Product").SetPrice (Decimal.New 100 0) =
      ({ Product.New "newProd" "New Product" with price := Decimal.New 100 0 }, none) ∧
    (Product.New "newProd" "New Product").SetPrice (Decimal.New (-100) 0) =
      (Product.New "newProd" "New Product", some (Error.leaf Site.productNegativePrice)) ∧
    (Product.New "newProd" "New Product").SetPrice (Decimal.New 0 0) =
      ({ Product.New "newProd" "New Product" with price := Decimal.New 0 0 }, none) ∧
    0 ≤ ((Product.New "newProd" "New Product").runOps
      [Product.Op.setPrice (Decimal.New 100 0), Product.Op.setPrice (Decimal.New (-100) 0),
        Product.Op.setStock 7, Product.Op.setPrice (Decimal.New 0 0)]).price :=
  ⟨(C32_price_invariant.1 (Product.New "newProd" "New Product") (Decimal.New 100 0)).2.2
      (by decide!),
    (C32_price_invariant.1 (Product.New "newProd" "New Product") (Decimal.New (-100) 0)).2.1
      (by decide!),
    (C32_price_invariant.1 (Product.New "newProd" "New Product") (Decimal.New 0 0)).2.2
      (by decide!),
    C32_price_invariant.2 "newProd" "New Product"
      [Product.Op.setPrice (Decimal.New 100 0), Product.Op.setPrice (Decimal.New (-100) 0),
        Product.Op.setStock 7, Product.Op.setPrice (Decimal.New 0 0)]⟩

end Sstest

namespace Sstest

/-- C33: for a product, a coupon, an order and a user alike, `SetStatus(s)`
succeeds exactly when `s` is a key of the status map of the entity, and then
sets the status to `s` and nothing else; with any other code it returns an
error (with a nil entity) and leaves the entity, its status included, as it
was.  Hence the status of the entity that the constructor makes, and of every
entity that a sequence of calls of its methods leads to from it, is a key of
the status map. -/
theorem C33_status_in_enum :
    (∀ (p : Product) (s : String),
      ((p.SetStatus s).2 = none ↔ s ∈ Product.statusSlice.map Prod.fst) ∧
      (s ∈ Product.statusSlice.map Prod.fst → p.SetStatus s = ({ p with status := s }, none)) ∧
      (s ∉ Product.statusSlice.map Prod.fst → ∃ e, p.SetStatus s = (p, some e))) ∧
    (∀ (id name : String) (ops : List Product.Op),
      ((Product.New id name).runOps ops).status ∈ Product.statusSlice.map Prod.fst) ∧
    (∀ (c : Coupon) (s : String),
      ((c.SetStatus s).2 = none ↔ s ∈ Coupon.statusMap.map Prod.fst) ∧
      (s ∈ Coupon.statusMap.map Prod.fst → c.SetStatus s = ({ c with status := s }, none)) ∧
      (s ∉ Coupon.statusMap.map Prod.fst → ∃ e, c.SetStatus s = (c, some e))) ∧
    (∀ (id : String) (currentTime : Time) (ops : List Coupon.Op),
      ((Coupon.New id currentTime).runOps ops).status ∈ Coupon.statusMap.map Prod.fst) ∧
    (∀ (o : Order) (s : String),
      ((o.SetStatus s).2 = none ↔ s ∈ Order.statusMap.map Prod.fst) ∧
      (s ∈ Order.statusMap.map Prod.fst → o.SetStatus s = ({ o with status := s }, none)) ∧
      (s ∉ Order.statusMap.map Prod.fst → ∃ e, o.SetStatus s = (o, some e))) ∧
    (∀ (id : String) (now : Time) (products : List Product) (coupons : List Coupon)
        (ms : List Order.Method) (w' : World),
      Order.runMethods { order := Order.New id now, products := products, coupons := coupons }
        ms = some w' →
      w'.order.status ∈ Order.statusMap.map Prod.fst) ∧
    (∀ (u : User) (s : String),
      ((u.SetStatus s).2 = none ↔ s ∈ User.statusSlice.map Prod.fst) ∧
      (s ∈ User.statusSlice.map Prod.fst → u.SetStatus s = ({ u with status := s }, none)) ∧
      (s ∉ User.statusSlice.map Prod.fst → ∃ e, u.SetStatus s = (u, some e))) ∧
    (∀ (id name address : String) (hashedPassword : Option (List Nat)) (u : User)
        (ops : List User.Op),
      (User.New id name address hashedPassword).1 = some u →
      (u.runOps ops).status ∈ User.statusSlice.map Prod.fst) := by
  refine ⟨?_, ?_, ?_, ?_, ?_, ?_, ?_, ?_⟩
  · intro p s
    rw [Product.SetStatus_eq_product]
    by_cases h : s ∈ Product.statusSlice.map Prod.fst
    · rw [if_pos h]
      exact ⟨⟨fun _ => h, fun _ => rfl⟩, fun _ => rfl, fun hn => absurd h hn⟩
    · rw [if_neg h]
      exact ⟨⟨fun hn => absurd hn (by simp), fun hs => absurd hs h⟩, fun hs => absurd hs h,
        fun _ => ⟨_, rfl⟩⟩
  · intro id name ops
    have h0 : Product.StatusPrototype ∈ Product.statusSlice.map Prod.fst := by decide
    exact Product.runOps_status_product ops _ h0
  · intro c s
    rw [Coupon.SetStatus_eq_coupon]
    by_cases h : s ∈ Coupon.statusMap.map Prod.fst
    · rw [if_pos h]
      exact ⟨⟨fun _ => h, fun _ => rfl⟩, fun _ => rfl, fun hn => absurd h hn⟩
    · rw [if_neg h]
      exact ⟨⟨fun hn => absurd hn (by simp), fun hs => absurd hs h⟩, fun hs => absurd hs h,
        fun _ => ⟨_, rfl⟩⟩
  · intro id currentTime ops
    have h0 : Coupon.StatusInactive ∈ Coupon.statusMap.map Prod.fst := by decide
    exact Coupon.runOps_status_coupon ops _ h0
  · intro o s
    rw [Order.SetStatus_eq_order]
    by_cases h : s ∈ Order.statusMap.map Prod.fst
    · rw [if_pos h]
      exact ⟨⟨fun _ => h, fun _ => rfl⟩, fun _ => rfl, fun hn => absurd h hn⟩
    · rw [if_neg h]
      exact ⟨⟨fun hn => absurd hn (by simp), fun hs => absurd hs h⟩, fun hs => absurd hs h,
        fun _ => ⟨_, rfl⟩⟩
  · intro id now products coupons ms w' h
    have h0 : Order.StatusDraft ∈ Order.statusMap.map Prod.fst := by decide
    exact Order.runMethods_status ms _ w' h h0
  · intro u s
    rw [User.SetStatus_eq_user]
    by_cases h : s ∈ User.statusSlice.map Prod.fst
    · rw [if_pos h]
      exact ⟨⟨fun _ => h, fun _ => rfl⟩, fun _ => rfl, fun hn => absurd h hn⟩
    · rw [if_neg h]
      exact ⟨⟨fun hn => absurd hn (by simp), fun hs => absurd hs h⟩, fun hs => absurd hs h,
        fun _ => ⟨_, rfl⟩⟩
  · intro id name address hashedPassword u ops h
    apply User.runOps_status_user
    cases hashedPassword with
    | none => exact absurd h (by simp [User.New])
    | some hash =>
      simp only [User.New, Option.some.injEq] at h
      rw [← h]
      have h0 : User.StatusInactive ∈ User.statusSlice.map Prod.fst := by decide
      exact h0

/-- Witness of C33: the tests `TestSettingUnknownStatusValue`.  The code
"UnknownStatus" is refused by the new product, the new coupon, the new order
and the new user, which keep their status; the new product accepts the code of
Available; and the order that is submitted after a refused `SetStatus` has the
status Submitted, a key of the status map. -/
theorem C33_status_in_enum_witness :
    (∃ e, (Product.New "newProd" "New Product").SetStatus "UnknownStatus" =
      (Product.New "newProd" "New Product", some e)) ∧
    (∃ e, Scenario.newCoupon.SetStatus "UnknownStatus" = (Scenario.newCoupon, some e)) ∧
    (∃ e, (Order.New "newOrder" 1000).SetStatus "UnknownStatus" =
      (Order.New "newOrder" 1000, some e)) ∧
    (∃ e, Scenario.newUser.SetStatus "UnknownStatus" = (Scenario.newUser, some e)) ∧
    (Product.New "newProd" "New Product").SetStatus Product.StatusAvailable =
      ({ Product.New "newProd" "New Product" with status := Product.StatusAvailable }, none) ∧
    (∃ w', Order.runMethods (Scenario.heap (Order.New "newOrder" 1000))
        [Order.Method.setter (Order.Setter.setStatus "UnknownStatus"),
          Order.Method.call (Order.Call.addProduct 0 10 "item1"),
          Order.Method.call (Order.Call.submit "John Doe" "Some Street" none 1000 1000 2000)] =
        some w' ∧
      w'.order.status = Order.StatusSubmitted ∧
      w'.order.status ∈ Order.statusMap.map Prod.fst) := by
  refine ⟨(C33_status_in_enum.1 _ _).2.2 (by decide),
    (C33_status_in_enum.2.2.1 _ _).2.2 (by decide),
    (C33_status_in_enum.2.2.2.2.1 _ _).2.2 (by decide),
    (C33_status_in_enum.2.2.2.2.2.2.1 _ _).2.2 (by decide),
    (C33_status_in_enum.1 _ _).2.1 (by decide), ?_⟩
  have hs : (Order.runMethods (Scenario.heap (Order.New "newOrder" 1000))
      [Order.Method.setter (Order.Setter.setStatus "UnknownStatus"),
        Order.Method.call (Order.Call.addProduct 0 10 "item1"),
        Order.Method.call (Order.Call.submit "John Doe" "Some Street" none 1000 1000 2000)]).map
      (fun w => w.order.status) = some Order.StatusSubmitted := by
    decide!
  cases hrun : Order.runMethods (Scenario.heap (Order.New "newOrder" 1000))
      [Order.Method.setter (Order.Setter.setStatus "UnknownStatus"),
        Order.Method.call (Order.Call.addProduct 0 10 "item1"),
        Order.Method.call (Order.Call.submit "John Doe" "Some Street" none 1000 1000 2000)] with
  | none =>
    rw [hrun] at hs
    exact absurd hs (by simp)
  | some w' =>
    rw [hrun] at hs
    exact ⟨w', rfl, by simpa using hs,
      C33_status_in_enum.2.2.2.2.2.1 "newOrder" 1000 _ _ _ w' hrun⟩

/-- C34: `User.CanOrder` returns true with no error exactly when the status of
the user is Active; for a user of any other status, Inactive or Suspended in
particular, and so for a user that `user.New` has just made, whose status is
Inactive, it returns false with an error.  It returns its pair of results and
leaves the user as it was. -/
theorem C34_CanOrder (u : User) :
    (u.CanOrder = (true, none) ↔ u.status = User.StatusActive) ∧
    (u.status ≠ User.StatusActive → ∃ e, u.CanOrder = (false, some e)) ∧
    (u.status = User.StatusInactive ∨ u.status = User.StatusSuspended →
      ∃ e, u.CanOrder = (false, some e)) ∧
    (∀ (id name address : String) (hashedPassword : Option (List Nat)),
      (User.New id name address hashedPassword).1 = some u →
      u.status = User.StatusInactive ∧ ∃ e, u.CanOrder = (false, some e)) ∧
    User.Op.canOrder.run u = u := by
  have hfail : u.status ≠ User.StatusActive → ∃ e, u.CanOrder = (false, some e) := by
    intro h
    unfold User.CanOrder
    rw [if_pos (fun h' => h h'.symm)]
    exact ⟨_, rfl⟩
  refine ⟨?_, hfail, ?_, ?_, rfl⟩
  · constructor
    · intro h
      by_contra hne
      obtain ⟨e, he⟩ := hfail hne
      rw [he] at h
      exact absurd h (by simp)
    · intro h
      unfold User.CanOrder
      rw [if_neg (by simp [h])]
  · rintro (h | h)
    · exact hfail (by rw [h]; decide)
    · exact hfail (by rw [h]; decide)
  · intro id name address hashedPassword h
    have hs : u.status = User.StatusInactive := by
      cases hashedPassword with
      | none => exact absurd h (by simp [User.New])
      | some hash =>
        simp only [User.New, Option.some.injEq] at h
        rw [← h]
    exact ⟨hs, hfail (by rw [hs]; decide)⟩

/-- Witness of C34: `TestCanOrder`.  The active user can order; the inactive
user, the suspended user and the new user cannot. -/
theorem C34_CanOrder_witness :
    Scenario.activeUser.CanOrder = (true, none) ∧
    (∃ e, Scenario.inactiveUser.CanOrder = (false, some e)) ∧
    (∃ e, Scenario.suspendedUser.CanOrder = (false, some e)) ∧
    (Scenario.newUser.status = User.StatusInactive ∧
      ∃ e, Scenario.newUser.CanOrder = (false, some e)) :=
  ⟨(C34_CanOrder Scenario.activeUser).1.mpr (by decide),
    (C34_CanOrder Scenario.inactiveUser).2.2.1 (Or.inl (by decide)),
    (C34_CanOrder Scenario.suspendedUser).2.2.1 (Or.inr (by decide)),
    (C34_CanOrder Scenario.newUser).2.2.2.1 "newUser" "New User" "New User Address"
      (some Scenario.changemeHash) (by decide)⟩

end Sstest

namespace Sstest

/-- C35: whenever `calculateAmount(coupon)` returns success, no error comes with
it, the amount of the order is the sum over the items of product price times
quantity, whatever the status and the stock of the products, less
`GetDiscountAmount` of that sum when a coupon is given, and nothing else has
changed; whenever it returns failure, an error comes with it and the amount,
like everything else, is as it was. -/
theorem C35_calculateAmount (w : World) (coupon : Option Nat) (ok : Bool)
    (err : Option Error) (w' : World)
    (h : Order.calculateAmount w coupon = Outcome.ret ok err w') :
    (ok = true →
      err = none ∧
      w' = { w with order := { w.order with amount := w'.order.amount } } ∧
      (coupon = none →
        w'.order.amount = Order.subtotalSpec w.products w.order.items) ∧
      (∀ c, coupon = some c → ∃ cpn, w.coupons[c]? = some cpn ∧
        w'.order.amount = Order.subtotalSpec w.products w.order.items -
          cpn.GetDiscountAmount (Order.subtotalSpec w.products w.order.items))) ∧
    (ok = false → (∃ e, err = some e) ∧ w' = w ∧ w'.order.amount = w.order.amount) := by
  cases err with
  | some e =>
    obtain ⟨hok, hw⟩ := Order.calculateAmount_fail h
    refine ⟨fun ht => absurd (hok.symm.trans ht) (by simp), fun _ => ⟨⟨e, rfl⟩, hw, by rw [hw]⟩⟩
  | none =>
    obtain ⟨hok, total, amount, hsum, hw, hcases⟩ := Order.calculateAmount_success h
    refine ⟨fun _ => ?_, fun hf => absurd (hok.symm.trans hf) (by simp)⟩
    have ht := Order.sumItems_eq _ _ _ _ hsum
    simp only [Decimal.New_zero_exp, Int.cast_zero, zero_add] at ht
    have ha : w'.order.amount = amount := by rw [hw]
    refine ⟨rfl, ?_, ?_, ?_⟩
    · rw [ha]
      exact hw
    · intro hc
      rcases hcases with ⟨_, hamt⟩ | ⟨c, cpn, hc', _⟩
      · rw [ha, hamt, ht]
      · rw [hc] at hc'
        exact absurd hc' (by simp)
    · intro c hc
      rcases hcases with ⟨hn, _⟩ | ⟨c', cpn, hc', hcpn, hamt, _⟩
      · rw [hc] at hn
        exact absurd hn (by simp)
      · rw [hc] at hc'
        cases hc'
        refine ⟨cpn, hcpn, ?_⟩
        rw [ha, hamt, ht]
        rfl

/-- Witness of C35: on `validOrder`, of subtotal 1250, `calculateAmount` sets
the amount 1250 without a coupon and 1150 with the coupon of value 100; with
the coupon of value 1250, on the order that already holds that coupon, it
returns failure and changes nothing. -/
theorem C35_calculateAmount_witness :
    Order.subtotalSpec (Scenario.heap Scenario.validOrder).products
      (Scenario.heap Scenario.validOrder).order.items = 1250 ∧
    ({ Scenario.heap Scenario.validOrder with
        order := { Scenario.validOrder with amount := Decimal.New 1250 0 } }).order.amount =
      Order.subtotalSpec (Scenario.heap Scenario.validOrder).products
        (Scenario.heap Scenario.validOrder).order.items ∧
    (∃ cpn, (Scenario.heap Scenario.validOrder).coupons[0]? = some cpn ∧
      ({ Scenario.heap Scenario.validOrder with
          order := { Scenario.validOrder with amount := Decimal.New 1150 0 } }).order.amount =
        Order.subtotalSpec (Scenario.heap Scenario.validOrder).products
          (Scenario.heap Scenario.validOrder).order.items -
        cpn.GetDiscountAmount
          (Order.subtotalSpec (Scenario.heap Scenario.validOrder).products
            (Scenario.heap Scenario.validOrder).order.items)) ∧
    ((∃ e, some (Error.leaf Site.amountNotPositive) = some e) ∧
      Scenario.heap { Scenario.validOrder with coupon := some 4 } =
        Scenario.heap { Scenario.validOrder with coupon := some 4 } ∧
      (Scenario.heap { Scenario.validOrder with coupon := some 4 }).order.amount =
        (Scenario.heap { Scenario.validOrder with coupon := some 4 }).order.amount) :=
  ⟨by decide!,
    ((C35_calculateAmount (Scenario.heap Scenario.validOrder) none true none
      { Scenario.heap Scenario.validOrder with
        order := { Scenario.validOrder with amount := Decimal.New 1250 0 } }
      (by decide!)).1 rfl).2.2.1 rfl,
    ((C35_calculateAmount (Scenario.heap Scenario.validOrder) (some 0) true none
      { Scenario.heap Scenario.validOrder with
        order := { Scenario.validOrder with amount := Decimal.New 1150 0 } }
      (by decide!)).1 rfl).2.2.2 0 rfl,
    (C35_calculateAmount (Scenario.heap { Scenario.validOrder with coupon := some 4 }) (some 4)
      false (some (Error.leaf Site.amountNotPositive))
      (Scenario.heap { Scenario.validOrder with coupon := some 4 })
      (by decide!)).2 rfl⟩

end Sstest

namespace Sstest

/-- C36: in every order reached from `order.New` by calls of `AddProduct`,
`EditProduct` and `DeleteProduct`, with any quantities, every item has a
quantity of 1 or more.  Each of the three calls, on any heap of products, keeps
that property of the items. -/
theorem C36_item_quantity_invariant :
    (∀ w, Order.ItemsReachable w → ∀ kv ∈ w.order.items, 1 ≤ kv.2.quantity) ∧
    (∀ w p q uuid ok err w', Order.AddProduct w p q uuid = Outcome.ret ok err w' →
      Order.QuantitiesPositive w → Order.QuantitiesPositive w') ∧
    (∀ w p q ok err w', Order.EditProduct w p q = Outcome.ret ok err w' →
      Order.QuantitiesPositive w → Order.QuantitiesPositive w') ∧
    (∀ w p ok err w', Order.DeleteProduct w p = Outcome.ret ok err w' →
      Order.QuantitiesPositive w → Order.QuantitiesPositive w') :=
  ⟨fun _ h => Order.ItemsReachable_quantities h,
    fun _ _ _ _ _ _ _ h hinv => Order.AddProduct_quantities h hinv,
    fun _ _ _ _ _ _ h hinv => Order.EditProduct_quantities h hinv,
    fun _ _ _ _ _ h hinv => Order.DeleteProduct_quantities h hinv⟩

/-- Witness of C36: the order of `TestAddProduct` after its first call holds 10
units of `availableProd`; `EditProduct` by -10, which would leave the quantity
0, and `AddProduct` of a quantity beyond the Go `int`, which wraps around to
the least `int`, are both refused, and the quantity is still 10. -/
theorem C36_item_quantity_invariant_witness :
    Order.ItemsReachable (Scenario.heap Scenario.addedOrder) ∧
    Order.EditProduct (Scenario.heap Scenario.addedOrder) 0 (-10) =
      Outcome.ret false
        (some (Error.wrap Site.editCannotOrder (Error.leaf Site.productQuantity)))
        (Scenario.heap Scenario.addedOrder) ∧
    Order.AddProduct (Scenario.heap Scenario.addedOrder) 0 (MaxInt64 - 9) "item2" =
      Outcome.ret false
        (some (Error.wrap Site.addCannotOrderMore (Error.leaf Site.productQuantity)))
        (Scenario.heap Scenario.addedOrder) ∧
    (∀ kv ∈ (Scenario.heap Scenario.addedOrder).order.items, 1 ≤ kv.2.quantity) :=
  have hreach : Order.ItemsReachable (Scenario.heap Scenario.addedOrder) :=
    Order.ItemsReachable.add 0 10 "item1"
      (Order.ItemsReachable.new "newOrder" 1000 (Scenario.heap Scenario.noItemOrder).products
        (Scenario.heap Scenario.noItemOrder).coupons)
      (show Order.AddProduct
          { order := Order.New "newOrder" 1000,
            products := (Scenario.heap Scenario.noItemOrder).products,
            coupons := (Scenario.heap Scenario.noItemOrder).coupons } 0 10 "item1" =
        Outcome.ret true none (Scenario.heap Scenario.addedOrder) by decide!)
  have hedit : Order.EditProduct (Scenario.heap Scenario.addedOrder) 0 (-10) =
      Outcome.ret false
        (some (Error.wrap Site.editCannotOrder (Error.leaf Site.productQuantity)))
        (Scenario.heap Scenario.addedOrder) := by decide!
  have hadd : Order.AddProduct (Scenario.heap Scenario.addedOrder) 0 (MaxInt64 - 9) "item2" =
      Outcome.ret false
        (some (Error.wrap Site.addCannotOrderMore (Error.leaf Site.productQuantity)))
        (Scenario.heap Scenario.addedOrder) := by decide!
  ⟨hreach, hedit, hadd,
    C36_item_quantity_invariant.1 (Scenario.heap Scenario.addedOrder)
      (Order.ItemsReachable.add 0 (MaxInt64 - 9) "item2"
        (Order.ItemsReachable.edit 0 (-10) hreach hedit) hadd)⟩

/-- C37: on an order that holds the product `prod`, at address `p`, in an item
of quantity 1 or more, `AddProduct(p, n)` and `EditProduct(p, n)` return the
same boolean, an error or none alike, and leave the same state, for every `int`
`n`.  Once `CanBeOrdered` has passed for the total, `Item.AddQuantity(n)`
returns no error and sets the quantity to the exact sum. -/
theorem C37_AddProduct_agrees_with_EditProduct (w : World) (p : Nat) (prod : Product)
    (item : Item) (n : Int) (uuid : String)
    (hp : w.products[p]? = some prod) (hl : w.order.items.lookup prod.id = some item)
    (he : 1 ≤ item.quantity) (heR : IsInt64 item.quantity) (hn : IsInt64 n) :
    (∃ ok errA errE w',
      Order.AddProduct w p n uuid = Outcome.ret ok errA w' ∧
      Order.EditProduct w p n = Outcome.ret ok errE w' ∧
      (errA = none ↔ errE = none) ∧ (ok = true ↔ errA = none)) ∧
    ((prod.CanBeOrdered (wrapInt64 (item.quantity + n))).1 = true →
      item.AddQuantity n = ({ item with quantity := item.quantity + n }, none) ∧
      wrapInt64 (item.quantity + n) = item.quantity + n) := by
  have hlow : MinInt64 ≤ item.quantity + n := by
    have h1 := hn.1
    unfold MinInt64 at *
    omega
  have hadd : (prod.CanBeOrdered (wrapInt64 (item.quantity + n))).1 = true →
      item.AddQuantity n = ({ item with quantity := item.quantity + n }, none) ∧
      wrapInt64 (item.quantity + n) = item.quantity + n := by
    intro hc
    have hpos := ((Product.CanBeOrdered_eq_true_iff prod _).mp hc).1
    obtain ⟨hw, h1, h2⟩ := wrapInt64_add_of_pos heR hn hlow hpos
    exact ⟨(Item.AddQuantity_eq item n heR hn).1 ⟨h1, h2⟩, hw⟩
  refine ⟨?_, hadd⟩
  by_cases hd : w.order.status = Order.StatusDraft
  · rw [Order.AddProduct_present n uuid hd hp hl, Order.EditProduct_present n hd hp hl]
    by_cases hc : (prod.CanBeOrdered (wrapInt64 (item.quantity + n))).1 = false
    · rw [if_pos hc, if_pos hc]
      refine ⟨false, _, _, w, rfl, rfl, ?_, by simp [Error.quote]⟩
      rcases Product.CanBeOrdered_err prod (wrapInt64 (item.quantity + n)) with ⟨h1, _⟩ | ⟨_, e, h2⟩
      · rw [h1] at hc
        exact absurd hc (by simp)
      · rw [h2]
        simp [Error.quote]
    · rw [if_neg hc, if_neg hc]
      have hc' : (prod.CanBeOrdered (wrapInt64 (item.quantity + n))).1 = true := by
        simpa using hc
      obtain ⟨ha, hw⟩ := hadd hc'
      rw [ha, hw]
      exact ⟨true, none, none, _, rfl, rfl, Iff.rfl, by simp⟩
  · rw [Order.AddProduct_not_draft w p n uuid hd, Order.EditProduct_not_draft w p n hd]
    exact ⟨false, _, _, w, rfl, rfl, by simp, by simp⟩

/-- Witness of C37: on the order that holds 10 units of `availableProd`, of
stock 100, `AddProduct` and `EditProduct` by 5 both succeed and leave the
quantity 15, `Item.AddQuantity` returning no error. -/
theorem C37_AddProduct_agrees_with_EditProduct_witness :
    (∃ ok errA errE w',
      Order.AddProduct (Scenario.heap Scenario.addedOrder) 0 5 "item2" =
        Outcome.ret ok errA w' ∧
      Order.EditProduct (Scenario.heap Scenario.addedOrder) 0 5 = Outcome.ret ok errE w' ∧
      (errA = none ↔ errE = none) ∧ (ok = true ↔ errA = none)) ∧
    Order.EditProduct (Scenario.heap Scenario.addedOrder) 0 5 =
      Outcome.ret true none
        (Scenario.heap { Scenario.addedOrder with
          items := [("availableProd", { id := "item1", product := 0, quantity := 15 })] }) ∧
    ({ id := "item1", product := 0, quantity := 10 } : Item).AddQuantity 5 =
      ({ id := "item1", product := 0, quantity := 15 }, none) :=
  ⟨(C37_AddProduct_agrees_with_EditProduct (Scenario.heap Scenario.addedOrder) 0
      Scenario.availableProd { id := "item1", product := 0, quantity := 10 } 5 "item2"
      (by decide!) (by decide!) (by decide) (by decide) (by decide)).1,
    by decide!,
    ((C37_AddProduct_agrees_with_EditProduct (Scenario.heap Scenario.addedOrder) 0
      Scenario.availableProd { id := "item1", product := 0, quantity := 10 } 5 "item2"
      (by decide!) (by decide!) (by decide) (by decide) (by decide)).2 (by decide!)).1⟩

end Sstest

namespace Sstest

/-- C38 fails on the code, by the defect of C1: the order of `minStockWorld`
holds one item, of quantity 1, for a product whose stock is the least `int64`.
`Submit` succeeds; the stock afterwards, the greatest `int64`, is not negative,
but it is not the stock before less the quantity, and the quantity was above
the stock before. -/
theorem C38_Submit_stock_not_exact :
    (Scenario.minStockWorld.order.items.map (fun kv => kv.2.product)).Nodup ∧
    Order.Submit Scenario.minStockWorld "ship name" "ship address" none 1000 1000 1000 =
      Outcome.ret true none Scenario.minStockWorldAfter ∧
    Scenario.minStockWorld.order.items.map (fun kv => kv.2.quantity) = [1] ∧
    (Scenario.minStockWorld.products[0]?).map Product.stock = some MinInt64 ∧
    (Scenario.minStockWorldAfter.products[0]?).map Product.stock = some MaxInt64 ∧
    0 ≤ MaxInt64 ∧ MaxInt64 ≠ MinInt64 - 1 ∧ ¬ (1 ≤ MinInt64) := by
  refine ⟨by decide, by decide!, by decide, by decide, by decide, by decide, by decide,
    by decide⟩

/-- C39 fails on the code: the heap of `dupWorld` holds two product objects with
the same id, of stock 5 and of stock 100.  Adding 5 units of the first and then
50 units of the second succeeds, the second call being checked against the
stock 100 and merged into the item of the first product; the order then holds
one item, of 55 units of the product of stock 5, and `Submit` with no coupon
fails. -/
theorem C39_counterexample :
    Order.AddProduct Scenario.dupWorld 0 5 "item1" =
      Outcome.ret true none Scenario.dupWorldFirst ∧
    Order.AddProduct Scenario.dupWorldFirst 1 50 "item2" =
      Outcome.ret true none Scenario.dupWorldAfter ∧
    Order.ItemsReachable Scenario.dupWorldAfter ∧
    Scenario.dupWorldAfter.order.items ≠ [] ∧
    Order.Submit Scenario.dupWorldAfter "ship name" "ship address" none 1000 1000 1000 =
      Outcome.ret false
        (some (Error.wrap Site.submitItem (Error.leaf Site.productStock)))
        Scenario.dupWorldAfter :=
  have h1 : Order.AddProduct Scenario.dupWorld 0 5 "item1" =
      Outcome.ret true none Scenario.dupWorldFirst := by decide!
  have h2 : Order.AddProduct Scenario.dupWorldFirst 1 50 "item2" =
      Outcome.ret true none Scenario.dupWorldAfter := by decide!
  ⟨h1, h2,
    Order.ItemsReachable.add 1 50 "item2"
      (Order.ItemsReachable.add 0 5 "item1"
        (Order.ItemsReachable.new "dupOrder" 1000 Scenario.dupWorld.products
          Scenario.dupWorld.coupons) h1) h2,
    by decide, by decide!⟩

/-- C39, amended.  On a heap whose products have pairwise distinct ids and are
not modified, an order reached from `order.New` by calls of `AddProduct`,
`EditProduct` and `DeleteProduct` that ends with at least one item is submitted
with success when no coupon is given: every item still passes `CanBeOrdered` on
its product, its quantity being positive and its product Available, and the
quantity is not above the stock when that stock is not negative. -/
theorem C39_validation_carries_over (w : World) (h : Order.ItemsReachable w)
    (hids : (w.products.map Product.id).Nodup) (hne : w.order.items ≠ []) :
    (∀ (sn sa : String) (tE tX now : Time),
      ∃ w', Order.Submit w sn sa none tE tX now = Outcome.ret true none w') ∧
    (∀ kv ∈ w.order.items, ∃ prod, w.products[kv.2.product]? = some prod ∧
      (prod.CanBeOrdered kv.2.quantity).1 = true ∧
      0 < kv.2.quantity ∧ prod.status = Product.StatusAvailable ∧
      (IsInt64 prod.stock → IsInt64 kv.2.quantity → 0 ≤ prod.stock →
        kv.2.quantity ≤ prod.stock)) := by
  have hinv := Order.ItemsReachable_canBeOrdered h hids
  constructor
  · intro sn sa tE tX now
    exact Order.Submit_none_succeeds (Order.ItemsReachable_draft h) hne
      ((Order.checkItems_eq_some_none_iff _ _).mpr hinv)
  · intro kv hkv
    obtain ⟨prod, hp, hc⟩ := hinv kv hkv
    obtain ⟨hq, hs, -⟩ := (Product.CanBeOrdered_eq_true_iff prod kv.2.quantity).mp hc
    refine ⟨prod, hp, hc, hq, hs, ?_⟩
    intro h1 h2 h3
    exact ((Product.CanBeOrdered_exact prod kv.2.quantity h1 h2 h3).mp hc).2.2

/-- Witness of C39, amended: the order of `TestAddProduct` after its first
call, 10 units of `availableProd` on the heap of the scenarios, is submitted
with success. -/
theorem C39_validation_carries_over_witness :
    Order.ItemsReachable (Scenario.heap Scenario.addedOrder) ∧
    ((Scenario.heap Scenario.addedOrder).products.map Product.id).Nodup ∧
    ∃ w', Order.Submit (Scenario.heap Scenario.addedOrder) "ship name" "ship address" none
      1000 1000 1000 = Outcome.ret true none w' :=
  have hreach : Order.ItemsReachable (Scenario.heap Scenario.addedOrder) :=
    Order.ItemsReachable.add 0 10 "item1"
      (Order.ItemsReachable.new "newOrder" 1000 (Scenario.heap Scenario.noItemOrder).products
        (Scenario.heap Scenario.noItemOrder).coupons)
      (show Order.AddProduct
          { order := Order.New "newOrder" 1000,
            products := (Scenario.heap Scenario.noItemOrder).products,
            coupons := (Scenario.heap Scenario.noItemOrder).coupons } 0 10 "item1" =
        Outcome.ret true none (Scenario.heap Scenario.addedOrder) by decide!)
  ⟨hreach, by decide,
    (C39_validation_carries_over (Scenario.heap Scenario.addedOrder) hreach (by decide)
      (by decide)).1 "ship name" "ship address" 1000 1000 1000⟩

/-- C40 fails on the code: the order of `tinyWorld` has the subtotal
`decimal.New(1, -16)`, which is positive, and its coupon is of kind Percentage
and of value 50.  `GetDiscountAmount` of the subtotal, rounded to 16 decimal
places, is the whole subtotal, the discounted amount is zero, and
`calculateAmount` rejects the coupon. -/
theorem C40_counterexample :
    Scenario.value50CouponKindPercentage.kind = Coupon.KindPercentage ∧
    Scenario.value50CouponKindPercentage.value = 50 ∧
    Order.sumItems Scenario.tinyWorld.products Scenario.tinyWorld.order.items
      (Decimal.New 0 0) = some (Decimal.New 1 (-16)) ∧
    0 < Decimal.New 1 (-16) ∧
    Scenario.value50CouponKindPercentage.GetDiscountAmount (Decimal.New 1 (-16)) =
      Decimal.New 1 (-16) ∧
    Decimal.New 1 (-16) -
      Scenario.value50CouponKindPercentage.GetDiscountAmount (Decimal.New 1 (-16)) = 0 ∧
    Order.calculateAmount Scenario.tinyWorld (some 0) =
      Outcome.ret false (some (Error.leaf Site.amountNotPositive)) Scenario.tinyWorld := by
  refine ⟨by decide!, by decide!, by decide!, by decide!, by decide!, by decide!, by decide!⟩

/-- C40, amended.  For a coupon of kind Percentage whose value is between 0 and
100 and a positive subtotal, the discounted amount, the subtotal less
`GetDiscountAmount` of it, is within half a unit of the 16th decimal place of
`subtotal * (100 - value) / 100`.  It is that number, strictly between 0 and
the subtotal, when `subtotal * value / 100` has no more than 16 decimal places;
and it is strictly between 0 and the subtotal whenever `subtotal * value / 100`
is at least, and `subtotal * (100 - value) / 100` more than, half a unit of the
16th decimal place.  A discounted amount that is positive passes the amount
check of `calculateAmount`, which then succeeds and sets it. -/
theorem C40_percentage_discount (cpn : Coupon) (subtotal : Decimal)
    (hk : cpn.kind = Coupon.KindPercentage) (hv0 : 0 < cpn.value) (hv1 : cpn.value < 100)
    (hs : 0 < subtotal) :
    |(subtotal - cpn.GetDiscountAmount subtotal) - subtotal * (100 - cpn.value) / 100| ≤
      1 / (2 * (10 : ℚ) ^ 16) ∧
    ((∃ n : Int, subtotal * cpn.value / 100 * (10 : ℚ) ^ 16 = n) →
      subtotal - cpn.GetDiscountAmount subtotal = subtotal * (100 - cpn.value) / 100 ∧
      0 < subtotal - cpn.GetDiscountAmount subtotal ∧
      subtotal - cpn.GetDiscountAmount subtotal < subtotal) ∧
    (1 / (2 * (10 : ℚ) ^ 16) ≤ subtotal * cpn.value / 100 →
      1 / (2 * (10 : ℚ) ^ 16) < subtotal * (100 - cpn.value) / 100 →
      0 < subtotal - cpn.GetDiscountAmount subtotal ∧
      subtotal - cpn.GetDiscountAmount subtotal < subtotal) ∧
    (∀ (w : World) (c : Nat), w.coupons[c]? = some cpn →
      Order.sumItems w.products w.order.items (Decimal.New 0 0) = some subtotal →
      0 < subtotal - cpn.GetDiscountAmount subtotal →
      Order.calculateAmount w (some c) =
        Outcome.ret true none
          { w with order := { w.order with
              amount := subtotal - cpn.GetDiscountAmount subtotal } }) := by
  have heq : cpn.GetDiscountAmount subtotal =
      Decimal.roundPlaces (subtotal * cpn.value / 100) 16 := by
    unfold Coupon.GetDiscountAmount
    rw [if_pos hk.symm]
    simp [Decimal.Div, Decimal.Mul, Decimal.New, Decimal.DivisionPrecision]
  have herr := Decimal.roundPlaces_error (subtotal * cpn.value / 100) 16
  rw [← heq] at herr
  have hx0 : 0 < subtotal * cpn.value / 100 := by positivity
  have hx1 : 0 < subtotal * (100 - cpn.value) / 100 := by
    have : 0 < 100 - cpn.value := by linarith
    positivity
  have hsplit : subtotal * (100 - cpn.value) / 100 = subtotal - subtotal * cpn.value / 100 := by
    ring
  refine ⟨?_, ?_, ?_, ?_⟩
  · have e : (subtotal - cpn.GetDiscountAmount subtotal) - subtotal * (100 - cpn.value) / 100 =
        -(cpn.GetDiscountAmount subtotal - subtotal * cpn.value / 100) := by
      ring
    rw [e, abs_neg]
    exact herr
  · rintro ⟨n, hn⟩
    have hexact : cpn.GetDiscountAmount subtotal = subtotal * cpn.value / 100 := by
      rw [heq]
      exact Decimal.roundPlaces_of_int _ 16 n hn
    rw [hexact]
    refine ⟨by ring, ?_, ?_⟩ <;> linarith
  · intro h1 h2
    have hge := Decimal.roundPlaces_ge (subtotal * cpn.value / 100) 16 h1
    rw [← heq] at hge
    have hupper := (abs_le.mp herr).2
    have hpos16 : (0 : ℚ) < 1 / (10 : ℚ) ^ 16 := by positivity
    constructor <;> linarith
  · intro w c hc hsum hpos
    exact Order.calculateAmount_accepts hc hsum hpos

/-- Witness of C40, amended: with the coupon of 20 percent of `TestSubmitOrder`
and the subtotal 1250 of `validOrder` the discounted amount is 1000, and
`calculateAmount` sets it. -/
theorem C40_percentage_discount_witness :
    (Decimal.New 1250 0 - Scenario.activePercentageCoupon.GetDiscountAmount
        (Decimal.New 1250 0) =
      Decimal.New 1250 0 * (100 - Scenario.activePercentageCoupon.value) / 100 ∧
      0 < Decimal.New 1250 0 -
        Scenario.activePercentageCoupon.GetDiscountAmount (Decimal.New 1250 0) ∧
      Decimal.New 1250 0 -
        Scenario.activePercentageCoupon.GetDiscountAmount (Decimal.New 1250 0) <
        Decimal.New 1250 0) ∧
    Decimal.New 1250 0 * (100 - Scenario.activePercentageCoupon.value) / 100 = 1000 ∧
    Order.calculateAmount (Scenario.heap Scenario.validOrder) (some 1) =
      Outcome.ret true none
        { Scenario.heap Scenario.validOrder with
          order := { (Scenario.heap Scenario.validOrder).order with
            amount := Decimal.New 1250 0 -
              Scenario.activePercentageCoupon.GetDiscountAmount (Decimal.New 1250 0) } } :=
  ⟨(C40_percentage_discount Scenario.activePercentageCoupon (Decimal.New 1250 0)
      (by decide) (by decide!) (by decide!) (by decide!)).2.1
      ⟨2500000000000000000, by decide!⟩,
    by decide!,
    (C40_percentage_discount Scenario.activePercentageCoupon (Decimal.New 1250 0)
      (by decide) (by decide!) (by decide!) (by decide!)).2.2.2
      (Scenario.heap Scenario.validOrder) 1 (by decide!) (by decide!) (by decide!)⟩

end Sstest
